import Mathlib

/-! ASIO bridge: capture-to-broadcast pipeline.

A shallow embedding of the C++ sources under `src/asio-bridge/src`
(`audio_processor.cpp`, `asio_manager.cpp`, `websocket_server.cpp`, `main.cpp`).

Conventions of the embedding:

* `float` / `double` values are rationals (`ℚ`).  The functions of the sample converter
  are written in exact arithmetic (no rounding to the binary format); where a statement
  is about the results of the machine, the function is given with the IEEE 754 roundings
  as well (`resampleIEEE`) or over an arbitrary interpretation of the `float` operations
  (`calculateRMSOn`, `normalizeOn`).
* `int`, `long`, `int16_t`, `int32_t` are `Int`; where the source relies on a
  fixed width the wrap is written out (`toInt32`, `sizeMinusOne`).
* `std::vector<T>` is `List T`; `std::map<K, V>` is an association list kept in
  increasing key order (the iteration order of `std::map`).
* `long` and `int` have the same width on the target platform (Windows), so the casts
  between them are the identity; `m_numChannels`, a vector size, is a `Nat`.
* the operations are modelled without their mutexes: the locks an operation takes, also a
  second acquisition of a lock it already holds, are left out of the state transformers,
  and every operation runs to completion on its own.  The locks are the subject of the
  separate section on lock discipline.
* memory is not a resource of the model: an allocation fails only where the requested
  size is no valid size (`reserve` of a negative number, a vector of more than
  `PTRDIFF_MAX` bytes).
* a registered subscription callback may return or throw; an exception is caught by the
  `try` block of the handler that invoked it.
* `setupBuffers` is declared `void` and yet tested by `startCapture`: `startCapture` is
  given under the reading that the two early returns count as failure, and
  `startCaptureWith` leaves the reading open.
* `createWebSocketFrame` comes from `src/asio-bridge-simple/asio_bridge.cpp`.
-/

set_option autoImplicit false

namespace AsioBridge

/-! ## Sample converter (`audio_processor.cpp`) -/

/-- The value of `static_cast<size_t>(d)` for a double `d ≥ 0`: the fractional part is
discarded.  (For `d < 0` the C++ conversion is undefined; the model yields `0`.) -/
def toSizeT (d : ℚ) : Nat := (Int.floor d).toNat

/-- The value of a float-to-integer `static_cast`: truncation toward zero. -/
def truncToInt (q : ℚ) : Int := if 0 ≤ q then Int.floor q else Int.ceil q

/-- Source `input.size() - 1` in `size_t` arithmetic (64-bit): wraps to `2^64 - 1` when the
vector is empty. -/
def sizeMinusOne (n : Nat) : Nat := (n + 2 ^ 64 - 1) % 2 ^ 64

/-- Source `AudioProcessor::int16ToFloat32`: every sample divided by `32768.0f`. -/
def int16ToFloat32 (int16Data : List Int) : List ℚ :=
  int16Data.map fun (sample : Int) => (sample : ℚ) / 32768

/-- Source `AudioProcessor::float32ToInt16`: clamp to `[-1, 1]`, scale by `32767.0f`, cast. -/
def float32ToInt16 (float32Data : List ℚ) : List Int :=
  float32Data.map fun sample =>
    let sample := max (-1) (min 1 sample)
    truncToInt (sample * 32767)

/-- Source `AudioProcessor::resample` in exact arithmetic: linear interpolation
resampling, every quotient, product and sum being the exact rational one.  The output
vector is created with `outputSize` zero-initialised slots; slot `i` is assigned only under
the guard `index1 < input.size()`.  The rates are `int`s; the quotients are the exact ones
for non-zero divisors (a zero divisor gives `0` here, an infinity in the source).  The
same function with the roundings of the machine is `resampleIEEE`. -/
def resample (input : List ℚ) (inputSampleRate outputSampleRate : Int) : List ℚ :=
  if inputSampleRate = outputSampleRate then input
  else
    let ratio : ℚ := (outputSampleRate : ℚ) / (inputSampleRate : ℚ)
    let outputSize : Nat := toSizeT ((input.length : ℚ) * ratio)
    (List.range outputSize).map fun (i : Nat) =>
      let inputIndex : ℚ := (i : ℚ) / ratio
      let index1 : Nat := toSizeT inputIndex
      let index2 : Nat := min (index1 + 1) (sizeMinusOne input.length)
      let fraction : ℚ := inputIndex - (index1 : ℚ)
      if index1 < input.length then
        input.getD index1 0 * (1 - fraction) + input.getD index2 0 * fraction
      else 0

/-! ### Machine arithmetic

The source computes in `double` and `float`.  A finite value of either type is a rational
`m * 2^e` with `|m| < 2^p` and `e ≥ emin` (`p = 53`, `emin = -1074` for `double`; `p = 24`,
`emin = -149` for `float`), and an arithmetic operation or a conversion yields the exact
result rounded to the nearest such value, a tie going to the even `m` (IEEE 754, default
rounding mode).  Infinities and NaN are not values of the model. -/

/-- The integer nearest to `s`, the even one of the two when `s` lies half-way. -/
def roundHalfEven (s : ℚ) : Int :=
  let f : Int := Int.floor s
  let rest : ℚ := s - (f : ℚ)
  if rest < 1 / 2 then f
  else if 1 / 2 < rest then f + 1
  else if f % 2 = 0 then f
  else f + 1

/-- Rounding to the binary format with `prec` significand bits and least exponent `emin`:
the spacing of the format around `q` is `2^e`, with `e = ⌊log2 |q|⌋ - (prec - 1)` but not
below `emin`, and `q` is rounded to the nearest multiple of it. -/
def roundBinary (prec : Nat) (emin : Int) (q : ℚ) : ℚ :=
  let e : Int := max (Int.log 2 |q| - ((prec : Int) - 1)) emin
  (roundHalfEven (q / 2 ^ e) : ℚ) * 2 ^ e

/-- The `double` nearest to `q` (binary64). -/
def doubleOf (q : ℚ) : ℚ := roundBinary 53 (-1074) q

/-- The `float` nearest to `q` (binary32). -/
def floatOf (q : ℚ) : ℚ := roundBinary 24 (-149) q

/-- Source `AudioProcessor::resample` with the arithmetic of the machine.  The rates and
the sizes are converted to `double`, `ratio`, the product `input.size() * ratio`,
`inputIndex`, `fraction` and the terms of the interpolation are `double` results, and the
interpolated value is converted to `float`.  The result is `none` when the call does not
return a vector: for `inputSampleRate = 0` (`ratio` is an infinity or NaN, whose
conversion to `size_t` is undefined), when the product, truncated, is not a `size_t`
value (undefined conversion as well), and when `outputSize` floats would take more than
`PTRDIFF_MAX` bytes (the constructor of the output vector throws).  Apart from that the
allocation is taken to succeed. -/
def resampleIEEE (input : List ℚ) (inputSampleRate outputSampleRate : Int) :
    Option (List ℚ) :=
  if inputSampleRate = outputSampleRate then some input
  else if inputSampleRate = 0 then none
  else
    let ratio : ℚ :=
      doubleOf (doubleOf (outputSampleRate : ℚ) / doubleOf (inputSampleRate : ℚ))
    let product : ℚ := doubleOf (doubleOf (input.length : ℚ) * ratio)
    if product ≤ -1 ∨ 2 ^ 64 ≤ product then none
    else
      let outputSize : Nat := (truncToInt product).toNat
      if 2 ^ 61 ≤ outputSize then none
      else
        some ((List.range outputSize).map fun (i : Nat) =>
          let inputIndex : ℚ := doubleOf (doubleOf (i : ℚ) / ratio)
          let index1 : Nat := (truncToInt inputIndex).toNat
          let index2 : Nat := min (index1 + 1) (sizeMinusOne input.length)
          let fraction : ℚ := doubleOf (inputIndex - doubleOf (index1 : ℚ))
          if index1 < input.length then
            floatOf (doubleOf (doubleOf (input.getD index1 0 * doubleOf (1 - fraction))
              + doubleOf (input.getD index2 0 * fraction)))
          else 0)

/-! ### Level analysis and normalisation

The functions that take a square root are written over an arbitrary ordered field `F` of
sample values, with `std::sqrt` passed in as the function `sqrt`.  The threshold of
`normalize` is the `float` literal `1e-6f`, whose value is the binary fraction
`8796093 / 2^43 = 8796093 / 8796093022208`, a little below the decimal `1 / 1000000`.
`calculateRMSOn` and `normalizeOn` are the same two functions over any interpretation of
the `float` operations (`FloatOps`), the arithmetic of the machine included. -/

/-- Source `AudioProcessor::calculateRMS`: zero for an empty vector, else the square root of
the mean of the squares, the squares summed from left to right. -/
def calculateRMS {F : Type} [LinearOrderedField F] (sqrt : F → F) (audio : List F) : F :=
  if audio.isEmpty then 0
  else
    let sum : F := audio.foldl (fun sum sample => sum + sample * sample) 0
    sqrt (sum / (audio.length : F))

/-- Source `AudioProcessor::calculatePeak`: zero for an empty vector, else the running
maximum of the absolute values, starting from zero. -/
def calculatePeak {F : Type} [LinearOrderedField F] (audio : List F) : F :=
  if audio.isEmpty then 0
  else audio.foldl (fun peak sample => max peak |sample|) 0

/-- Source `AudioProcessor::normalize`: the input is returned as it is when it is empty or
its RMS is below the `float` constant `1e-6f` (`8796093 / 8796093022208`); otherwise every
sample is multiplied by `scale = targetRMS / currentRMS`. -/
def normalize {F : Type} [LinearOrderedField F] (sqrt : F → F) (audio : List F)
    (targetRMS : F) : List F :=
  if audio.isEmpty then audio
  else
    let currentRMS : F := calculateRMS sqrt audio
    if currentRMS < 8796093 / 8796093022208 then audio
    else
      let scale : F := targetRMS / currentRMS
      audio.map fun sample => sample * scale

/-- The `float` operations of `calculateRMS` and `normalize`, on a type `F` of `float`
values: whatever the arithmetic of the machine is, the two functions are built from
these. -/
structure FloatOps (F : Type) where
  /-- the value of a `float` literal, given by its decimal value -/
  ofLiteral : ℚ → F
  /-- the conversion of a `size_t` to `float` -/
  ofSize : Nat → F
  /-- `a + b` -/
  add : F → F → F
  /-- `a * b` -/
  mul : F → F → F
  /-- `a / b` -/
  div : F → F → F
  /-- `std::sqrt(a)` -/
  sqrt : F → F
  /-- `a < b` -/
  lt : F → F → Bool

/-- Exact arithmetic in an ordered field, with `std::sqrt` passed in; a literal still has
the value of the `float` nearest to its decimal value. -/
def FloatOps.exact {F : Type} [LinearOrderedField F] (sqrt : F → F) : FloatOps F :=
  { ofLiteral := fun q => ((floatOf q : ℚ) : F)
    ofSize := fun n => (n : F)
    add := fun a b => a + b
    mul := fun a b => a * b
    div := fun a b => a / b
    sqrt := sqrt
    lt := fun a b => decide (a < b) }

/-- IEEE 754 `float` arithmetic on finite values: every result is rounded to the nearest
`float`; `std::sqrt` is passed in. -/
def FloatOps.ieee (sqrt : ℚ → ℚ) : FloatOps ℚ :=
  { ofLiteral := floatOf
    ofSize := fun n => floatOf (n : ℚ)
    add := fun a b => floatOf (a + b)
    mul := fun a b => floatOf (a * b)
    div := fun a b => floatOf (a / b)
    sqrt := sqrt
    lt := fun a b => decide (a < b) }

/-- Source `AudioProcessor::calculateRMS` over the operations `ops`. -/
def calculateRMSOn {F : Type} (ops : FloatOps F) (audio : List F) : F :=
  if audio.isEmpty then ops.ofLiteral 0
  else
    let sum : F :=
      audio.foldl (fun sum sample => ops.add sum (ops.mul sample sample)) (ops.ofLiteral 0)
    ops.sqrt (ops.div sum (ops.ofSize audio.length))

/-- Source `AudioProcessor::normalize` over the operations `ops`; the threshold is the
literal `1e-6f`. -/
def normalizeOn {F : Type} (ops : FloatOps F) (audio : List F) (targetRMS : F) : List F :=
  if audio.isEmpty then audio
  else
    let currentRMS : F := calculateRMSOn ops audio
    if ops.lt currentRMS (ops.ofLiteral (1 / 1000000)) then audio
    else
      let scale : F := ops.div targetRMS currentRMS
      audio.map fun sample => ops.mul sample scale

/-- Source `AudioProcessor::isValidAudioData`: false for an empty vector, and false as soon as
a sample is NaN or infinite.  The tests `std::isnan` and `std::isinf` are passed in as
`isnan` and `isinf`. -/
def isValidAudioData {F : Type} (isnan isinf : F → Bool) (audio : List F) : Bool :=
  if audio.isEmpty then false
  else audio.all fun sample => !(isnan sample || isinf sample)

/-- The value of an integer converted to `size_t` (64-bit): reduction modulo `2^64`. -/
def wrapSizeT (z : Int) : Nat := (z % 2 ^ 64).toNat

/-- The loop of `AudioProcessor::chunkAudio` from index `i` on, `chunks` being the chunks
pushed so far.  Each iteration costs one unit of `fuel`; the result is `none` when the
fuel runs out before the loop condition `i < audio.size()` fails.  `i + chunkSize` and
`i += chunkSize` are computed in `size_t`. -/
def chunkAudioLoop {F : Type} (audio : List F) (chunkSize : Int) :
    Nat → Nat → List (List F) → Option (List (List F))
  | 0, i, chunks => if i < audio.length then none else some chunks
  | fuel + 1, i, chunks =>
    if i < audio.length then
      let stop : Nat := min (wrapSizeT ((i : Int) + chunkSize)) audio.length
      chunkAudioLoop audio chunkSize fuel (wrapSizeT ((i : Int) + chunkSize))
        (chunks ++ [(audio.drop i).take (stop - i)])
    else some chunks

/-- Source `AudioProcessor::chunkAudio`, run with the given fuel. -/
def chunkAudio {F : Type} (audio : List F) (chunkSize : Int) (fuel : Nat) :
    Option (List (List F)) :=
  chunkAudioLoop audio chunkSize fuel 0 []

/-! ## 24-bit sample decoding (`ASIOManager::processAudioData`, Int24LSB branch) -/

/-- Reinterpret a 32-bit pattern as a two's complement `int32_t`. -/
def toInt32 (n : Int) : Int := (n + 2 ^ 31) % 2 ^ 32 - 2 ^ 31

/-- One iteration of the Int24LSB loop:
`int32_t sample = (b0 << 8) | (b1 << 16) | (b2 << 24); sample >>= 8;`
followed by the division by `8388608.0f`.  Shifts are taken modulo `2^32`. -/
def int24Sample (b0 b1 b2 : Nat) : ℚ :=
  let pattern : Nat :=
    (b0 <<< 8) % 2 ^ 32 ||| (b1 <<< 16) % 2 ^ 32 ||| (b2 <<< 24) % 2 ^ 32
  let sample : Int := toInt32 (pattern : Int)
  let sample : Int := sample >>> (8 : Nat)
  (sample : ℚ) / 8388608

/-- The Int24LSB loop over a packed byte buffer: sample `j` is read from bytes
`j*3`, `j*3+1`, `j*3+2`. -/
def samplesInt24 (buffer : Nat → Nat) (bufferSize : Int) : List ℚ :=
  (List.range bufferSize.toNat).map fun (j : Nat) =>
    int24Sample (buffer (j * 3)) (buffer (j * 3 + 1)) (buffer (j * 3 + 2))

/-! ## `std::map` as an ordered association list -/

/-- Source `std::map::find`: the value stored under `k`, if any. -/
def mapFind {K V : Type} [DecidableEq K] (m : List (K × V)) (k : K) : Option V :=
  match m with
  | [] => none
  | (k', v) :: rest => if k' = k then some v else mapFind rest k

/-- Source `f(m[k])`: `operator[]` inserts a default-constructed value `dflt` at the key's place
in the order when `k` is absent, then the mapped value is modified in place by `f`. -/
def mapModify {K V : Type} [LinearOrder K] (m : List (K × V)) (k : K) (dflt : V) (f : V → V) :
    List (K × V) :=
  match m with
  | [] => [(k, f dflt)]
  | (k', v) :: rest =>
    if k < k' then (k, f dflt) :: (k', v) :: rest
    else if k = k' then (k', f v) :: rest
    else (k', v) :: mapModify rest k dflt f

/-- In-place modification through the iterator returned by a successful `find`;
nothing happens when the key is absent. -/
def mapAdjust {K V : Type} [DecidableEq K] (m : List (K × V)) (k : K) (f : V → V) :
    List (K × V) :=
  m.map fun pair => if pair.1 = k then (pair.1, f pair.2) else pair

/-- Source `std::map::erase(key)`. -/
def mapErase {K V : Type} [DecidableEq K] (m : List (K × V)) (k : K) : List (K × V) :=
  m.filter fun pair => decide (pair.1 ≠ k)

/-- The erase-remove idiom `v.erase(std::remove(v.begin(), v.end(), x), v.end())`. -/
def eraseRemove {A : Type} [DecidableEq A] (v : List A) (x : A) : List A :=
  v.filter fun y => decide (y ≠ x)

/-! ## Subscription registry (`websocket_server.cpp`) -/

/-- Source `ConnectionHandle`: the identity of a client connection. -/
abbrev ConnectionHandle := Nat

/-- The JSON messages the server hands to `m_server.send`. -/
inductive Message where
  | subscribed (channelId : Int)
  | unsubscribed (channelId : Int)
  | audioData (channelId : Int) (samples : List ℚ) (timestamp : ℚ) (sampleRate : Int)
  | channelList (channels : List String)
  | deviceList
deriving DecidableEq

/-- Source `struct ChannelSubscription`. -/
structure ChannelSubscription where
  channelId : Int
  channelName : String
  isActive : Bool
deriving DecidableEq

/-- The fields of `WebSocketServerManager` that the subscription logic uses, with two
ghost traces: `callbackLog` records every invocation `m_subscriptionCallback(id, flag)`
and `sentLog` every `m_server.send(hdl, message)`, both in call order.  The callable held
by `m_subscriptionCallback` is described by how an invocation ends: `callbackThrows id flag`
says that `m_subscriptionCallback(id, flag)` throws a `std::exception` instead of
returning. -/
structure WebSocketServerManager where
  m_connections : List (ConnectionHandle × List Int)
  m_channelSubscriptions : List (Int × List ConnectionHandle)
  /-- whether `m_subscriptionCallback` holds a callable -/
  hasSubscriptionCallback : Bool
  /-- whether the invocation of the callable with these arguments throws -/
  callbackThrows : Int → Bool → Bool
  m_availableChannels : List String
  callbackLog : List (Int × Bool)
  sentLog : List (ConnectionHandle × Message)

namespace WebSocketServerManager

/-- A freshly constructed manager: empty maps, no callback registered. -/
def empty : WebSocketServerManager :=
  { m_connections := [], m_channelSubscriptions := [], hasSubscriptionCallback := false,
    callbackThrows := fun _ _ => false,
    m_availableChannels := [], callbackLog := [], sentLog := [] }

/-- Source `setSubscriptionCallback` with a callable argument whose invocations all
return. -/
def setSubscriptionCallback (s : WebSocketServerManager) : WebSocketServerManager :=
  { s with hasSubscriptionCallback := true, callbackThrows := fun _ _ => false }

/-- Source `setSubscriptionCallback` with a callable argument that throws a
`std::exception` on the invocations selected by `throws`. -/
def setSubscriptionCallbackThrowing (s : WebSocketServerManager)
    (throws : Int → Bool → Bool) : WebSocketServerManager :=
  { s with hasSubscriptionCallback := true, callbackThrows := throws }

/-- Source `if (m_subscriptionCallback) m_subscriptionCallback(channelId, flag);`: the
invocation is recorded, however it ends. -/
def notify (s : WebSocketServerManager) (channelId : Int) (flag : Bool) :
    WebSocketServerManager :=
  if s.hasSubscriptionCallback then { s with callbackLog := s.callbackLog ++ [(channelId, flag)] }
  else s

/-- Whether the statement `if (m_subscriptionCallback) m_subscriptionCallback(channelId, flag);`
is left by an exception. -/
def callbackThrown (s : WebSocketServerManager) (channelId : Int) (flag : Bool) : Bool :=
  s.hasSubscriptionCallback && s.callbackThrows channelId flag

/-- Source `sendToClient` (a failing send is caught and logged; the trace records the call). -/
def sendToClient (s : WebSocketServerManager) (hdl : ConnectionHandle) (message : Message) :
    WebSocketServerManager :=
  { s with sentLog := s.sentLog ++ [(hdl, message)] }

/-- Source `broadcastToSubscribers`: one send per key of `m_connections`. -/
def broadcastToSubscribers (s : WebSocketServerManager) (message : Message) :
    WebSocketServerManager :=
  { s with sentLog := s.sentLog ++ s.m_connections.map fun conn => (conn.1, message) }

/-- Source `sendChannelList`: caches the channel names, then broadcasts them. -/
def sendChannelList (s : WebSocketServerManager) (channels : List String) :
    WebSocketServerManager :=
  broadcastToSubscribers { s with m_availableChannels := channels } (.channelList channels)

/-- Source `getSubscriptions`: one entry per key of `m_channelSubscriptions`, in key order;
`channelName` is left default-constructed. -/
def getSubscriptions (s : WebSocketServerManager) : List ChannelSubscription :=
  s.m_channelSubscriptions.map fun pair =>
    { channelId := pair.1, channelName := "", isActive := !pair.2.isEmpty }

/-- Source `handleSubscribe`.  `message` is the outcome of `json::parse(message)["channelId"]`:
`none` when parsing or the conversion to `int` throws (the handler then only logs).  The
body is one `try` block: an exception thrown by the callback is caught at its end, so the
statements after the callback are skipped. -/
def handleSubscribe (s : WebSocketServerManager) (hdl : ConnectionHandle)
    (message : Option Int) : WebSocketServerManager :=
  match message with
  | none => s
  | some channelId =>
    -- Add to subscriptions
    let s := { s with m_channelSubscriptions :=
                 mapModify s.m_channelSubscriptions channelId [] (fun subs => subs ++ [hdl]) }
    -- Add to connections
    let s := { s with m_connections :=
                 mapModify s.m_connections hdl [] (fun chans => chans ++ [channelId]) }
    -- Notify callback
    let s := s.notify channelId true
    if s.callbackThrown channelId true then s
    else
      -- Send confirmation
      s.sendToClient hdl (.subscribed channelId)

/-- The statements of `handleUnsubscribe` that follow the block on
`m_channelSubscriptions`: the channel is removed from the connection's list and the
confirmation is sent. -/
def unsubscribeConnection (s : WebSocketServerManager) (hdl : ConnectionHandle)
    (channelId : Int) : WebSocketServerManager :=
  -- Remove from connections
  let s := { s with m_connections :=
               mapAdjust s.m_connections hdl (fun chans => eraseRemove chans channelId) }
  -- Send confirmation
  s.sendToClient hdl (.unsubscribed channelId)

/-- Source `handleUnsubscribe`, with `message` as in `handleSubscribe`.  The callback is
invoked inside the block on `m_channelSubscriptions`, before `m_connections` is touched;
the body is one `try` block, so an exception thrown by the callback is caught at its end
and the statements after the callback are skipped. -/
def handleUnsubscribe (s : WebSocketServerManager) (hdl : ConnectionHandle)
    (message : Option Int) : WebSocketServerManager :=
  match message with
  | none => s
  | some channelId =>
    -- Remove from subscriptions
    match mapFind s.m_channelSubscriptions channelId with
    | some subscribers =>
      let s := { s with m_channelSubscriptions :=
                   mapAdjust s.m_channelSubscriptions channelId (fun subs => eraseRemove subs hdl) }
      -- If no more subscribers, notify callback
      if (eraseRemove subscribers hdl).isEmpty then
        let s := s.notify channelId false
        if s.callbackThrown channelId false then s
        else s.unsubscribeConnection hdl channelId
      else s.unsubscribeConnection hdl channelId
    | none => s.unsubscribeConnection hdl channelId

/-- Source `onClose`: the handle is removed from every subscriber list and from
`m_connections`. -/
def onClose (s : WebSocketServerManager) (hdl : ConnectionHandle) : WebSocketServerManager :=
  { s with
    m_channelSubscriptions :=
      s.m_channelSubscriptions.map fun pair => (pair.1, eraseRemove pair.2 hdl)
    m_connections := mapErase s.m_connections hdl }

/-- Source `sendAudioData`: the audio message goes to every subscriber of `channelId`. -/
def sendAudioData (s : WebSocketServerManager) (channelId : Int) (samples : List ℚ)
    (timestamp : ℚ) : WebSocketServerManager :=
  match mapFind s.m_channelSubscriptions channelId with
  | some subscribers =>
    { s with sentLog := s.sentLog ++
        subscribers.map fun hdl => (hdl, Message.audioData channelId samples timestamp 24000) }
  | none => s

/-- The registry states reached from empty maps by the operations that change the
subscriptions (`handleSubscribe`, `handleUnsubscribe`, `onClose`, with any connection and
any message) and by the operations that leave them alone, when no invocation of the
subscription callback throws. -/
inductive Reachable : WebSocketServerManager → Prop where
  | start (s : WebSocketServerManager) :
      s.m_connections = [] → s.m_channelSubscriptions = [] →
      (∀ (channelId : Int) (flag : Bool), s.callbackThrows channelId flag = false) → Reachable s
  | handleSubscribe (hdl : ConnectionHandle) (message : Option Int)
      {s : WebSocketServerManager} : Reachable s → Reachable (s.handleSubscribe hdl message)
  | handleUnsubscribe (hdl : ConnectionHandle) (message : Option Int)
      {s : WebSocketServerManager} : Reachable s → Reachable (s.handleUnsubscribe hdl message)
  | onClose (hdl : ConnectionHandle) {s : WebSocketServerManager} :
      Reachable s → Reachable (s.onClose hdl)
  | setSubscriptionCallback {s : WebSocketServerManager} :
      Reachable s → Reachable s.setSubscriptionCallback
  | sendChannelList (channels : List String) {s : WebSocketServerManager} :
      Reachable s → Reachable (s.sendChannelList channels)
  | sendAudioData (channelId : Int) (samples : List ℚ) (timestamp : ℚ)
      {s : WebSocketServerManager} :
      Reachable s → Reachable (s.sendAudioData channelId samples timestamp)

end WebSocketServerManager

/-! ## Capture session (`asio_manager.cpp`) -/

/-- Source `ASIOSampleType` of the ASIO SDK header `asio.h` (the header is not part of the
repository): the three constants `processAudioData` compares against, and `other code`
for every other sample type the driver may report. -/
inductive ASIOSampleType where
  | ASIOSTInt16LSB
  | ASIOSTFloat32LSB
  | ASIOSTInt24LSB
  | other (code : Int)
deriving DecidableEq

/-- The memory behind one `void*` driver buffer, as read through each of the three
pointer casts of `processAudioData`. -/
structure RawBuffer where
  /-- Source `static_cast<int16_t*>(p)[j]` -/
  asInt16 : Nat → Int
  /-- Source `static_cast<float*>(p)[j]` -/
  asFloat : Nat → ℚ
  /-- Source `static_cast<uint8_t*>(p)[j]` -/
  asBytes : Nat → Nat

/-- Source `ASIOBufferInfo`: `buffers[0]`, `buffers[1]` are the two halves of the double buffer
(`none` is the null pointer). -/
structure ASIOBufferInfo where
  isInput : Bool
  channelNum : Int
  buffers : Fin 2 → Option RawBuffer

/-- Source `ASIOChannelInfo`, the fields the source uses. -/
structure ASIOChannelInfo where
  channel : Int
  isInput : Bool
  type : ASIOSampleType

/-- Source `struct AudioChunk`. -/
structure AudioChunk where
  channelId : Int
  samples : List ℚ
  timestamp : ℚ
  sampleRate : Int
deriving DecidableEq

/-- The answers of the external driver (`IASIO`) during one operation. -/
structure Driver where
  /-- Source `ASIOInit(&m_asio) == ASE_OK` -/
  asioInitOk : Bool
  /-- Source `m_asio->init(0) == ASE_OK` -/
  initOk : Bool
  /-- value stored by `getSampleRate` -/
  sampleRate : Int
  /-- Source `preferredSize` when `getBufferSize` answers `ASE_OK`, else `none` -/
  preferredSize : Option Int
  /-- sample type stored by `getChannelInfo` for a channel -/
  channelType : Int → ASIOSampleType
  /-- Source `createBuffers`: `none` is an error code, otherwise the buffer pointers the driver
  stores in `buffers[0..1]` of the entry of each channel -/
  createBuffers : Option (Int → Fin 2 → Option RawBuffer)
  /-- Source `m_asio->start() == ASE_OK` -/
  startOk : Bool

/-- Calls into the driver that change its state (ghost trace). -/
inductive DriverCall where
  | asioInit
  | init
  | exit
  | disposeBuffers
  | createBuffers (numChannels : Nat) (bufferSize : Int)
  | start
  | stop
deriving DecidableEq

/-- The fields of `ASIOManager`.  `m_asio` records whether the pointer is non-null,
`threadJoinable` whether `m_captureThread` is joinable; `driverCalls` (calls into the
driver) and `forwarded` (chunks passed to `m_audioCallback`) are ghost traces. -/
structure ASIOManager where
  m_asio : Bool
  m_currentDevice : String
  m_bufferInfos : Option (List ASIOBufferInfo)
  m_channelInfos : Option (List ASIOChannelInfo)
  m_bufferSize : Int
  m_sampleRate : Int
  m_numChannels : Nat
  m_isCapturing : Bool
  m_shouldStop : Bool
  threadJoinable : Bool
  hasAudioCallback : Bool
  m_activeChannels : List Int
  m_audioQueue : List AudioChunk
  driverCalls : List DriverCall
  forwarded : List AudioChunk

/-- What the test `!setupBuffers()` of `startCapture` reads.  The source declares
`setupBuffers` as `void`, so it does not say which Boolean the test sees; a reading
gives one for each of the three ways the body of `setupBuffers` is left. -/
structure SetupReading where
  /-- read at the `return` of the guard `!m_asio || m_numChannels == 0` -/
  nothingToSetup : Bool
  /-- read at the `return` that follows a failed `createBuffers` -/
  createBuffersFailed : Bool
  /-- read when the body runs to its end -/
  completed : Bool
deriving DecidableEq

/-- The reading in which both early `return`s count as failure. -/
def SetupReading.failureOnReturn : SetupReading :=
  { nothingToSetup := false, createBuffersFailed := false, completed := true }

/-- The reading in which the guard's `return` (nothing to set up) counts as success. -/
def SetupReading.successOnGuard : SetupReading :=
  { nothingToSetup := true, createBuffersFailed := false, completed := true }

namespace ASIOManager

/-- The constructor `ASIOManager::ASIOManager()`. -/
def new : ASIOManager :=
  { m_asio := false, m_currentDevice := "", m_bufferInfos := none, m_channelInfos := none,
    m_bufferSize := 0, m_sampleRate := 0, m_numChannels := 0, m_isCapturing := false,
    m_shouldStop := false, threadJoinable := false, hasAudioCallback := false,
    m_activeChannels := [], m_audioQueue := [], driverCalls := [], forwarded := [] }

/-- Source `isCapturing()`. -/
def isCapturing (m : ASIOManager) : Bool := m.m_isCapturing

/-- Source `getCurrentDevice()`. -/
def getCurrentDevice (m : ASIOManager) : String := m.m_currentDevice

/-- Record a call into the driver. -/
def call (m : ASIOManager) (c : DriverCall) : ASIOManager :=
  { m with driverCalls := m.driverCalls ++ [c] }

/-- Source `closeDevice`. -/
def closeDevice (m : ASIOManager) : ASIOManager :=
  let m := if m.m_asio then
      let m := m.call .disposeBuffers
      let m := m.call .exit
      { m with m_asio := false }
    else m
  { m with m_currentDevice := "" }

/-- Source `openDevice`; the Boolean is the return value.  A failing `ASIOInit` leaves
`m_asio` null. -/
def openDevice (drv : Driver) (m : ASIOManager) (deviceName : String) : ASIOManager × Bool :=
  let m := if m.m_asio then m.closeDevice else m
  -- Load ASIO driver
  let m := m.call .asioInit
  if !drv.asioInitOk then (m, false)
  else
    let m := { m with m_asio := true }
    -- Initialize ASIO
    let m := m.call .init
    if !drv.initOk then (m, false)
    else
      let m := { m with m_currentDevice := deviceName, m_sampleRate := drv.sampleRate }
      let m := { m with m_bufferSize :=
                   match drv.preferredSize with
                   | some preferredSize => preferredSize
                   | none => 1024 }
      (m, true)

/-- Source `cleanupBuffers`. -/
def cleanupBuffers (m : ASIOManager) : ASIOManager :=
  let m := if m.m_asio then m.call .disposeBuffers else m
  { m with m_bufferInfos := none, m_channelInfos := none }

/-- Source `setupBuffers`.  The source declares it `void` while `startCapture` tests its
result; here it has the Boolean of the reading `SetupReading.failureOnReturn`: `false` on
the two early `return`s (nothing to set up, `createBuffers` failed), `true` when it runs to
the end.  `setupBuffersWith` is the same function with the reading left open.
`m_activeChannels[i]` is read for `i < m_numChannels`. -/
def setupBuffers (drv : Driver) (m : ASIOManager) : ASIOManager × Bool :=
  if !m.m_asio || m.m_numChannels == 0 then (m, false)
  else
    -- Allocate buffer info, setup buffer info and channel info for each channel
    let bufferInfos : List ASIOBufferInfo :=
      (List.range m.m_numChannels).map fun (i : Nat) =>
        { isInput := true, channelNum := m.m_activeChannels.getD i 0, buffers := fun _ => none }
    let channelInfos : List ASIOChannelInfo :=
      (List.range m.m_numChannels).map fun (i : Nat) =>
        { channel := m.m_activeChannels.getD i 0, isInput := true,
          type := drv.channelType (m.m_activeChannels.getD i 0) }
    let m := { m with m_bufferInfos := some bufferInfos, m_channelInfos := some channelInfos }
    -- Create buffers
    let m := m.call (.createBuffers m.m_numChannels m.m_bufferSize)
    match drv.createBuffers with
    | none => (m.cleanupBuffers, false)
    | some pointers =>
      let filled : List ASIOBufferInfo :=
        bufferInfos.map fun info => { info with buffers := pointers info.channelNum }
      ({ m with m_bufferInfos := some filled }, true)

/-- Source `stopCapture`.  Joining the capture thread ends it; what the thread forwards while
it runs is the separate step `captureThreadDrain`. -/
def stopCapture (m : ASIOManager) : ASIOManager :=
  if !m.m_isCapturing then m
  else
    let m := { m with m_shouldStop := true, m_isCapturing := false }
    let m := if m.m_asio then m.call .stop else m
    let m := if m.threadJoinable then { m with threadJoinable := false } else m
    m.cleanupBuffers

/-- Source `startCapture`; the Boolean is the return value. -/
def startCapture (drv : Driver) (m : ASIOManager) (deviceName : String)
    (channelIds : List Int) : ASIOManager × Bool :=
  let m := if m.m_isCapturing then m.stopCapture else m
  let (m, opened) := m.openDevice drv deviceName
  if !opened then (m, false)
  else
    let m := { m with m_activeChannels := channelIds, m_numChannels := channelIds.length }
    let (m, buffersOk) := m.setupBuffers drv
    if !buffersOk then (m, false)
    else
      -- Start ASIO
      let m := m.call .start
      if !drv.startOk then (m, false)
      else
        -- Start capture thread
        ({ m with m_isCapturing := true, m_shouldStop := false, threadJoinable := true }, true)

/-- Source `setupBuffers` with the Boolean of the call site taken from the reading `r`. -/
def setupBuffersWith (r : SetupReading) (drv : Driver) (m : ASIOManager) :
    ASIOManager × Bool :=
  if !m.m_asio || m.m_numChannels == 0 then (m, r.nothingToSetup)
  else
    -- Allocate buffer info, setup buffer info and channel info for each channel
    let bufferInfos : List ASIOBufferInfo :=
      (List.range m.m_numChannels).map fun (i : Nat) =>
        { isInput := true, channelNum := m.m_activeChannels.getD i 0, buffers := fun _ => none }
    let channelInfos : List ASIOChannelInfo :=
      (List.range m.m_numChannels).map fun (i : Nat) =>
        { channel := m.m_activeChannels.getD i 0, isInput := true,
          type := drv.channelType (m.m_activeChannels.getD i 0) }
    let m := { m with m_bufferInfos := some bufferInfos, m_channelInfos := some channelInfos }
    -- Create buffers
    let m := m.call (.createBuffers m.m_numChannels m.m_bufferSize)
    match drv.createBuffers with
    | none => (m.cleanupBuffers, r.createBuffersFailed)
    | some pointers =>
      let filled : List ASIOBufferInfo :=
        bufferInfos.map fun info => { info with buffers := pointers info.channelNum }
      ({ m with m_bufferInfos := some filled }, r.completed)

/-- Source `startCapture` with the test `!setupBuffers()` read by `r`; the Boolean is the
return value. -/
def startCaptureWith (r : SetupReading) (drv : Driver) (m : ASIOManager) (deviceName : String)
    (channelIds : List Int) : ASIOManager × Bool :=
  let m := if m.m_isCapturing then m.stopCapture else m
  let (m, opened) := m.openDevice drv deviceName
  if !opened then (m, false)
  else
    let m := { m with m_activeChannels := channelIds, m_numChannels := channelIds.length }
    let (m, buffersOk) := m.setupBuffersWith r drv
    if !buffersOk then (m, false)
    else
      -- Start ASIO
      let m := m.call .start
      if !drv.startOk then (m, false)
      else
        -- Start capture thread
        ({ m with m_isCapturing := true, m_shouldStop := false, threadJoinable := true }, true)

/-- The conversion chain of `processAudioData` for one channel buffer: the samples
vector starts empty and is filled by the branch of the channel's sample type, if any. -/
def convertSamples (type : ASIOSampleType) (buffer : RawBuffer) (bufferSize : Int) : List ℚ :=
  if type = .ASIOSTInt16LSB then
    (List.range bufferSize.toNat).map fun (j : Nat) => (buffer.asInt16 j : ℚ) / 32768
  else if type = .ASIOSTFloat32LSB then
    (List.range bufferSize.toNat).map fun (j : Nat) => buffer.asFloat j
  else if type = .ASIOSTInt24LSB then
    samplesInt24 buffer.asBytes bufferSize
  else []

/-- One iteration `i` of the channel loop of `processAudioData`.  The outer `none` means
that the iteration does not run to its end: an access through a null or too short array
(undefined behaviour in the source), or `samples.reserve(m_bufferSize)` throwing
`std::length_error` because the size is negative (converted to `size_t` it exceeds
`max_size()`); the `reserve` comes before the sample type is looked at.  Inside, `none`
means the iteration pushes nothing (null buffer pointer). -/
def channelChunk (m : ASIOManager) (doubleBufferIndex : Fin 2) (timestamp : ℚ) (i : Nat) :
    Option (Option AudioChunk) :=
  match m.m_bufferInfos with
  | none => none
  | some bufferInfos =>
    match bufferInfos[i]? with
    | none => none
    | some info =>
      match info.buffers doubleBufferIndex with
      | none => some none
      | some buffer =>
        -- samples.reserve(m_bufferSize)
        if m.m_bufferSize < 0 then none
        else
          match m.m_channelInfos with
          | none => none
          | some channelInfos =>
            match channelInfos[i]?, m.m_activeChannels[i]? with
            | some channelInfo, some channelId =>
              some (some { channelId := channelId
                           samples := convertSamples channelInfo.type buffer m.m_bufferSize
                           timestamp := timestamp
                           sampleRate := m.m_sampleRate })
            | _, _ => none

/-- The channel loop of `processAudioData` over the indices still to visit. -/
def processChannels (m : ASIOManager) (doubleBufferIndex : Fin 2) (timestamp : ℚ) :
    List Nat → Option ASIOManager
  | [] => some m
  | i :: rest =>
    match m.channelChunk doubleBufferIndex timestamp i with
    | none => none
    | some none => processChannels m doubleBufferIndex timestamp rest
    | some (some chunk) =>
      -- Queue for processing
      processChannels { m with m_audioQueue := m.m_audioQueue ++ [chunk] }
        doubleBufferIndex timestamp rest

/-- Source `processAudioData`; `timestamp` is the clock value read once at the start of the
call.  The result is `none` when the source would dereference a null or too short
array, or when `reserve` throws (see `channelChunk`). -/
def processAudioData (m : ASIOManager) (doubleBufferIndex : Fin 2) (timestamp : ℚ) :
    Option ASIOManager :=
  if !m.m_isCapturing || !m.m_asio then some m
  else m.processChannels doubleBufferIndex timestamp (List.range m.m_numChannels)

/-- One iteration of the inner loop of `captureThread`: the front chunk is copied and
popped, then passed to the audio callback if one is set.  (Nothing happens on an empty
queue, where the loop is not entered.) -/
def dispatchOne (m : ASIOManager) : ASIOManager :=
  match m.m_audioQueue with
  | [] => m
  | chunk :: rest =>
    let m := { m with m_audioQueue := rest }
    if m.hasAudioCallback then { m with forwarded := m.forwarded ++ [chunk] } else m

/-- The inner loop `while (!m_audioQueue.empty())` of `captureThread`, run on the chunks
`queue` that are queued when it starts. -/
def captureThreadDrainFrom (m : ASIOManager) : List AudioChunk → ASIOManager
  | [] => { m with m_audioQueue := [] }
  | chunk :: rest =>
    let m := { m with m_audioQueue := rest }
    let m := if m.hasAudioCallback then { m with forwarded := m.forwarded ++ [chunk] } else m
    captureThreadDrainFrom m rest

/-- One pass of the outer loop of `captureThread` after its wait: the queue is drained to
the audio callback. -/
def captureThreadDrain (m : ASIOManager) : ASIOManager :=
  m.captureThreadDrainFrom m.m_audioQueue

/-- The queue push that ends an iteration of the channel loop of `processAudioData`. -/
def pushChunk (m : ASIOManager) (chunk : AudioChunk) : ASIOManager :=
  { m with m_audioQueue := m.m_audioQueue ++ [chunk] }

/-- Source `setAudioCallback` with a callable argument. -/
def setAudioCallback (m : ASIOManager) : ASIOManager :=
  { m with hasAudioCallback := true }

/-- The driver callback `sampleRateDidChange`. -/
def sampleRateDidChange (m : ASIOManager) (sRate : Int) : ASIOManager :=
  { m with m_sampleRate := sRate }

/-- Source `getChannels`, as far as the session is concerned: the device is (re)opened. -/
def getChannels (drv : Driver) (m : ASIOManager) (deviceName : String) : ASIOManager :=
  (m.openDevice drv deviceName).1

/-- The states a session can be in when the test `!setupBuffers()` is read by `r`: a new
manager, followed by any sequence of the public operations and driver callbacks, the
driver answering freely each time. -/
inductive ReachableWith (r : SetupReading) : ASIOManager → Prop where
  | new : ReachableWith r ASIOManager.new
  | getChannels (drv : Driver) (deviceName : String) {m : ASIOManager} :
      ReachableWith r m → ReachableWith r (m.getChannels drv deviceName)
  | startCapture (drv : Driver) (deviceName : String) (channelIds : List Int)
      {m : ASIOManager} :
      ReachableWith r m → ReachableWith r (m.startCaptureWith r drv deviceName channelIds).1
  | stopCapture {m : ASIOManager} : ReachableWith r m → ReachableWith r m.stopCapture
  | setAudioCallback {m : ASIOManager} : ReachableWith r m → ReachableWith r m.setAudioCallback
  | sampleRateDidChange (sRate : Int) {m : ASIOManager} :
      ReachableWith r m → ReachableWith r (m.sampleRateDidChange sRate)
  | processAudioData (doubleBufferIndex : Fin 2) (timestamp : ℚ) {m m' : ASIOManager} :
      ReachableWith r m → m.processAudioData doubleBufferIndex timestamp = some m' →
      ReachableWith r m'
  | captureThreadDrain {m : ASIOManager} : ReachableWith r m → ReachableWith r m.captureThreadDrain

/-- The states of a session after a `stopCapture` has returned and before the next
`startCapture` that succeeds: any other operation or driver callback may have run in
between, as well as `startCapture` calls that returned `false`. -/
inductive StoppedSince : ASIOManager → Prop where
  | stopCapture (m : ASIOManager) : StoppedSince m.stopCapture
  | getChannels (drv : Driver) (deviceName : String) {m : ASIOManager} :
      StoppedSince m → StoppedSince (m.getChannels drv deviceName)
  | failedStart (drv : Driver) (deviceName : String) (channelIds : List Int)
      {m : ASIOManager} : StoppedSince m → (m.startCapture drv deviceName channelIds).2 = false →
      StoppedSince (m.startCapture drv deviceName channelIds).1
  | setAudioCallback {m : ASIOManager} : StoppedSince m → StoppedSince m.setAudioCallback
  | sampleRateDidChange (sRate : Int) {m : ASIOManager} :
      StoppedSince m → StoppedSince (m.sampleRateDidChange sRate)
  | processAudioData (doubleBufferIndex : Fin 2) (timestamp : ℚ) {m m' : ASIOManager} :
      StoppedSince m → m.processAudioData doubleBufferIndex timestamp = some m' →
      StoppedSince m'
  | captureThreadDrain {m : ASIOManager} : StoppedSince m → StoppedSince m.captureThreadDrain

/-- The two accesses to the hand-off queue, each made under `m_bufferMutex`: a push by
the driver callback and one iteration of the dispatch loop. -/
inductive HandOffEvent where
  | push (chunk : AudioChunk)
  | dispatch

/-- An interleaving of pushes and dispatch iterations, applied in order. -/
def runHandOff (m : ASIOManager) : List HandOffEvent → ASIOManager
  | [] => m
  | .push chunk :: rest => runHandOff (m.pushChunk chunk) rest
  | .dispatch :: rest => runHandOff m.dispatchOne rest

/-- The chunks pushed by an interleaving, in push order. -/
def pushedChunks : List HandOffEvent → List AudioChunk
  | [] => []
  | .push chunk :: rest => chunk :: pushedChunks rest
  | .dispatch :: rest => pushedChunks rest

end ASIOManager

/-! ## Coordinator callbacks (`main.cpp`) -/

/-- The call `onSubscriptionChange` makes on the capture session. -/
inductive CaptureCall where
  | startCapture (deviceName : String) (channelIds : List Int)
  | stopCapture
deriving DecidableEq

/-- The decision of `onSubscriptionChange` (both globals non-null): the ids of the
subscriptions reported active are collected in order; a non-empty list restarts capture
on the current device, if there is one, and an empty list stops capture. -/
def onSubscriptionChangeCall (ws : WebSocketServerManager) (asio : ASIOManager) :
    Option CaptureCall :=
  let subscriptions := ws.getSubscriptions
  let activeChannels : List Int :=
    (subscriptions.filter fun sub => sub.isActive).map fun sub => sub.channelId
  -- Restart capture with new channel list
  if !activeChannels.isEmpty then
    let currentDevice := asio.getCurrentDevice
    if !currentDevice.isEmpty then some (.startCapture currentDevice activeChannels)
    else none
  else some .stopCapture

/-- Source `onSubscriptionChange(channelId, subscribed)`: the decided call applied to the
capture session.  The two arguments are only printed. -/
def onSubscriptionChange (drv : Driver) (ws : WebSocketServerManager) (asio : ASIOManager)
    (_channelId : Int) (_subscribed : Bool) : ASIOManager :=
  match onSubscriptionChangeCall ws asio with
  | some (.startCapture deviceName channelIds) => (asio.startCapture drv deviceName channelIds).1
  | some .stopCapture => asio.stopCapture
  | none => asio

/-- The mutexes of `ASIOManager` and `WebSocketServerManager`. -/
inductive Mutex where
  | asio_m_mutex
  | asio_m_callbackMutex
  | asio_m_bufferMutex
  | ws_m_subscriptionsMutex
  | ws_m_connectionsMutex
  | ws_m_callbackMutex
  | ws_m_channelsMutex
deriving DecidableEq

/-- How a call chain ends: it runs to completion, or it tries to lock a mutex that the
same thread already holds and so never returns. -/
inductive LockOutcome where
  | completes
  | blocksOn (mutex : Mutex)
deriving DecidableEq

namespace Locking

/-- A `std::lock_guard` on `mutex` taken by a thread that holds the mutexes `held`:
`none` when the thread holds `mutex` already, else the mutexes held inside the guard. -/
def acquire (held : List Mutex) (mutex : Mutex) : Option (List Mutex) :=
  if mutex ∈ held then none else some (mutex :: held)

/-- Locks of `ASIOManager::stopCapture`: `m_mutex` on entry; the rest of the body takes no
mutex on the calling thread. -/
def stopCapture (held : List Mutex) : LockOutcome :=
  match acquire held .asio_m_mutex with
  | none => .blocksOn .asio_m_mutex
  | some _ => .completes

/-- Locks of `ASIOManager::startCapture`: `m_mutex` on entry, then, inside that guard,
the call `stopCapture()` when the session is capturing; `openDevice` and `setupBuffers`
take no mutex. -/
def startCapture (held : List Mutex) (asio : ASIOManager) : LockOutcome :=
  match acquire held .asio_m_mutex with
  | none => .blocksOn .asio_m_mutex
  | some held => if asio.m_isCapturing then stopCapture held else .completes

/-- Locks of `WebSocketServerManager::getSubscriptions`: `m_subscriptionsMutex`. -/
def getSubscriptions (held : List Mutex) : LockOutcome :=
  match acquire held .ws_m_subscriptionsMutex with
  | none => .blocksOn .ws_m_subscriptionsMutex
  | some _ => .completes

/-- Locks of `onSubscriptionChange`: the call `getSubscriptions()`, then the call it
decides on, `startCapture` or `stopCapture`. -/
def onSubscriptionChange (held : List Mutex) (ws : WebSocketServerManager)
    (asio : ASIOManager) : LockOutcome :=
  match getSubscriptions held with
  | .blocksOn mutex => .blocksOn mutex
  | .completes =>
    match onSubscriptionChangeCall ws asio with
    | some (.startCapture _ _) => startCapture held asio
    | some .stopCapture => stopCapture held
    | none => .completes

/-- Locks of `WebSocketServerManager::handleSubscribe` with `onSubscriptionChange` as the
registered callback: the guards on `m_subscriptionsMutex`, `m_connectionsMutex` and
`m_callbackMutex` are taken one after the other in the same block, and the callback runs
inside all three, on the maps as updated by the request. -/
def handleSubscribe (held : List Mutex) (ws : WebSocketServerManager) (asio : ASIOManager)
    (hdl : ConnectionHandle) (message : Option Int) : LockOutcome :=
  match message with
  | none => .completes
  | some channelId =>
    match acquire held .ws_m_subscriptionsMutex with
    | none => .blocksOn .ws_m_subscriptionsMutex
    | some held =>
      match acquire held .ws_m_connectionsMutex with
      | none => .blocksOn .ws_m_connectionsMutex
      | some held =>
        match acquire held .ws_m_callbackMutex with
        | none => .blocksOn .ws_m_callbackMutex
        | some held =>
          if ws.hasSubscriptionCallback then
            onSubscriptionChange held (ws.handleSubscribe hdl (some channelId)) asio
          else .completes

/-- Locks of `WebSocketServerManager::handleUnsubscribe` with `onSubscriptionChange` as
the registered callback: `m_subscriptionsMutex` for the whole block; when the channel is
found and its subscriber list is empty after the erase, `m_callbackMutex` around the
callback; after that `m_connectionsMutex`. -/
def handleUnsubscribe (held : List Mutex) (ws : WebSocketServerManager) (asio : ASIOManager)
    (hdl : ConnectionHandle) (message : Option Int) : LockOutcome :=
  match message with
  | none => .completes
  | some channelId =>
    match acquire held .ws_m_subscriptionsMutex with
    | none => .blocksOn .ws_m_subscriptionsMutex
    | some held =>
      let notified : LockOutcome :=
        match mapFind ws.m_channelSubscriptions channelId with
        | some subscribers =>
          if (eraseRemove subscribers hdl).isEmpty then
            match acquire held .ws_m_callbackMutex with
            | none => .blocksOn .ws_m_callbackMutex
            | some inner =>
              if ws.hasSubscriptionCallback then
                onSubscriptionChange inner (ws.handleUnsubscribe hdl (some channelId)) asio
              else .completes
          else .completes
        | none => .completes
      match notified with
      | .blocksOn mutex => .blocksOn mutex
      | .completes =>
        match acquire held .ws_m_connectionsMutex with
        | none => .blocksOn .ws_m_connectionsMutex
        | some _ => .completes

end Locking

/-! ## Frame encoding (`asio-bridge-simple/asio_bridge.cpp`) -/

namespace SimpleWebSocket

/-- Source `SimpleWebSocket::createWebSocketFrame`.  The characters of the `std::string`s are
bytes, written as numbers below 256; `data.length()` is a 64-bit `size_t`.  The loop
`for (int i = 7; i >= 0; i--)` visits `i = 7, 6, .., 0`. -/
def createWebSocketFrame (data : List Nat) : List Nat :=
  -- Byte 0: FIN=1, RSV=000, Opcode=2 (binary)
  let frame : List Nat := [0x82]
  -- Byte 1: MASK=0, Payload length
  let frame : List Nat :=
    if data.length < 126 then
      frame ++ [data.length % 256]
    else if data.length < 65536 then
      frame ++ [126, (data.length >>> 8) &&& 0xFF, data.length &&& 0xFF]
    else
      frame ++ [127] ++ ([7, 6, 5, 4, 3, 2, 1, 0].map fun (i : Nat) =>
        (data.length >>> (i * 8)) &&& 0xFF)
  -- Payload
  frame ++ data

end SimpleWebSocket

/-! ## Example states -/

/-- A server with a registered callback on which connection 1 has subscribed to
channel 0. -/
def subscribedOnce : WebSocketServerManager :=
  (WebSocketServerManager.empty.setSubscriptionCallback).handleSubscribe 1 (some 0)

/-- A server with a registered callback that has cached a two-channel enumeration. -/
def twoChannelServer : WebSocketServerManager :=
  (WebSocketServerManager.empty.setSubscriptionCallback).sendChannelList ["In 1", "In 2"]

/-- A server on which connections 1 and 2 have subscribed to channel 0 and connection 1
also to channel 1. -/
def sharedChannel : WebSocketServerManager :=
  ((subscribedOnce.handleSubscribe 2 (some 0)).handleSubscribe 1 (some 1))

/-- A server on which connection 1 has subscribed to channel 0 and unsubscribed again. -/
def unsubscribedAgain : WebSocketServerManager := subscribedOnce.handleUnsubscribe 1 (some 0)

/-- Zero-filled buffer memory. -/
def zeroBuffer : RawBuffer :=
  { asInt16 := fun _ => 0, asFloat := fun _ => 0, asBytes := fun _ => 0 }

/-- A driver that answers every call with success: 48 kHz, buffers of 4 frames, 16-bit
samples, all buffer pointers non-null (zero-filled memory). -/
def okDriver : Driver :=
  { asioInitOk := true, initOk := true, sampleRate := 48000, preferredSize := some 4,
    channelType := fun _ => .ASIOSTInt16LSB,
    createBuffers := some fun _ _ => some zeroBuffer,
    startOk := true }

/-- A session on which the device `"dev"` has been opened (by `getChannels`). -/
def openSession : ASIOManager := (ASIOManager.new.openDevice okDriver "dev").1

/-- A session capturing channel 0 of `"dev"` on `okDriver`. -/
def capturingSession : ASIOManager := (ASIOManager.new.startCapture okDriver "dev" [0]).1

/-- The session `capturingSession` after `stopCapture`. -/
def stoppedSession : ASIOManager := capturingSession.stopCapture

/-- A session capturing channels 0 and 1 of `"dev"` on `okDriver`. -/
def stereoSession : ASIOManager := (ASIOManager.new.startCapture okDriver "dev" [0, 1]).1

/-- An interleaving: two pushes, one dispatch iteration, one more push. -/
def exampleHandOff : List ASIOManager.HandOffEvent :=
  [.push ⟨0, [], 1, 48000⟩, .push ⟨1, [], 1, 48000⟩, .dispatch, .push ⟨0, [], 2, 48000⟩]

/-- A driver whose `start` call fails after its buffers have been created. -/
def startFailingDriver : Driver := { okDriver with startOk := false }

/-- A driver that reports a sample type other than the three handled ones (code 18,
32-bit integer little endian in the SDK) for every channel. -/
def int32Driver : Driver := { okDriver with channelType := fun _ => .other 18 }

/-- A session capturing channels 0 and 1 of `"dev"` on `int32Driver`. -/
def int32Session : ASIOManager := (ASIOManager.new.startCapture int32Driver "dev" [0, 1]).1

/-- A server whose subscription callback throws on every invocation, after connection 1
has subscribed to channel 0. -/
def throwingSubscribed : WebSocketServerManager :=
  (WebSocketServerManager.empty.setSubscriptionCallbackThrowing fun _ _ => true).handleSubscribe
    1 (some 0)

/-! ## Theorems: sample converter -/

theorem toSizeT_natCast_mul_div (n : Nat) (a b : Int) (ha : 0 < a) :
    toSizeT ((n : ℚ) * ((b : ℚ) / (a : ℚ))) = ((n : Int) * b / a).toNat := by
  unfold toSizeT
  congr 1
  obtain ⟨a', rfl⟩ := Int.eq_ofNat_of_zero_le ha.le
  have h : (n : ℚ) * ((b : ℚ) / ((a' : Int) : ℚ)) = (((n : Int) * b : Int) : ℚ) / ((a' : Nat) : ℚ) := by
    push_cast
    ring
  rw [h, Rat.floor_intCast_div_natCast]

theorem resample_length_of_ne (x : List ℚ) (src dst : Int) (hne : src ≠ dst) :
    (resample x src dst).length = toSizeT ((x.length : ℚ) * ((dst : ℚ) / (src : ℚ))) := by
  unfold resample
  rw [if_neg hne]
  simp only [List.length_map, List.length_range]

/-! ### Machine arithmetic -/

theorem roundHalfEven_of_abs_sub_lt (s : ℚ) (m : Int) (h : |s - (m : ℚ)| < 1 / 2) :
    roundHalfEven s = m := by
  rw [abs_lt] at h
  unfold roundHalfEven
  by_cases hs : (m : ℚ) ≤ s
  · have hf : Int.floor s = m := by
      rw [Int.floor_eq_iff]
      constructor
      · exact hs
      · linarith
    simp only [hf]
    rw [if_pos (by linarith)]
  · have hf : Int.floor s = m - 1 := by
      rw [Int.floor_eq_iff]
      push_cast
      constructor <;> linarith
    simp only [hf]
    push_cast
    rw [if_neg (by linarith), if_pos (by linarith)]
    ring

theorem abs_roundHalfEven_sub_le (s : ℚ) : |(roundHalfEven s : ℚ) - s| ≤ 1 / 2 := by
  have h1 := Int.floor_le s
  have h2 := Int.lt_floor_add_one s
  unfold roundHalfEven
  simp only
  rw [abs_le]
  split_ifs with ha hb hc
  · constructor <;> linarith
  · push_cast; constructor <;> linarith
  · have : s - (Int.floor s : ℚ) = 1 / 2 := le_antisymm (not_lt.mp hb) (not_lt.mp ha)
    constructor <;> linarith
  · have : s - (Int.floor s : ℚ) = 1 / 2 := le_antisymm (not_lt.mp hb) (not_lt.mp ha)
    push_cast
    constructor <;> linarith

theorem int_log_two_eq (q : ℚ) (k : Int) (h1 : (2 : ℚ) ^ k ≤ q) (h2 : q < (2 : ℚ) ^ (k + 1)) :
    Int.log 2 q = k := by
  have hq : 0 < q := lt_of_lt_of_le (by positivity) h1
  have hle : k ≤ Int.log 2 q := by
    rw [← Int.zpow_le_iff_le_log (by norm_num) hq]
    exact_mod_cast h1
  have hlt : Int.log 2 q < k + 1 := by
    rw [← Int.lt_zpow_iff_log_lt (by norm_num) hq]
    exact_mod_cast h2
  omega

theorem roundBinary_zero (prec : Nat) (emin : Int) : roundBinary prec emin 0 = 0 := by
  unfold roundBinary
  simp [roundHalfEven]

/-- Evaluation of a rounding from a certificate: the binade of `q` and the integer
nearest to the scaled value. -/
theorem roundBinary_eq_of_near (prec : Nat) (emin : Int) (q : ℚ) (k e m : Int)
    (h1 : (2 : ℚ) ^ k ≤ |q|) (h2 : |q| < (2 : ℚ) ^ (k + 1))
    (he : e = max (k - ((prec : Int) - 1)) emin)
    (hm : |q / (2 : ℚ) ^ e - (m : ℚ)| < 1 / 2) :
    roundBinary prec emin q = (m : ℚ) * (2 : ℚ) ^ e := by
  unfold roundBinary
  simp only
  rw [int_log_two_eq |q| k h1 h2, ← he, roundHalfEven_of_abs_sub_lt _ m hm]

theorem abs_roundBinary_sub_le (prec : Nat) (emin : Int) (q : ℚ)
    (hq : (2 : ℚ) ^ (emin + (prec : Int) - 1) ≤ |q|) :
    |roundBinary prec emin q - q| ≤ |q| / (2 : ℚ) ^ prec := by
  have hpos : 0 < |q| := lt_of_lt_of_le (by positivity) hq
  have hlog : emin + (prec : Int) - 1 ≤ Int.log 2 |q| := by
    rw [← Int.zpow_le_iff_le_log (by norm_num) hpos]
    exact_mod_cast hq
  have hself : (2 : ℚ) ^ (Int.log 2 |q|) ≤ |q| := by
    have := Int.zpow_log_le_self (b := 2) (by norm_num) hpos
    exact_mod_cast this
  unfold roundBinary
  simp only
  rw [max_eq_left (by omega)]
  set e : Int := Int.log 2 |q| - ((prec : Int) - 1) with he
  have hepos : (0 : ℚ) < (2 : ℚ) ^ e := by positivity
  have hfac : (roundHalfEven (q / (2 : ℚ) ^ e) : ℚ) * (2 : ℚ) ^ e - q
      = ((roundHalfEven (q / (2 : ℚ) ^ e) : ℚ) - q / (2 : ℚ) ^ e) * (2 : ℚ) ^ e := by
    field_simp
  rw [hfac, abs_mul, abs_of_pos hepos]
  have hr := abs_roundHalfEven_sub_le (q / (2 : ℚ) ^ e)
  have hsplit : (2 : ℚ) ^ (Int.log 2 |q|) = (2 : ℚ) ^ e * (2 : ℚ) ^ ((prec : Int) - 1) := by
    rw [← zpow_add₀ (by norm_num : (2 : ℚ) ≠ 0)]
    congr 1
    omega
  have hprec : (2 : ℚ) ^ ((prec : Int) - 1) * 2 = (2 : ℚ) ^ prec := by
    rw [zpow_sub_one₀ (by norm_num : (2 : ℚ) ≠ 0), zpow_natCast]
    field_simp
  calc |(roundHalfEven (q / (2 : ℚ) ^ e) : ℚ) - q / (2 : ℚ) ^ e| * (2 : ℚ) ^ e
      ≤ 1 / 2 * (2 : ℚ) ^ e := by gcongr
    _ = (2 : ℚ) ^ (Int.log 2 |q|) / (2 : ℚ) ^ prec := by
        rw [hsplit, ← hprec]
        field_simp
        ring
    _ ≤ |q| / (2 : ℚ) ^ prec := by gcongr

/-- A value `m * 2^e` with `|m| < 2^prec` and `e ≥ emin` is representable: rounding
leaves it as it is. -/
theorem roundBinary_of_representable (prec : Nat) (emin : Int) (m e : Int)
    (hm : |m| < 2 ^ prec) (he : emin ≤ e) :
    roundBinary prec emin ((m : ℚ) * (2 : ℚ) ^ e) = (m : ℚ) * (2 : ℚ) ^ e := by
  by_cases hm0 : m = 0
  · subst hm0
    simp [roundBinary_zero]
  have hepos : (0 : ℚ) < (2 : ℚ) ^ e := by positivity
  have hqpos : 0 < |(m : ℚ) * (2 : ℚ) ^ e| := by
    rw [abs_pos]
    exact mul_ne_zero (by exact_mod_cast hm0) hepos.ne'
  have hlt : |(m : ℚ) * (2 : ℚ) ^ e| < (2 : ℚ) ^ ((prec : Int) + e) := by
    rw [abs_mul, abs_of_pos hepos, zpow_add₀ (by norm_num : (2 : ℚ) ≠ 0), zpow_natCast]
    have : |(m : ℚ)| < (2 : ℚ) ^ prec := by exact_mod_cast hm
    gcongr
  have hlog : Int.log 2 |(m : ℚ) * (2 : ℚ) ^ e| < (prec : Int) + e := by
    rw [← Int.lt_zpow_iff_log_lt (by norm_num) hqpos]
    exact_mod_cast hlt
  unfold roundBinary
  simp only
  set d : Int := max (Int.log 2 |(m : ℚ) * (2 : ℚ) ^ e| - ((prec : Int) - 1)) emin with hd
  have hde : d ≤ e := by
    rw [hd]
    exact max_le (by omega) he
  obtain ⟨n, hn⟩ : ∃ n : Nat, e = d + (n : Int) := ⟨(e - d).toNat, by omega⟩
  have hscaled : (m : ℚ) * (2 : ℚ) ^ e / (2 : ℚ) ^ d = ((m * 2 ^ n : Int) : ℚ) := by
    rw [hn, zpow_add₀ (by norm_num : (2 : ℚ) ≠ 0), zpow_natCast]
    have hdpos : (0 : ℚ) < (2 : ℚ) ^ d := by positivity
    field_simp
    ring
  rw [hscaled, roundHalfEven_of_abs_sub_lt _ (m * 2 ^ n) (by simp)]
  rw [hn, zpow_add₀ (by norm_num : (2 : ℚ) ≠ 0), zpow_natCast]
  push_cast
  ring

theorem doubleOf_natCast (n : Nat) (h : n < 2 ^ 53) : doubleOf (n : ℚ) = (n : ℚ) := by
  have := roundBinary_of_representable 53 (-1074) (n : Int) 0
    (by rw [abs_of_nonneg (by positivity)]; exact_mod_cast h) (by norm_num)
  simpa [doubleOf] using this

theorem doubleOf_intCast (z : Int) (h : |z| < 2 ^ 53) : doubleOf (z : ℚ) = (z : ℚ) := by
  have := roundBinary_of_representable 53 (-1074) z 0 h (by norm_num)
  simpa [doubleOf] using this

theorem two_zpow_le_normal : (2 : ℚ) ^ ((-1074 : Int) + ((53 : Nat) : Int) - 1) ≤ 1 / 2 ^ 32 := by
  have h : ((-1074 : Int) + ((53 : Nat) : Int) - 1) = -((1022 : Nat) : Int) := by norm_num
  rw [h, zpow_neg, zpow_natCast, one_div]
  apply inv_anti₀ (by positivity)
  exact pow_le_pow_right₀ (by norm_num) (by norm_num)

theorem resampleIEEE_product (n : Nat) (src dst : Int) (hsrc : 0 < src)
    (hsrc2 : src < 2 ^ 31) (hdst : 0 < dst) :
    |doubleOf ((n : ℚ) * doubleOf ((dst : ℚ) / (src : ℚ))) - (n : ℚ) * dst / src|
      ≤ (n : ℚ) * dst / src / 2 ^ 51 := by
  have hs : (0 : ℚ) < (src : ℚ) := by exact_mod_cast hsrc
  have hd : (0 : ℚ) < (dst : ℚ) := by exact_mod_cast hdst
  have hd1 : (1 : ℚ) ≤ (dst : ℚ) := by exact_mod_cast hdst
  have hs2 : (src : ℚ) < 2 ^ 31 := by exact_mod_cast hsrc2
  have hassoc : (n : ℚ) * dst / src = (n : ℚ) * ((dst : ℚ) / (src : ℚ)) := mul_div_assoc _ _ _
  rw [hassoc]
  set q0 : ℚ := (dst : ℚ) / (src : ℚ) with hq0
  have hq0pos : 0 < q0 := div_pos hd hs
  have hq0lo : (1 : ℚ) / 2 ^ 31 ≤ q0 := by
    rw [hq0, div_le_div_iff₀ (by positivity) hs]
    nlinarith
  have hr : |doubleOf q0 - q0| ≤ q0 / 2 ^ 53 := by
    have h := abs_roundBinary_sub_le 53 (-1074) q0
      (le_trans two_zpow_le_normal (by rw [abs_of_pos hq0pos]; linarith [hq0lo,
        (by norm_num : (1 : ℚ) / 2 ^ 32 ≤ 1 / 2 ^ 31)]))
    rwa [abs_of_pos hq0pos] at h
  rw [abs_le] at hr
  set r : ℚ := doubleOf q0 with hrdef
  have hrlo : q0 / 2 ≤ r := by
    have : q0 / 2 ^ 53 ≤ q0 / 2 := by
      apply div_le_div_of_nonneg_left hq0pos.le (by norm_num) (by norm_num)
    linarith [hr.1]
  rcases Nat.eq_zero_or_pos n with hn | hn
  · subst hn
    simp [doubleOf, roundBinary_zero]
  have hn1 : (1 : ℚ) ≤ (n : ℚ) := by exact_mod_cast hn
  have hq1pos : 0 < (n : ℚ) * r := by nlinarith
  have hq1lo : (1 : ℚ) / 2 ^ 32 ≤ (n : ℚ) * r := by
    have : (1 : ℚ) / 2 ^ 32 = (1 / 2 ^ 31) / 2 := by norm_num
    nlinarith
  have hp : |doubleOf ((n : ℚ) * r) - (n : ℚ) * r| ≤ (n : ℚ) * r / 2 ^ 53 := by
    have h := abs_roundBinary_sub_le 53 (-1074) ((n : ℚ) * r)
      (le_trans two_zpow_le_normal (by rw [abs_of_pos hq1pos]; exact hq1lo))
    rwa [abs_of_pos hq1pos] at h
  rw [abs_le] at hp ⊢
  have hnq : 0 < (n : ℚ) * q0 := by positivity
  have e1 : (n : ℚ) * r ≤ (n : ℚ) * q0 + (n : ℚ) * q0 / 2 ^ 53 := by
    have := hr.2
    have : (n : ℚ) * (r - q0) ≤ (n : ℚ) * (q0 / 2 ^ 53) :=
      mul_le_mul_of_nonneg_left this (by positivity)
    linarith [mul_div_assoc (n : ℚ) q0 ((2 : ℚ) ^ 53)]
  have e2 : (n : ℚ) * q0 - (n : ℚ) * q0 / 2 ^ 53 ≤ (n : ℚ) * r := by
    have := hr.1
    have : (n : ℚ) * (-(q0 / 2 ^ 53)) ≤ (n : ℚ) * (r - q0) :=
      mul_le_mul_of_nonneg_left this (by positivity)
    linarith [mul_div_assoc (n : ℚ) q0 ((2 : ℚ) ^ 53)]
  have e3 : (n : ℚ) * r / 2 ^ 53 ≤ 2 * ((n : ℚ) * q0) / 2 ^ 53 := by
    apply div_le_div_of_nonneg_right _ (by positivity)
    have : (n : ℚ) * q0 / 2 ^ 53 ≤ (n : ℚ) * q0 := by
      apply div_le_self hnq.le
      norm_num
    linarith
  have e4 : 2 * ((n : ℚ) * q0) / 2 ^ 53 + (n : ℚ) * q0 / 2 ^ 53 ≤ (n : ℚ) * q0 / 2 ^ 51 := by
    have h51 : (n : ℚ) * q0 / 2 ^ 51 = 4 * ((n : ℚ) * q0) / 2 ^ 53 := by
      field_simp
      ring
    rw [h51, ← add_div]
    apply div_le_div_of_nonneg_right _ (by positivity)
    linarith
  constructor <;> linarith [hp.1, hp.2]

theorem truncToInt_of_nonneg (q : ℚ) (h : 0 ≤ q) : truncToInt q = Int.floor q := by
  unfold truncToInt
  rw [if_pos h]

/-- The length of the vector `resampleIEEE` returns: for positive `int` rates and fewer
than `2^29` samples the call returns, and the length is the `double` product
`input.size() * ratio` with its fraction discarded. -/
theorem resampleIEEE_length (x : List ℚ) (src dst : Int) (hsrc : 0 < src)
    (hsrc2 : src < 2 ^ 31) (hdst : 0 < dst) (hdst2 : dst < 2 ^ 31) (hne : src ≠ dst)
    (hlen : x.length < 2 ^ 29) :
    ∃ out : List ℚ, resampleIEEE x src dst = some out
      ∧ (out.length : Int)
          = Int.floor (doubleOf ((x.length : ℚ) * doubleOf ((dst : ℚ) / (src : ℚ)))) := by
  have hs : (0 : ℚ) < (src : ℚ) := by exact_mod_cast hsrc
  have hs1 : (1 : ℚ) ≤ (src : ℚ) := by exact_mod_cast hsrc
  have hd : (0 : ℚ) < (dst : ℚ) := by exact_mod_cast hdst
  have hd2 : (dst : ℚ) < 2 ^ 31 := by exact_mod_cast hdst2
  have hn2 : (x.length : ℚ) < 2 ^ 29 := by exact_mod_cast hlen
  have hn0 : (0 : ℚ) ≤ (x.length : ℚ) := by positivity
  have hbound := resampleIEEE_product x.length src dst hsrc hsrc2 hdst
  rw [abs_le] at hbound
  have hexact : (0 : ℚ) ≤ (x.length : ℚ) * dst / src := by positivity
  have hexact2 : (x.length : ℚ) * dst / src < 2 ^ 60 := by
    rw [div_lt_iff₀ hs]
    have h1 : (x.length : ℚ) * dst ≤ 2 ^ 29 * dst := by nlinarith
    have h2 : (2 : ℚ) ^ 29 * dst < 2 ^ 29 * 2 ^ 31 := by nlinarith
    nlinarith
  have hsmall : (x.length : ℚ) * dst / src / 2 ^ 51 ≤ (x.length : ℚ) * dst / src := by
    apply div_le_self hexact
    norm_num
  set P : ℚ := doubleOf ((x.length : ℚ) * doubleOf ((dst : ℚ) / (src : ℚ))) with hP
  have hP0 : 0 ≤ P := by linarith [hbound.1]
  have hP61 : P < 2 ^ 61 := by linarith [hbound.2]
  have hdst53 : doubleOf (dst : ℚ) = dst :=
    doubleOf_intCast dst (by rw [abs_of_pos hdst]; omega)
  have hsrc53 : doubleOf (src : ℚ) = src :=
    doubleOf_intCast src (by rw [abs_of_pos hsrc]; omega)
  have hlen53 : doubleOf (x.length : ℚ) = x.length :=
    doubleOf_natCast x.length (by omega)
  have hguard : ¬ (P ≤ -1 ∨ 2 ^ 64 ≤ P) := by
    rintro (h | h) <;> linarith
  have hfloor : Int.floor P < 2 ^ 61 := by
    rw [Int.floor_lt]
    exact_mod_cast hP61
  have hfits : ¬ 2 ^ 61 ≤ (truncToInt P).toNat := by
    rw [truncToInt_of_nonneg _ hP0]
    have := Int.floor_nonneg.mpr hP0
    omega
  unfold resampleIEEE
  rw [if_neg hne, if_neg (ne_of_gt hsrc)]
  simp only [hdst53, hsrc53, hlen53]
  rw [if_neg hguard, if_neg hfits]
  refine ⟨_, rfl, ?_⟩
  rw [List.length_map, List.length_range, truncToInt_of_nonneg _ hP0,
    Int.toNat_of_nonneg (Int.floor_nonneg.mpr hP0)]

theorem doubleOf_eq_of_near (q : ℚ) (k m : Int) (hk : -1022 ≤ k)
    (h1 : (2 : ℚ) ^ k ≤ |q|) (h2 : |q| < (2 : ℚ) ^ (k + 1))
    (hm : |q / (2 : ℚ) ^ (k - 52) - (m : ℚ)| < 1 / 2) :
    doubleOf q = (m : ℚ) * (2 : ℚ) ^ (k - 52) :=
  roundBinary_eq_of_near 53 (-1074) q k (k - 52) m h1 h2
    (by rw [max_eq_left (by push_cast; omega)]; push_cast; ring) hm

theorem doubleOf_of_representable (m e : Int) (hm : |m| < 2 ^ 53) (he : -1074 ≤ e) :
    doubleOf ((m : ℚ) * (2 : ℚ) ^ e) = (m : ℚ) * (2 : ℚ) ^ e :=
  roundBinary_of_representable 53 (-1074) m e hm he

theorem doubleOf_seven_fifths : doubleOf (7 / 5) = 3152519739159347 / 2251799813685248 := by
  rw [doubleOf_eq_of_near (7 / 5) 0 6305039478318694 (by norm_num)
    (by rw [abs_of_pos (by norm_num)]; norm_num)
    (by rw [abs_of_pos (by norm_num)]; norm_num) (by
      rw [abs_lt]
      norm_num [zpow_neg])]
  norm_num [zpow_neg]

theorem doubleOf_sixty_three :
    doubleOf (45 * (3152519739159347 / 2251799813685248))
      = 8866461766385663 / 140737488355328 := by
  rw [doubleOf_eq_of_near _ 5 8866461766385663 (by norm_num)
    (by rw [abs_of_pos (by norm_num)]; norm_num)
    (by rw [abs_of_pos (by norm_num)]; norm_num) (by
      rw [abs_lt]
      norm_num [zpow_neg])]
  norm_num [zpow_neg]

theorem doubleOf_half : doubleOf (1 / 2) = 1 / 2 := by
  have h := doubleOf_of_representable 1 (-1) (by norm_num) (by norm_num)
  norm_num [zpow_neg] at h
  exact h

theorem doubleOf_three_quarters : doubleOf (3 / 4) = 3 / 4 := by
  have h := doubleOf_of_representable 3 (-2) (by norm_num) (by norm_num)
  norm_num [zpow_neg] at h
  exact h

/-! ### Output length of `resample` -/

/-- C1 (amended): for positive `int` rates `src ≠ dst` and an input of fewer than `2^29`
samples, `resample` returns a vector whose length is the `double` product
`input.size() * ratio`, `ratio` being the `double` quotient of the rates, with its fraction
DISCARDED (the product is truncated by the cast to `size_t`, not rounded to nearest).  The
product differs from the exact `len(x) * dst / src` by a relative error of at most
`2^-51`, so the length is at most `len(x) * dst / src * (1 + 2^-51)` and more than
`len(x) * dst / src * (1 - 2^-51) - 1`.  In particular 1000 samples resampled from 48000
to 24000 yield 500 samples. -/
theorem resample_length_truncated (x : List ℚ) (src dst : Int) (hsrc : 0 < src)
    (hsrc2 : src < 2 ^ 31) (hdst : 0 < dst) (hdst2 : dst < 2 ^ 31) (hne : src ≠ dst)
    (hlen : x.length < 2 ^ 29) :
    (∃ out : List ℚ, resampleIEEE x src dst = some out
        ∧ (out.length : Int)
            = Int.floor (doubleOf ((x.length : ℚ) * doubleOf ((dst : ℚ) / (src : ℚ))))
        ∧ (out.length : ℚ) ≤ (x.length : ℚ) * dst / src + (x.length : ℚ) * dst / src / 2 ^ 51
        ∧ (x.length : ℚ) * dst / src - (x.length : ℚ) * dst / src / 2 ^ 51 - 1 < (out.length : ℚ))
      ∧ |doubleOf ((x.length : ℚ) * doubleOf ((dst : ℚ) / (src : ℚ)))
            - (x.length : ℚ) * dst / src| ≤ (x.length : ℚ) * dst / src / 2 ^ 51
      ∧ (x.length = 1000 →
          ∃ out : List ℚ, resampleIEEE x 48000 24000 = some out ∧ out.length = 500) := by
  have hbound := resampleIEEE_product x.length src dst hsrc hsrc2 hdst
  refine ⟨?_, hbound, ?_⟩
  · obtain ⟨out, hout, hl⟩ := resampleIEEE_length x src dst hsrc hsrc2 hdst hdst2 hne hlen
    refine ⟨out, hout, hl, ?_, ?_⟩
    · have h1 : ((out.length : Int) : ℚ)
          ≤ doubleOf ((x.length : ℚ) * doubleOf ((dst : ℚ) / (src : ℚ))) := by
        rw [hl]
        exact Int.floor_le _
      have h2 := (abs_le.mp hbound).2
      have h3 : ((out.length : Int) : ℚ) = (out.length : ℚ) := by push_cast; rfl
      linarith
    · have h1 : doubleOf ((x.length : ℚ) * doubleOf ((dst : ℚ) / (src : ℚ)))
          < ((out.length : Int) : ℚ) + 1 := by
        rw [hl]
        exact Int.lt_floor_add_one _
      have h2 := (abs_le.mp hbound).1
      have h3 : ((out.length : Int) : ℚ) = (out.length : ℚ) := by push_cast; rfl
      linarith
  · intro h1000
    obtain ⟨out, hout, hl⟩ := resampleIEEE_length x 48000 24000 (by norm_num) (by norm_num)
      (by norm_num) (by norm_num) (by norm_num) (by rw [h1000]; norm_num)
    refine ⟨out, hout, ?_⟩
    rw [h1000] at hl
    have hq : ((24000 : Int) : ℚ) / ((48000 : Int) : ℚ) = 1 / 2 := by norm_num
    have h500 : ((1000 : Nat) : ℚ) * (1 / 2) = ((500 : Nat) : ℚ) := by norm_num
    rw [hq, doubleOf_half, h500, doubleOf_natCast 500 (by norm_num)] at hl
    have hf : Int.floor (((500 : Nat) : ℚ)) = 500 := by
      rw [Int.floor_eq_iff]
      norm_num
    rw [hf] at hl
    exact_mod_cast hl

theorem resample_length_truncated_witness :
    (0 : Int) < 48000 ∧ (48000 : Int) < 2 ^ 31 ∧ (0 : Int) < 24000 ∧ (24000 : Int) < 2 ^ 31
      ∧ (48000 : Int) ≠ 24000 ∧ (List.replicate 1000 (0 : ℚ)).length < 2 ^ 29
      ∧ ∃ out : List ℚ, resampleIEEE (List.replicate 1000 0) 48000 24000 = some out
          ∧ out.length = 500 :=
  ⟨by norm_num, by norm_num, by norm_num, by norm_num, by norm_num,
    by rw [List.length_replicate]; norm_num,
    (resample_length_truncated (List.replicate 1000 0) 48000 24000 (by norm_num) (by norm_num)
      (by norm_num) (by norm_num) (by norm_num)
      (by rw [List.length_replicate]; norm_num)).2.2 (List.length_replicate _ _)⟩

/-- C1 (counterexample): one sample resampled from rate 4 to rate 3 gives an empty
output, whereas `round(1 * 3 / 4) = round(0.75) = 1`; every value of that run is exact in
`double`.  And 45 samples resampled from rate 5 to rate 7 give 62 samples, whereas
`round(45 * 7 / 5) = 63`: the `double` quotient `7.0 / 5` lies below `7/5`, and so does the
product. -/
theorem resample_length_not_round :
    resampleIEEE [1] 4 3 = some []
      ∧ round (((([1] : List ℚ).length : Nat) : ℚ) * 3 / 4) = 1
      ∧ (∃ out : List ℚ, resampleIEEE (List.replicate 45 0) 5 7 = some out
          ∧ out.length = 62)
      ∧ round ((((List.replicate 45 (0 : ℚ)).length : Nat) : ℚ) * 7 / 5) = 63 := by
  refine ⟨?_, ?_, ?_, ?_⟩
  · obtain ⟨out, hout, hl⟩ := resampleIEEE_length [1] 4 3 (by norm_num) (by norm_num)
      (by norm_num) (by norm_num) (by norm_num) (by simp)
    have hq : ((3 : Int) : ℚ) / ((4 : Int) : ℚ) = 3 / 4 := by norm_num
    have h1 : ((([1] : List ℚ).length : Nat) : ℚ) * (3 / 4) = 3 / 4 := by simp
    rw [hq, doubleOf_three_quarters, h1, doubleOf_three_quarters] at hl
    have hf : Int.floor ((3 : ℚ) / 4) = 0 := by
      rw [Int.floor_eq_iff]
      norm_num
    rw [hf] at hl
    have h0 : out.length = 0 := by exact_mod_cast hl
    rw [hout, List.length_eq_zero.mp h0]
  · rw [round_eq, Int.floor_eq_iff]
    norm_num
  · obtain ⟨out, hout, hl⟩ := resampleIEEE_length (List.replicate 45 0) 5 7 (by norm_num)
      (by norm_num) (by norm_num) (by norm_num) (by norm_num)
      (by rw [List.length_replicate]; norm_num)
    refine ⟨out, hout, ?_⟩
    have hq : ((7 : Int) : ℚ) / ((5 : Int) : ℚ) = 7 / 5 := by norm_num
    have h45 : (((List.replicate 45 (0 : ℚ)).length : Nat) : ℚ) = 45 := by
      rw [List.length_replicate]
      norm_num
    rw [hq, doubleOf_seven_fifths, h45, doubleOf_sixty_three] at hl
    have hf : Int.floor ((8866461766385663 : ℚ) / 140737488355328) = 62 := by
      rw [Int.floor_eq_iff]
      norm_num
    rw [hf] at hl
    exact_mod_cast hl
  · rw [round_eq, Int.floor_eq_iff]
    simp only [List.length_replicate]
    norm_num

/-! ### 24-bit decoding -/

theorem roundtrip_sample (v : Int) (hlo : -32768 ≤ v) (hhi : v ≤ 32767) :
    |truncToInt (max (-1) (min 1 ((v : ℚ) / 32768)) * 32767) - v| ≤ 1 := by
  have hlo' : (-32768 : ℚ) ≤ (v : ℚ) := by exact_mod_cast hlo
  have hhi' : (v : ℚ) ≤ 32767 := by exact_mod_cast hhi
  have hq1 : (v : ℚ) / 32768 ≤ 1 := by
    rw [div_le_iff₀ (by norm_num)]; linarith
  have hq2 : (-1 : ℚ) ≤ (v : ℚ) / 32768 := by
    rw [le_div_iff₀ (by norm_num)]; linarith
  rw [min_eq_right hq1, max_eq_right hq2, abs_le]
  unfold truncToInt
  split_ifs with hs
  · have h1 : v - 1 ≤ Int.floor ((v : ℚ) / 32768 * 32767) := by
      rw [Int.le_floor]; push_cast; linarith
    have h2 : Int.floor ((v : ℚ) / 32768 * 32767) < v + 1 := by
      rw [Int.floor_lt]; push_cast; linarith
    constructor <;> omega
  · have h1 : Int.ceil ((v : ℚ) / 32768 * 32767) ≤ v + 1 := by
      rw [Int.ceil_le]; push_cast; linarith
    have h2 : v - 1 < Int.ceil ((v : ℚ) / 32768 * 32767) := by
      rw [Int.lt_ceil]; push_cast; linarith
    constructor <;> omega

/-- C3: for every 16-bit sample value `v` in `[-32768, 32767]`, `int16ToFloat32` followed
by `float32ToInt16` returns an integer that differs from `v` by at most 1 (stated for
whole sample vectors, element by element; division and multiplication exact). -/
theorem int16_roundtrip_within_one (s : List Int)
    (hs : ∀ v ∈ s, -32768 ≤ v ∧ v ≤ 32767) :
    List.Forall₂ (fun v w => |w - v| ≤ 1) s (float32ToInt16 (int16ToFloat32 s)) := by
  induction s with
  | nil => exact List.Forall₂.nil
  | cons v rest ih =>
    have hv := hs v (List.mem_cons_self v rest)
    have hrest : ∀ w ∈ rest, -32768 ≤ w ∧ w ≤ 32767 := fun w hw =>
      hs w (List.mem_cons_of_mem v hw)
    exact List.Forall₂.cons (roundtrip_sample v hv.1 hv.2) (ih hrest)

theorem int16_roundtrip_within_one_witness :
    (∀ v ∈ [16384, -16384, 0, 32767, -32768], (-32768 : Int) ≤ v ∧ v ≤ 32767) ∧
      List.Forall₂ (fun v w => |w - v| ≤ 1) [16384, -16384, 0, 32767, -32768]
        (float32ToInt16 (int16ToFloat32 [16384, -16384, 0, 32767, -32768])) :=
  ⟨by decide, int16_roundtrip_within_one [16384, -16384, 0, 32767, -32768] (by decide)⟩

/-! ### Interpolation -/

theorem sizeMinusOne_eq (n : Nat) (h1 : 0 < n) (h2 : n < 2 ^ 64) : sizeMinusOne n = n - 1 := by
  unfold sizeMinusOne
  omega

theorem resample_index_lt (len : Nat) (src dst : Int) (hsrc : 0 < src) (hdst : 0 < dst)
    (i : Nat) (hi : i < toSizeT ((len : ℚ) * ((dst : ℚ) / (src : ℚ)))) :
    toSizeT ((i : ℚ) / ((dst : ℚ) / (src : ℚ))) < len := by
  have h1 : (0 : ℚ) < (src : ℚ) := by exact_mod_cast hsrc
  have h2 : (0 : ℚ) < (dst : ℚ) := by exact_mod_cast hdst
  have hr : (0 : ℚ) < (dst : ℚ) / (src : ℚ) := div_pos h2 h1
  have hlenpos : 0 < len := by
    rcases Nat.eq_zero_or_pos len with h0 | hpos
    · subst h0
      simp [toSizeT] at hi
    · exact hpos
  unfold toSizeT at hi ⊢
  have hi' : ((i : Int) + 1) ≤ Int.floor ((len : ℚ) * ((dst : ℚ) / (src : ℚ))) := by omega
  rw [Int.le_floor] at hi'
  push_cast at hi'
  have hlt : (i : ℚ) / ((dst : ℚ) / (src : ℚ)) < (len : ℚ) := by
    rw [div_lt_iff₀ hr]
    linarith
  have hfl : Int.floor ((i : ℚ) / ((dst : ℚ) / (src : ℚ))) < (len : Int) := by
    rw [Int.floor_lt]
    exact_mod_cast hlt
  omega

/-- C11: for non-empty `x`, positive rates `src ≠ dst` and every output index `i` below the
output length, with `p = i * src / dst`, `k = floor(p)` and `f = p - k`, the `i`-th output
of `resample` is `x[k] * (1 - f) + x[min(k + 1, len(x) - 1)] * f`: linear interpolation
between the two nearest source samples, the last one repeated at the end. -/
theorem resample_linear_interpolation (x : List ℚ) (src dst : Int)
    (hx : x ≠ []) (hsize : x.length < 2 ^ 64)
    (hsrc : 0 < src) (hdst : 0 < dst) (hne : src ≠ dst)
    (i : Nat) (hi : i < (resample x src dst).length) :
    ∃ (k : Nat) (a b : ℚ),
      (k : Int) = Int.floor ((i : ℚ) * (src : ℚ) / (dst : ℚ))
      ∧ x[k]? = some a
      ∧ x[min (k + 1) (x.length - 1)]? = some b
      ∧ (resample x src dst)[i]?
          = some (a * (1 - ((i : ℚ) * (src : ℚ) / (dst : ℚ) - (k : ℚ)))
                  + b * ((i : ℚ) * (src : ℚ) / (dst : ℚ) - (k : ℚ))) := by
  have h1 : (0 : ℚ) < (src : ℚ) := by exact_mod_cast hsrc
  have h2 : (0 : ℚ) < (dst : ℚ) := by exact_mod_cast hdst
  have hlen : 0 < x.length := List.length_pos.mpr hx
  rw [resample_length_of_ne x src dst hne] at hi
  have hp : (i : ℚ) / ((dst : ℚ) / (src : ℚ)) = (i : ℚ) * (src : ℚ) / (dst : ℚ) := by
    field_simp
  have hk := resample_index_lt x.length src dst hsrc hdst i hi
  have hk2 : min (toSizeT ((i : ℚ) / ((dst : ℚ) / (src : ℚ))) + 1) (x.length - 1) < x.length := by
    omega
  have hpos : (0 : ℚ) ≤ (i : ℚ) / ((dst : ℚ) / (src : ℚ)) := by positivity
  refine ⟨toSizeT ((i : ℚ) / ((dst : ℚ) / (src : ℚ))), x[toSizeT ((i : ℚ) / ((dst : ℚ) / (src : ℚ)))],
    x[min (toSizeT ((i : ℚ) / ((dst : ℚ) / (src : ℚ))) + 1) (x.length - 1)], ?_, ?_, ?_, ?_⟩
  · unfold toSizeT
    rw [← hp]
    exact Int.toNat_of_nonneg (Int.floor_nonneg.mpr hpos)
  · exact List.getElem?_eq_getElem hk
  · exact List.getElem?_eq_getElem hk2
  · unfold resample
    rw [if_neg hne, List.getElem?_map, List.getElem?_range hi]
    simp only [Option.map_some']
    rw [if_pos hk, sizeMinusOne_eq _ hlen hsize, ← hp]
    rw [List.getD_eq_getElem _ _ hk, List.getD_eq_getElem _ _ hk2]

theorem resample_example_length : (resample [1, 2, 3, 4] 2 3).length = 6 := by
  rw [resample_length_of_ne _ 2 3 (by decide)]
  have h := toSizeT_natCast_mul_div 4 2 3 (by decide)
  simpa using h

theorem resample_linear_interpolation_witness :
    ([1, 2, 3, 4] : List ℚ) ≠ [] ∧ ([1, 2, 3, 4] : List ℚ).length < 2 ^ 64
      ∧ (0 : Int) < 2 ∧ (0 : Int) < 3 ∧ (2 : Int) ≠ 3
      ∧ 1 < (resample [1, 2, 3, 4] 2 3).length
      ∧ ∃ (k : Nat) (a b : ℚ),
          (k : Int) = Int.floor (((1 : Nat) : ℚ) * ((2 : Int) : ℚ) / ((3 : Int) : ℚ))
          ∧ ([1, 2, 3, 4] : List ℚ)[k]? = some a
          ∧ ([1, 2, 3, 4] : List ℚ)[min (k + 1) (([1, 2, 3, 4] : List ℚ).length - 1)]? = some b
          ∧ (resample [1, 2, 3, 4] 2 3)[1]?
              = some (a * (1 - (((1 : Nat) : ℚ) * ((2 : Int) : ℚ) / ((3 : Int) : ℚ) - (k : ℚ)))
                      + b * (((1 : Nat) : ℚ) * ((2 : Int) : ℚ) / ((3 : Int) : ℚ) - (k : ℚ))) :=
  have hi : 1 < (resample [1, 2, 3, 4] 2 3).length := by
    rw [resample_example_length]; decide
  ⟨by simp, by simp, by decide, by decide, by decide, hi,
    resample_linear_interpolation [1, 2, 3, 4] 2 3 (by simp) (by simp) (by decide) (by decide)
      (by decide) 1 hi⟩

/-! ### Normalisation -/

theorem foldl_sq_eq_sum {F : Type} [LinearOrderedField F] (l : List F) :
    ∀ init : F, l.foldl (fun sum sample => sum + sample * sample) init
      = init + (l.map fun a => a * a).sum := by
  induction l with
  | nil => intro init; simp
  | cons a rest ih =>
    intro init
    simp only [List.foldl_cons, List.map_cons, List.sum_cons]
    rw [ih]
    ring

theorem sum_sq_scale {F : Type} [LinearOrderedField F] (l : List F) (c : F) :
    ((l.map fun a => a * c).map fun a => a * a).sum = c * c * (l.map fun a => a * a).sum := by
  induction l with
  | nil => simp
  | cons a rest ih =>
    simp only [List.map_cons, List.sum_cons]
    rw [ih]
    ring

theorem sum_sq_nonneg {F : Type} [LinearOrderedField F] (l : List F) :
    0 ≤ (l.map fun a => a * a).sum := by
  apply List.sum_nonneg
  intro y hy
  obtain ⟨a, _, rfl⟩ := List.mem_map.mp hy
  exact mul_self_nonneg a

theorem calculateRMS_of_ne_nil {F : Type} [LinearOrderedField F] (sqrt : F → F) (x : List F)
    (hx : x ≠ []) :
    calculateRMS sqrt x = sqrt ((x.map fun a => a * a).sum / (x.length : F)) := by
  unfold calculateRMS
  have he : x.isEmpty = false := by
    cases x with
    | nil => exact absurd rfl hx
    | cons a as => rfl
  simp only [he, Bool.false_eq_true, if_false]
  rw [foldl_sq_eq_sum, zero_add]

theorem normalize_of_loud {F : Type} [LinearOrderedField F] (sqrt : F → F) (x : List F) (t : F)
    (hx : x ≠ []) (hrms : ¬ calculateRMS sqrt x < 8796093 / 8796093022208) :
    normalize sqrt x t = x.map fun sample => sample * (t / calculateRMS sqrt x) := by
  unfold normalize
  have he : x.isEmpty = false := by
    cases x with
    | nil => exact absurd rfl hx
    | cons a as => rfl
  simp only [he, Bool.false_eq_true, if_false]
  rw [if_neg hrms]

/-- C12: with an exact square root (`sqrt a ≥ 0` and `sqrt a * sqrt a = a` for `a ≥ 0`, as
in real arithmetic), for every sample sequence whose RMS is at least `1e-6` and every
target `t ≥ 0`, `calculateRMS(normalize(x, t)) = t`. -/
theorem normalize_rms_eq_target {F : Type} [LinearOrderedField F] (sqrt : F → F)
    (hsqrt : ∀ a : F, 0 ≤ a → 0 ≤ sqrt a ∧ sqrt a * sqrt a = a)
    (x : List F) (t : F) (hrms : 1 / 1000000 ≤ calculateRMS sqrt x) (ht : 0 ≤ t) :
    calculateRMS sqrt (normalize sqrt x t) = t := by
  have hx : x ≠ [] := by
    rintro rfl
    simp [calculateRMS] at hrms
    linarith
  have hlen : (0 : F) < (x.length : F) := by
    exact_mod_cast List.length_pos.mpr hx
  have hr := calculateRMS_of_ne_nil sqrt x hx
  have hmean : 0 ≤ (x.map fun a => a * a).sum / (x.length : F) :=
    div_nonneg (sum_sq_nonneg x) hlen.le
  have hsq := (hsqrt _ hmean).2
  rw [← hr] at hsq
  have hrpos : 0 < calculateRMS sqrt x := lt_of_lt_of_le (by norm_num) hrms
  rw [normalize_of_loud sqrt x t hx
    (not_lt.mpr (le_trans (by norm_num) hrms))]
  have hx2 : (x.map fun sample => sample * (t / calculateRMS sqrt x)) ≠ [] := by
    simpa using hx
  rw [calculateRMS_of_ne_nil sqrt _ hx2, sum_sq_scale, List.length_map]
  have harg : t / calculateRMS sqrt x * (t / calculateRMS sqrt x)
      * (x.map fun a => a * a).sum / (x.length : F) = t * t := by
    rw [mul_div_assoc, ← hsq]
    field_simp
  rw [harg]
  have hroot := hsqrt (t * t) (mul_self_nonneg t)
  exact (mul_self_inj hroot.1 ht).mp hroot.2

theorem normalize_rms_eq_target_witness :
    (∀ a : ℝ, 0 ≤ a → 0 ≤ Real.sqrt a ∧ Real.sqrt a * Real.sqrt a = a)
      ∧ (1 : ℝ) / 1000000 ≤ calculateRMS Real.sqrt [1, -1]
      ∧ (0 : ℝ) ≤ 1 / 10
      ∧ calculateRMS Real.sqrt (normalize Real.sqrt [1, -1] (1 / 10)) = 1 / 10 :=
  have hsqrt : ∀ a : ℝ, 0 ≤ a → 0 ≤ Real.sqrt a ∧ Real.sqrt a * Real.sqrt a = a :=
    fun a ha => ⟨Real.sqrt_nonneg a, Real.mul_self_sqrt ha⟩
  have hrms : (1 : ℝ) / 1000000 ≤ calculateRMS Real.sqrt [1, -1] := by
    simp [calculateRMS]
    norm_num
  ⟨hsqrt, hrms, by norm_num,
    normalize_rms_eq_target Real.sqrt hsqrt [1, -1] (1 / 10) hrms (by norm_num)⟩

theorem floatOf_silence : floatOf (1 / 1000000) = 8796093 / 8796093022208 := by
  have h := roundBinary_eq_of_near 24 (-149) (1 / 1000000) (-20) (-43) 8796093
    (by rw [abs_of_pos (by norm_num)]; norm_num [zpow_neg])
    (by rw [abs_of_pos (by norm_num)]; norm_num [zpow_neg])
    (by norm_num)
    (by rw [abs_lt]; norm_num [zpow_neg])
  unfold floatOf
  rw [h]
  norm_num [zpow_neg]

theorem floatOf_zero : floatOf 0 = 0 := roundBinary_zero 24 (-149)

theorem calculateRMSOn_exact {F : Type} [LinearOrderedField F] (sqrt : F → F) (x : List F) :
    calculateRMSOn (FloatOps.exact sqrt) x = calculateRMS sqrt x := by
  unfold calculateRMSOn calculateRMS FloatOps.exact
  simp only [floatOf_zero, Rat.cast_zero]

theorem normalizeOn_exact {F : Type} [LinearOrderedField F] (sqrt : F → F) (x : List F)
    (t : F) : normalizeOn (FloatOps.exact sqrt) x t = normalize sqrt x t := by
  unfold normalizeOn normalize
  rw [calculateRMSOn_exact]
  simp only [FloatOps.exact, floatOf_silence, decide_eq_true_eq]
  have hc : ((8796093 / 8796093022208 : ℚ) : F) = 8796093 / 8796093022208 := by
    push_cast
    rfl
  rw [hc]

/-- C13 (amended): the silence threshold is the `float` literal `1e-6f`, whose value is
`8796093 / 2^43`, below the decimal `1e-6`.  Whatever the `float` arithmetic is: if `x` is
empty or `calculateRMS(x) < 1e-6f`, `normalize(x, t)` is `x` itself; otherwise it has the
length of `x` and its `i`-th element is `x[i] * (t / calculateRMS(x))`. -/
theorem normalize_cases {F : Type} (ops : FloatOps F) (x : List F) (t : F) :
    ((x = [] ∨ ops.lt (calculateRMSOn ops x) (ops.ofLiteral (1 / 1000000)) = true) →
        normalizeOn ops x t = x)
      ∧ (¬ (x = [] ∨ ops.lt (calculateRMSOn ops x) (ops.ofLiteral (1 / 1000000)) = true) →
          (normalizeOn ops x t).length = x.length
            ∧ ∀ i : Nat, (normalizeOn ops x t)[i]?
                = x[i]?.map fun sample => ops.mul sample (ops.div t (calculateRMSOn ops x)))
      ∧ (∀ sqrt : ℚ → ℚ,
          (FloatOps.ieee sqrt).ofLiteral (1 / 1000000) = 8796093 / 8796093022208)
      ∧ (8796093 / 8796093022208 : ℚ) < 1 / 1000000 := by
  refine ⟨?_, ?_, fun _ => floatOf_silence, by norm_num⟩
  · intro h
    unfold normalizeOn
    cases x with
    | nil => rfl
    | cons a as =>
      rcases h with h | h
      · exact absurd h (List.cons_ne_nil a as)
      · simp only [List.isEmpty_cons, Bool.false_eq_true, if_false]
        rw [if_pos h]
  · intro h
    rw [not_or] at h
    have he : x.isEmpty = false := by
      cases x with
      | nil => exact absurd rfl h.1
      | cons a as => rfl
    unfold normalizeOn
    simp only [he, Bool.false_eq_true, if_false]
    rw [if_neg h.2]
    exact ⟨List.length_map _ _, fun i => List.getElem?_map _ _ _⟩

theorem normalize_cases_witness :
    normalizeOn (FloatOps.exact Real.sqrt) ([] : List ℝ) (1 / 10) = []
      ∧ ¬ (([1, -1] : List ℝ) = []
            ∨ (FloatOps.exact Real.sqrt).lt (calculateRMSOn (FloatOps.exact Real.sqrt) [1, -1])
                ((FloatOps.exact Real.sqrt).ofLiteral (1 / 1000000)) = true)
      ∧ (normalizeOn (FloatOps.exact Real.sqrt) [1, -1] (1 / 10)).length
          = ([1, -1] : List ℝ).length
      ∧ ∀ i : Nat, (normalizeOn (FloatOps.exact Real.sqrt) [1, -1] (1 / 10))[i]?
          = ([1, -1] : List ℝ)[i]?.map fun sample =>
              (FloatOps.exact Real.sqrt).mul sample
                ((FloatOps.exact Real.sqrt).div (1 / 10)
                  (calculateRMSOn (FloatOps.exact Real.sqrt) [1, -1])) :=
  have hloud : ¬ (([1, -1] : List ℝ) = []
      ∨ (FloatOps.exact Real.sqrt).lt (calculateRMSOn (FloatOps.exact Real.sqrt) [1, -1])
          ((FloatOps.exact Real.sqrt).ofLiteral (1 / 1000000)) = true) := by
    rw [calculateRMSOn_exact]
    simp only [FloatOps.exact, floatOf_silence, decide_eq_true_eq]
    simp [calculateRMS]
    norm_num
  ⟨(normalize_cases (FloatOps.exact Real.sqrt) [] (1 / 10)).1 (Or.inl rfl), hloud,
    ((normalize_cases (FloatOps.exact Real.sqrt) [1, -1] (1 / 10)).2.1 hloud).1,
    ((normalize_cases (FloatOps.exact Real.sqrt) [1, -1] (1 / 10)).2.1 hloud).2⟩

/-- C13 (counterexample): the one-sample sequence whose sample is the `float` `1e-6f` has
RMS `1e-6f`, which is below the decimal `1e-6`, and yet `normalize` scales it: with target
`1/10` the result is `[1/10]`, not the input. -/
theorem normalize_scales_below_decimal_threshold :
    calculateRMSOn (FloatOps.exact Real.sqrt) [(8796093 / 8796093022208 : ℝ)]
        = 8796093 / 8796093022208
      ∧ calculateRMSOn (FloatOps.exact Real.sqrt) [(8796093 / 8796093022208 : ℝ)]
          < 1 / 1000000
      ∧ normalizeOn (FloatOps.exact Real.sqrt) [(8796093 / 8796093022208 : ℝ)] (1 / 10)
          = [1 / 10]
      ∧ normalizeOn (FloatOps.exact Real.sqrt) [(8796093 / 8796093022208 : ℝ)] (1 / 10)
          ≠ [8796093 / 8796093022208] := by
  rw [calculateRMSOn_exact, normalizeOn_exact]
  have hrms : calculateRMS Real.sqrt [(8796093 / 8796093022208 : ℝ)]
      = 8796093 / 8796093022208 := by
    have h0 : (0 : ℝ) ≤ 8796093 / 8796093022208 := by norm_num
    simp only [calculateRMS, List.isEmpty_cons, Bool.false_eq_true, if_false, List.foldl_cons,
      List.foldl_nil, List.length_singleton, Nat.cast_one, zero_add, div_one]
    exact Real.sqrt_mul_self h0
  have hnorm : normalize Real.sqrt [(8796093 / 8796093022208 : ℝ)] (1 / 10) = [1 / 10] := by
    rw [normalize_of_loud Real.sqrt _ _ (List.cons_ne_nil _ _) (by rw [hrms]; exact lt_irrefl _),
      hrms]
    simp only [List.map_cons, List.map_nil]
    norm_num
  refine ⟨hrms, by rw [hrms]; norm_num, hnorm, ?_⟩
  rw [hnorm]
  intro h
  have h1 := List.head_eq_of_cons_eq h
  norm_num at h1

/-! ### 16-bit conversion -/

/-- C14: `int16ToFloat32(s)` has the length of `s`, its `i`-th element is `s[i] / 32768`,
and for 16-bit samples every element lies in `[-1, 1]`; the Int16LSB branch of
`processAudioData` computes the same values; `[16384, -16384, 0, 32767]` converts to
`[0.5, -0.5, 0, 32767/32768]`. -/
theorem int16ToFloat32_values (s : List Int) :
    (int16ToFloat32 s).length = s.length
      ∧ (∀ i : Nat, (int16ToFloat32 s)[i]? = s[i]?.map fun (v : Int) => (v : ℚ) / 32768)
      ∧ ((∀ v ∈ s, -32768 ≤ v ∧ v ≤ 32767) → ∀ q ∈ int16ToFloat32 s, -1 ≤ q ∧ q ≤ 1)
      ∧ (∀ (buffer : RawBuffer) (bufferSize : Int),
          ASIOManager.convertSamples ASIOSampleType.ASIOSTInt16LSB buffer bufferSize
            = int16ToFloat32 ((List.range bufferSize.toNat).map buffer.asInt16))
      ∧ int16ToFloat32 [16384, -16384, 0, 32767] = [1 / 2, -1 / 2, 0, 32767 / 32768] := by
  refine ⟨List.length_map _ _, fun i => List.getElem?_map _ _ _, ?_, ?_, ?_⟩
  · intro hs q hq
    obtain ⟨v, hv, rfl⟩ := List.mem_map.mp hq
    have hlo : (-32768 : ℚ) ≤ (v : ℚ) := by exact_mod_cast (hs v hv).1
    have hhi : (v : ℚ) ≤ 32767 := by exact_mod_cast (hs v hv).2
    constructor
    · rw [le_div_iff₀ (by norm_num)]; linarith
    · rw [div_le_iff₀ (by norm_num)]; linarith
  · intro buffer bufferSize
    simp [ASIOManager.convertSamples, int16ToFloat32, List.map_map, Function.comp_def]
  · norm_num [int16ToFloat32]

theorem int16ToFloat32_values_witness :
    (∀ v ∈ [16384, -16384, 0, 32767], (-32768 : Int) ≤ v ∧ v ≤ 32767)
      ∧ (int16ToFloat32 [16384, -16384, 0, 32767]).length = 4
      ∧ (∀ q ∈ int16ToFloat32 [16384, -16384, 0, 32767], -1 ≤ q ∧ q ≤ 1)
      ∧ int16ToFloat32 [16384, -16384, 0, 32767] = [1 / 2, -1 / 2, 0, 32767 / 32768] :=
  ⟨by decide, (int16ToFloat32_values [16384, -16384, 0, 32767]).1,
    (int16ToFloat32_values [16384, -16384, 0, 32767]).2.2.1 (by decide),
    (int16ToFloat32_values [16384, -16384, 0, 32767]).2.2.2.2⟩

/-! ## Theorems: association lists -/

theorem mapModify_append_ne_self {K A : Type} [LinearOrder K] (m : List (K × List A)) (k : K)
    (x : A) : mapModify m k [] (fun v => v ++ [x]) ≠ m := by
  induction m with
  | nil => simp [mapModify]
  | cons p rest ih =>
    obtain ⟨k', v⟩ := p
    unfold mapModify
    split_ifs with h1 h2
    · intro h
      have hlen := congrArg List.length h
      simp at hlen
    · intro h
      simp at h
    · intro h
      simp only [List.cons.injEq, true_and] at h
      exact ih h

theorem mapFind_mapModify_self {K V : Type} [LinearOrder K] (m : List (K × V)) (k : K) (d : V)
    (f : V → V) : ∃ v, mapFind (mapModify m k d f) k = some (f v) := by
  induction m with
  | nil => exact ⟨d, by simp [mapModify, mapFind]⟩
  | cons p rest ih =>
    obtain ⟨k', v⟩ := p
    unfold mapModify
    split_ifs with h1 h2
    · exact ⟨d, by simp [mapFind]⟩
    · exact ⟨v, by simp [mapFind, h2]⟩
    · obtain ⟨w, hw⟩ := ih
      refine ⟨w, ?_⟩
      have hne : k' ≠ k := fun h => h2 h.symm
      simp [mapFind, hne, hw]

theorem mapFind_eq_some_iff {K V : Type} [DecidableEq K] (m : List (K × V)) (k : K) (v : V)
    (hkeys : (m.map Prod.fst).Nodup) : mapFind m k = some v ↔ (k, v) ∈ m := by
  induction m with
  | nil => simp [mapFind]
  | cons p rest ih =>
    obtain ⟨k', v'⟩ := p
    simp only [List.map_cons, List.nodup_cons] at hkeys
    unfold mapFind
    split_ifs with h
    · subst h
      constructor
      · intro hv
        simp only [Option.some.injEq] at hv
        simp [hv]
      · intro hmem
        rcases List.mem_cons.mp hmem with heq | hrest
        · simp only [Prod.mk.injEq, true_and] at heq
          simp [heq]
        · exact absurd (List.mem_map_of_mem Prod.fst hrest) hkeys.1
    · rw [ih hkeys.2]
      constructor
      · exact fun hmem => List.mem_cons_of_mem _ hmem
      · intro hmem
        rcases List.mem_cons.mp hmem with heq | hrest
        · simp only [Prod.mk.injEq] at heq
          exact absurd heq.1.symm h
        · exact hrest

/-! ## Theorems: subscription registry -/

namespace WebSocketServerManager

theorem handleSubscribe_callbackLog (s : WebSocketServerManager) (hdl : ConnectionHandle)
    (channelId : Int) :
    (s.handleSubscribe hdl (some channelId)).callbackLog
      = s.callbackLog ++ (if s.hasSubscriptionCallback then [(channelId, true)] else []) := by
  unfold handleSubscribe sendToClient notify callbackThrown
  cases h : s.hasSubscriptionCallback <;> cases ht : s.callbackThrows channelId true <;>
    simp [h, ht]

theorem handleSubscribe_hasSubscriptionCallback (s : WebSocketServerManager)
    (hdl : ConnectionHandle) (channelId : Int) :
    (s.handleSubscribe hdl (some channelId)).hasSubscriptionCallback
      = s.hasSubscriptionCallback := by
  unfold handleSubscribe sendToClient notify callbackThrown
  cases h : s.hasSubscriptionCallback <;> cases ht : s.callbackThrows channelId true <;>
    simp [h, ht]

theorem handleSubscribe_channelSubscriptions (s : WebSocketServerManager)
    (hdl : ConnectionHandle) (channelId : Int) :
    (s.handleSubscribe hdl (some channelId)).m_channelSubscriptions
      = mapModify s.m_channelSubscriptions channelId [] (fun subs => subs ++ [hdl]) := by
  unfold handleSubscribe sendToClient notify callbackThrown
  cases h : s.hasSubscriptionCallback <;> cases ht : s.callbackThrows channelId true <;>
    simp [h, ht]

theorem handleSubscribe_connections (s : WebSocketServerManager)
    (hdl : ConnectionHandle) (channelId : Int) :
    (s.handleSubscribe hdl (some channelId)).m_connections
      = mapModify s.m_connections hdl [] (fun chans => chans ++ [channelId]) := by
  unfold handleSubscribe sendToClient notify callbackThrown
  cases h : s.hasSubscriptionCallback <;> cases ht : s.callbackThrows channelId true <;>
    simp [h, ht]

end WebSocketServerManager

/-- C4 (amended): for every subscription state and every subscribe request `(h, c)`,
`handleSubscribe` invokes the registered subscription callback with `(c, true)` exactly
once, whether or not channel `c` had a subscriber before; a second request on the same
channel, from the same or from another connection, notifies again. -/
theorem handleSubscribe_always_notifies (s : WebSocketServerManager)
    (h h2 : ConnectionHandle) (c : Int) :
    (s.handleSubscribe h (some c)).callbackLog
        = s.callbackLog ++ (if s.hasSubscriptionCallback then [(c, true)] else [])
      ∧ ((s.handleSubscribe h (some c)).handleSubscribe h2 (some c)).callbackLog
        = s.callbackLog
            ++ (if s.hasSubscriptionCallback then [(c, true), (c, true)] else []) := by
  refine ⟨WebSocketServerManager.handleSubscribe_callbackLog s h c, ?_⟩
  rw [WebSocketServerManager.handleSubscribe_callbackLog,
    WebSocketServerManager.handleSubscribe_hasSubscriptionCallback,
    WebSocketServerManager.handleSubscribe_callbackLog]
  cases s.hasSubscriptionCallback <;> simp

/-- C4 (counterexample): connection 1 is already subscribed to channel 0; subscribing
the same pair again, or connection 2 subscribing to channel 0, invokes the callback with
`(0, true)` although the channel had a subscriber before the request. -/
theorem handleSubscribe_notifies_active_channel :
    mapFind subscribedOnce.m_channelSubscriptions 0 = some [1]
      ∧ subscribedOnce.callbackLog = [(0, true)]
      ∧ (subscribedOnce.handleSubscribe 1 (some 0)).callbackLog = [(0, true), (0, true)]
      ∧ (subscribedOnce.handleSubscribe 2 (some 0)).callbackLog = [(0, true), (0, true)] := by
  decide

/-- C5 (code at the failing input): connection 1 is the only subscriber of channel 0;
after `onClose 1` the channel has no subscriber left, yet the callback trace is
unchanged: no `(0, false)` notification is emitted. -/
theorem onClose_sole_subscriber_not_notified :
    subscribedOnce.hasSubscriptionCallback = true
      ∧ mapFind subscribedOnce.m_channelSubscriptions 0 = some [1]
      ∧ mapFind (subscribedOnce.onClose 1).m_channelSubscriptions 0 = some []
      ∧ (subscribedOnce.onClose 1).callbackLog = subscribedOnce.callbackLog
      ∧ (0, false) ∉ (subscribedOnce.onClose 1).callbackLog := by
  decide

/-- C6 (amended): `handleSubscribe` does not validate the channel id against the cached
channel list `m_availableChannels`: for every state and every id `c`, valid index or
not, the connection is appended to the subscriber list of `c`, `c` is appended to the
channel list of the connection (so both maps change), and the callback is invoked with
`(c, true)` when one is registered. -/
theorem handleSubscribe_no_validation (s : WebSocketServerManager) (h : ConnectionHandle)
    (c : Int) :
    (∃ subs, mapFind (s.handleSubscribe h (some c)).m_channelSubscriptions c = some (subs ++ [h]))
      ∧ (∃ chans, mapFind (s.handleSubscribe h (some c)).m_connections h = some (chans ++ [c]))
      ∧ (s.handleSubscribe h (some c)).m_channelSubscriptions ≠ s.m_channelSubscriptions
      ∧ (s.handleSubscribe h (some c)).m_connections ≠ s.m_connections
      ∧ (s.handleSubscribe h (some c)).callbackLog
          = s.callbackLog ++ (if s.hasSubscriptionCallback then [(c, true)] else []) := by
  rw [WebSocketServerManager.handleSubscribe_channelSubscriptions,
    WebSocketServerManager.handleSubscribe_connections]
  exact ⟨mapFind_mapModify_self _ _ _ _, mapFind_mapModify_self _ _ _ _,
    mapModify_append_ne_self _ _ _, mapModify_append_ne_self _ _ _,
    WebSocketServerManager.handleSubscribe_callbackLog s h c⟩

/-- C6 (counterexample): the cached enumeration holds two channels (valid ids 0 and 1);
a subscribe request for channel 7 is not rejected: both maps gain the pair and the
callback is invoked with `(7, true)`. -/
theorem handleSubscribe_unknown_channel_accepted :
    twoChannelServer.m_availableChannels.length = 2
      ∧ twoChannelServer.m_channelSubscriptions = []
      ∧ twoChannelServer.m_connections = []
      ∧ (twoChannelServer.handleSubscribe 1 (some 7)).m_channelSubscriptions = [(7, [1])]
      ∧ (twoChannelServer.handleSubscribe 1 (some 7)).m_connections = [(1, [7])]
      ∧ (twoChannelServer.handleSubscribe 1 (some 7)).callbackLog = [(7, true)] := by
  decide

/-! ### Disconnect and unsubscribe -/

theorem mapFind_map_values {K V : Type} [DecidableEq K] (m : List (K × V)) (k : K)
    (f : K → V → V) :
    mapFind (m.map fun pair => (pair.1, f pair.1 pair.2)) k = (mapFind m k).map (f k) := by
  induction m with
  | nil => rfl
  | cons p rest ih =>
    obtain ⟨k', v⟩ := p
    simp only [List.map_cons, mapFind]
    split_ifs with h
    · subst h; rfl
    · exact ih

theorem mapFind_mapErase_self {K V : Type} [DecidableEq K] (m : List (K × V)) (k : K) :
    mapFind (mapErase m k) k = none := by
  induction m with
  | nil => rfl
  | cons p rest ih =>
    obtain ⟨k', v⟩ := p
    unfold mapErase at ih ⊢
    by_cases h : k' = k
    · simpa [List.filter_cons, h] using ih
    · simpa [List.filter_cons, h, mapFind] using ih

theorem mem_eraseRemove {A : Type} [DecidableEq A] (v : List A) (x y : A) :
    y ∈ eraseRemove v x ↔ y ∈ v ∧ y ≠ x := by
  simp [eraseRemove, List.mem_filter]

theorem eraseRemove_isEmpty_eq_false {A : Type} [DecidableEq A] (v : List A) (x : A) :
    (eraseRemove v x).isEmpty = false ↔ ∃ y, y ∈ v ∧ y ≠ x := by
  constructor
  · intro h
    cases hl : eraseRemove v x with
    | nil => rw [hl] at h; simp at h
    | cons a as =>
      have ha : a ∈ eraseRemove v x := by rw [hl]; exact List.mem_cons_self a as
      exact ⟨a, (mem_eraseRemove v x a).mp ha⟩
  · rintro ⟨y, hy⟩
    have hmem := (mem_eraseRemove v x y).mpr hy
    cases hl : eraseRemove v x with
    | nil => rw [hl] at hmem; simp at hmem
    | cons a as => rfl

/-- C15: after `onClose(h)` the connection `h` is in no channel's subscriber list (and has
no entry in `m_connections`), and `getSubscriptions` reports channel `c` active exactly
when some connection other than `h` was subscribed to `c` before the call. -/
theorem onClose_removes_connection (s : WebSocketServerManager) (h : ConnectionHandle)
    (hkeys : (s.m_channelSubscriptions.map Prod.fst).Nodup) :
    (∀ c subs, mapFind (s.onClose h).m_channelSubscriptions c = some subs → h ∉ subs)
      ∧ mapFind (s.onClose h).m_connections h = none
      ∧ (∀ c : Int,
          (∃ sub ∈ (s.onClose h).getSubscriptions, sub.channelId = c ∧ sub.isActive = true)
            ↔ ∃ subs h2, mapFind s.m_channelSubscriptions c = some subs ∧ h2 ∈ subs ∧ h2 ≠ h) := by
  refine ⟨?_, ?_, ?_⟩
  · intro c subs hfind
    have hmap := mapFind_map_values s.m_channelSubscriptions c (fun _ v => eraseRemove v h)
    unfold WebSocketServerManager.onClose at hfind
    simp only at hfind
    rw [hmap] at hfind
    cases hc : mapFind s.m_channelSubscriptions c with
    | none => rw [hc] at hfind; simp at hfind
    | some subs0 =>
      rw [hc] at hfind
      simp only [Option.map_some', Option.some.injEq] at hfind
      rw [← hfind]
      intro hmem
      exact ((mem_eraseRemove subs0 h h).mp hmem).2 rfl
  · exact mapFind_mapErase_self s.m_connections h
  · intro c
    unfold WebSocketServerManager.getSubscriptions WebSocketServerManager.onClose
    simp only [List.mem_map, List.map_map]
    constructor
    · rintro ⟨sub, ⟨pair, hpair, rfl⟩, hid, hact⟩
      simp only [Function.comp_apply] at hid hact
      obtain ⟨k, subs⟩ := pair
      simp only at hid hact
      subst hid
      have hne : (eraseRemove subs h).isEmpty = false := by simpa using hact
      obtain ⟨y, hy1, hy2⟩ := (eraseRemove_isEmpty_eq_false subs h).mp hne
      exact ⟨subs, y, (mapFind_eq_some_iff _ _ _ hkeys).mpr hpair, hy1, hy2⟩
    · rintro ⟨subs, h2, hfind, hmem, hne⟩
      have hpair := (mapFind_eq_some_iff _ _ _ hkeys).mp hfind
      refine ⟨_, ⟨(c, subs), hpair, rfl⟩, rfl, ?_⟩
      have := (eraseRemove_isEmpty_eq_false subs h).mpr ⟨h2, hmem, hne⟩
      simp [this]

theorem onClose_removes_connection_witness :
    (sharedChannel.m_channelSubscriptions.map Prod.fst).Nodup
      ∧ mapFind sharedChannel.m_channelSubscriptions 0 = some [1, 2]
      ∧ mapFind sharedChannel.m_channelSubscriptions 1 = some [1]
      ∧ (∀ c subs, mapFind (sharedChannel.onClose 1).m_channelSubscriptions c = some subs →
          1 ∉ subs)
      ∧ mapFind (sharedChannel.onClose 1).m_connections 1 = none
      ∧ (∀ c : Int,
          (∃ sub ∈ (sharedChannel.onClose 1).getSubscriptions,
              sub.channelId = c ∧ sub.isActive = true)
            ↔ ∃ subs h2, mapFind sharedChannel.m_channelSubscriptions c = some subs
                ∧ h2 ∈ subs ∧ h2 ≠ 1) :=
  ⟨by decide, by decide, by decide, onClose_removes_connection sharedChannel 1 (by decide)⟩

theorem mapAdjust_eq_self {K V : Type} [DecidableEq K] (m : List (K × V)) (k : K) (f : V → V)
    (hfix : ∀ v, (k, v) ∈ m → f v = v) : mapAdjust m k f = m := by
  unfold mapAdjust
  conv_rhs => rw [← List.map_id m]
  apply List.map_congr_left
  intro pair hpair
  obtain ⟨k', v⟩ := pair
  by_cases h : k' = k
  · subst h
    simp [hfix v hpair]
  · simp [h]

theorem eraseRemove_eq_self {A : Type} [DecidableEq A] (v : List A) (x : A) (hx : x ∉ v) :
    eraseRemove v x = v := by
  unfold eraseRemove
  rw [List.filter_eq_self]
  intro y hy
  have : y ≠ x := fun h => hx (h ▸ hy)
  simp [this]

/-- C16 (amended): when connection `h` is not subscribed to channel `c` (the pair is in
neither map), `handleUnsubscribe` leaves both subscription maps unchanged; the callback is
invoked with `(c, false)` exactly when a callback is registered and channel `c` has an
entry whose subscriber list is already empty, and is not invoked otherwise. -/
theorem handleUnsubscribe_not_subscribed (s : WebSocketServerManager) (h : ConnectionHandle)
    (c : Int)
    (hkeys : (s.m_channelSubscriptions.map Prod.fst).Nodup)
    (hconn : (s.m_connections.map Prod.fst).Nodup)
    (hsub : ∀ subs, mapFind s.m_channelSubscriptions c = some subs → h ∉ subs)
    (hchan : ∀ chans, mapFind s.m_connections h = some chans → c ∉ chans) :
    (s.handleUnsubscribe h (some c)).m_channelSubscriptions = s.m_channelSubscriptions
      ∧ (s.handleUnsubscribe h (some c)).m_connections = s.m_connections
      ∧ (s.handleUnsubscribe h (some c)).callbackLog
          = s.callbackLog
              ++ (if s.hasSubscriptionCallback = true
                    ∧ mapFind s.m_channelSubscriptions c = some [] then [(c, false)]
                  else []) := by
  have h1 : mapAdjust s.m_channelSubscriptions c (fun subs => eraseRemove subs h)
      = s.m_channelSubscriptions :=
    mapAdjust_eq_self _ _ _ fun v hv =>
      eraseRemove_eq_self v h (hsub v ((mapFind_eq_some_iff _ _ _ hkeys).mpr hv))
  have h2 : mapAdjust s.m_connections h (fun chans => eraseRemove chans c) = s.m_connections :=
    mapAdjust_eq_self _ _ _ fun v hv =>
      eraseRemove_eq_self v c (hchan v ((mapFind_eq_some_iff _ _ _ hconn).mpr hv))
  unfold WebSocketServerManager.handleUnsubscribe WebSocketServerManager.unsubscribeConnection
    WebSocketServerManager.sendToClient WebSocketServerManager.notify
    WebSocketServerManager.callbackThrown
  cases hf : mapFind s.m_channelSubscriptions c with
  | none => simp [hf, h2]
  | some subs =>
    have hfilter : eraseRemove subs h = subs := eraseRemove_eq_self subs h (hsub subs hf)
    cases subs with
    | nil =>
      cases hcb : s.hasSubscriptionCallback <;> cases ht : s.callbackThrows c false <;>
        simp [hf, h1, h2, hfilter, hcb, ht]
    | cons a as =>
      cases hcb : s.hasSubscriptionCallback <;> cases ht : s.callbackThrows c false <;>
        simp [hf, h1, h2, hfilter, hcb, ht]

theorem handleUnsubscribe_not_subscribed_witness :
    (sharedChannel.m_channelSubscriptions.map Prod.fst).Nodup
      ∧ (sharedChannel.m_connections.map Prod.fst).Nodup
      ∧ (∀ subs, mapFind sharedChannel.m_channelSubscriptions 1 = some subs → 2 ∉ subs)
      ∧ (∀ chans, mapFind sharedChannel.m_connections 2 = some chans → 1 ∉ chans)
      ∧ (sharedChannel.handleUnsubscribe 2 (some 1)).m_channelSubscriptions
          = sharedChannel.m_channelSubscriptions
      ∧ (sharedChannel.handleUnsubscribe 2 (some 1)).m_connections
          = sharedChannel.m_connections
      ∧ (sharedChannel.handleUnsubscribe 2 (some 1)).callbackLog
          = sharedChannel.callbackLog
              ++ (if sharedChannel.hasSubscriptionCallback = true
                    ∧ mapFind sharedChannel.m_channelSubscriptions 1 = some [] then [(1, false)]
                  else []) :=
  have hsub : ∀ subs, mapFind sharedChannel.m_channelSubscriptions 1 = some subs → 2 ∉ subs := by
    intro subs hs
    have h1 : mapFind sharedChannel.m_channelSubscriptions 1 = some [1] := by decide
    rw [h1] at hs
    cases hs
    decide
  have hchan : ∀ chans, mapFind sharedChannel.m_connections 2 = some chans → 1 ∉ chans := by
    intro chans hs
    have h1 : mapFind sharedChannel.m_connections 2 = some [0] := by decide
    rw [h1] at hs
    cases hs
    decide
  ⟨by decide, by decide, hsub, hchan,
    handleUnsubscribe_not_subscribed sharedChannel 2 1 (by decide) (by decide) hsub hchan⟩

/-- C16 (counterexample): connection 1 subscribed to channel 0 and unsubscribed again, so
channel 0 keeps an entry with an empty subscriber list.  Connection 2, never subscribed,
now sends an unsubscribe for channel 0: the maps stay as they are, but the callback is
invoked with `(0, false)` once more. -/
theorem handleUnsubscribe_never_subscribed_notifies :
    unsubscribedAgain.m_channelSubscriptions = [(0, [])]
      ∧ unsubscribedAgain.m_connections = [(1, [])]
      ∧ unsubscribedAgain.callbackLog = [(0, true), (0, false)]
      ∧ (unsubscribedAgain.handleUnsubscribe 2 (some 0)).m_channelSubscriptions = [(0, [])]
      ∧ (unsubscribedAgain.handleUnsubscribe 2 (some 0)).m_connections = [(1, [])]
      ∧ (unsubscribedAgain.handleUnsubscribe 2 (some 0)).callbackLog
          = [(0, true), (0, false), (0, false)] := by
  decide

/-! ## Theorems: coordinator -/

/-- The channel list `onSubscriptionChange` collects from `getSubscriptions`: the keys
of the entries whose subscriber list is non-empty, in key order. -/
theorem activeChannels_eq (ws : WebSocketServerManager) :
    ((ws.getSubscriptions.filter fun sub => sub.isActive).map fun sub => sub.channelId)
      = (ws.m_channelSubscriptions.filter fun pair => !pair.2.isEmpty).map Prod.fst := by
  unfold WebSocketServerManager.getSubscriptions
  induction ws.m_channelSubscriptions with
  | nil => rfl
  | cons pair rest ih =>
    cases hp : pair.2.isEmpty <;> simp [List.filter_cons, hp] <;> simpa using ih

/-- C10: `onSubscriptionChange` reconfigures capture from the registry snapshot.  With
`L` the ids of the channels that have at least one subscriber (each once): if `L` is
non-empty and a device is open it calls `startCapture(currentDevice, L)`; if no channel
has a subscriber it calls `stopCapture` (and not `startCapture`). -/
theorem onSubscriptionChange_follows_registry (ws : WebSocketServerManager)
    (asio : ASIOManager) (hkeys : (ws.m_channelSubscriptions.map Prod.fst).Nodup) :
    ∃ L : List Int,
      L.Nodup
      ∧ (∀ c, c ∈ L ↔ ∃ subs, mapFind ws.m_channelSubscriptions c = some subs ∧ subs ≠ [])
      ∧ (L ≠ [] → asio.getCurrentDevice ≠ "" →
          onSubscriptionChangeCall ws asio
              = some (CaptureCall.startCapture asio.getCurrentDevice L)
            ∧ ∀ drv c b, onSubscriptionChange drv ws asio c b
                = (asio.startCapture drv asio.getCurrentDevice L).1)
      ∧ (L = [] →
          onSubscriptionChangeCall ws asio = some CaptureCall.stopCapture
            ∧ ∀ drv c b, onSubscriptionChange drv ws asio c b = asio.stopCapture) := by
  refine ⟨(ws.m_channelSubscriptions.filter fun pair => !pair.2.isEmpty).map Prod.fst,
    ?_, ?_, ?_, ?_⟩
  · exact List.Nodup.sublist (List.Sublist.map _ (List.filter_sublist _)) hkeys
  · intro c
    simp only [List.mem_map, List.mem_filter, Prod.exists, exists_and_right, exists_eq_right]
    constructor
    · rintro ⟨subs, hmem, hne⟩
      refine ⟨subs, (mapFind_eq_some_iff _ _ _ hkeys).mpr hmem, ?_⟩
      intro h
      simp [h] at hne
    · rintro ⟨subs, hfind, hne⟩
      refine ⟨subs, (mapFind_eq_some_iff _ _ _ hkeys).mp hfind, ?_⟩
      cases subs with
      | nil => exact absurd rfl hne
      | cons a as => rfl
  · intro hL hdev
    have hcall : onSubscriptionChangeCall ws asio
        = some (CaptureCall.startCapture asio.getCurrentDevice
            ((ws.m_channelSubscriptions.filter fun pair => !pair.2.isEmpty).map Prod.fst)) := by
      unfold onSubscriptionChangeCall
      simp only [activeChannels_eq]
      have h1 : ((ws.m_channelSubscriptions.filter fun pair => !pair.2.isEmpty).map
          Prod.fst).isEmpty = false := by
        cases hl : (ws.m_channelSubscriptions.filter fun pair => !pair.2.isEmpty).map Prod.fst with
        | nil => exact absurd hl hL
        | cons a as => rfl
      have h2 : asio.getCurrentDevice.isEmpty = false := by
        cases hs : asio.getCurrentDevice.isEmpty with
        | false => rfl
        | true => exact absurd ((String.isEmpty_iff _).mp hs) hdev
      simp [h1, h2]
    refine ⟨hcall, ?_⟩
    intro drv c b
    unfold onSubscriptionChange
    rw [hcall]
  · intro hL
    have hcall : onSubscriptionChangeCall ws asio = some CaptureCall.stopCapture := by
      unfold onSubscriptionChangeCall
      simp only [activeChannels_eq]
      rw [hL]
      rfl
    refine ⟨hcall, ?_⟩
    intro drv c b
    unfold onSubscriptionChange
    rw [hcall]

theorem onSubscriptionChange_follows_registry_witness :
    (subscribedOnce.m_channelSubscriptions.map Prod.fst).Nodup ∧
    ∃ L : List Int,
      L.Nodup
      ∧ (∀ c, c ∈ L ↔
          ∃ subs, mapFind subscribedOnce.m_channelSubscriptions c = some subs ∧ subs ≠ [])
      ∧ (L ≠ [] → openSession.getCurrentDevice ≠ "" →
          onSubscriptionChangeCall subscribedOnce openSession
              = some (CaptureCall.startCapture openSession.getCurrentDevice L)
            ∧ ∀ drv c b, onSubscriptionChange drv subscribedOnce openSession c b
                = (openSession.startCapture drv openSession.getCurrentDevice L).1)
      ∧ (L = [] →
          onSubscriptionChangeCall subscribedOnce openSession = some CaptureCall.stopCapture
            ∧ ∀ drv c b, onSubscriptionChange drv subscribedOnce openSession c b
                = openSession.stopCapture) :=
  ⟨by decide, onSubscriptionChange_follows_registry subscribedOnce openSession (by decide)⟩

/-! ## Theorems: capture session -/

namespace ASIOManager

theorem openDevice_capturing (drv : Driver) (m : ASIOManager) (deviceName : String) :
    (m.openDevice drv deviceName).1.m_isCapturing = m.m_isCapturing
      ∧ (m.openDevice drv deviceName).1.m_activeChannels = m.m_activeChannels := by
  unfold openDevice closeDevice call
  cases h2 : m.m_asio <;> cases h4 : drv.asioInitOk <;> cases h5 : drv.initOk <;>
    simp [h2, h4, h5]

theorem stopCapture_not_capturing (m : ASIOManager) : m.stopCapture.m_isCapturing = false := by
  unfold stopCapture cleanupBuffers call
  cases h1 : m.m_isCapturing <;> cases h2 : m.m_asio <;> cases h3 : m.threadJoinable <;>
    simp [h1, h2, h3]

theorem channelChunk_queue (m : ASIOManager) (q : List AudioChunk) (idx : Fin 2) (t : ℚ)
    (i : Nat) : ({ m with m_audioQueue := q }).channelChunk idx t i = m.channelChunk idx t i :=
  rfl

theorem processChannels_eq (idx : Fin 2) (t : ℚ) (l : List Nat) :
    ∀ m : ASIOManager, (∀ k ∈ l, m.channelChunk idx t k ≠ none) →
      m.processChannels idx t l
        = some { m with m_audioQueue :=
            m.m_audioQueue ++ l.filterMap fun k => (m.channelChunk idx t k).join } := by
  induction l with
  | nil => intro m _; simp [processChannels]
  | cons i rest ih =>
    intro m hvalid
    have hi := hvalid i (List.mem_cons_self i rest)
    have hrest : ∀ k ∈ rest, m.channelChunk idx t k ≠ none := fun k hk =>
      hvalid k (List.mem_cons_of_mem i hk)
    unfold processChannels
    cases hc : m.channelChunk idx t i with
    | none => exact absurd hc hi
    | some r =>
      cases r with
      | none =>
        simp only []
        rw [ih m hrest]
        simp [List.filterMap_cons, hc]
      | some chunk =>
        simp only []
        rw [ih _ (fun k hk => by rw [channelChunk_queue]; exact hrest k hk)]
        simp [List.filterMap_cons, hc, channelChunk_queue]

theorem processChannels_fields (idx : Fin 2) (t : ℚ) (l : List Nat) :
    ∀ m m' : ASIOManager, m.processChannels idx t l = some m' →
      m'.m_isCapturing = m.m_isCapturing ∧ m'.m_activeChannels = m.m_activeChannels := by
  induction l with
  | nil => intro m m' h; simp [processChannels] at h; subst h; exact ⟨rfl, rfl⟩
  | cons i rest ih =>
    intro m m' h
    unfold processChannels at h
    cases hc : m.channelChunk idx t i with
    | none => simp [hc] at h
    | some r =>
      cases r with
      | none => simp only [hc] at h; exact ih m m' h
      | some chunk =>
        simp only [hc] at h
        have hrec := ih _ m' h
        exact hrec

theorem processAudioData_fields (idx : Fin 2) (t : ℚ) (m m' : ASIOManager)
    (h : m.processAudioData idx t = some m') :
    m'.m_isCapturing = m.m_isCapturing ∧ m'.m_activeChannels = m.m_activeChannels := by
  unfold processAudioData at h
  split_ifs at h
  · simp at h; subst h; exact ⟨rfl, rfl⟩
  · exact processChannels_fields idx t _ m m' h

theorem captureThreadDrainFrom_eq (queue : List AudioChunk) :
    ∀ m : ASIOManager, m.captureThreadDrainFrom queue
      = { m with
          forwarded := if m.hasAudioCallback then m.forwarded ++ queue else m.forwarded
          m_audioQueue := [] } := by
  induction queue with
  | nil => intro m; cases h : m.hasAudioCallback <;> simp [captureThreadDrainFrom, h]
  | cons chunk rest ih =>
    intro m
    unfold captureThreadDrainFrom
    cases h : m.hasAudioCallback <;> simp [ih, h]

theorem captureThreadDrain_eq (m : ASIOManager) :
    m.captureThreadDrain
      = { m with
          forwarded := if m.hasAudioCallback then m.forwarded ++ m.m_audioQueue
            else m.forwarded
          m_audioQueue := [] } :=
  captureThreadDrainFrom_eq m.m_audioQueue m

theorem startCaptureWith_failureOnReturn (drv : Driver) (m : ASIOManager)
    (deviceName : String) (channelIds : List Int) :
    m.startCaptureWith SetupReading.failureOnReturn drv deviceName channelIds
      = m.startCapture drv deviceName channelIds :=
  rfl

theorem setupBuffersWith_fields (r : SetupReading) (drv : Driver) (m : ASIOManager) :
    (m.setupBuffersWith r drv).1.m_isCapturing = m.m_isCapturing
      ∧ (m.setupBuffersWith r drv).1.m_activeChannels = m.m_activeChannels
      ∧ (m.m_numChannels = 0 → (m.setupBuffersWith r drv).2 = r.nothingToSetup) := by
  unfold setupBuffersWith cleanupBuffers call
  cases h2 : m.m_asio <;> cases h7 : drv.createBuffers <;>
    by_cases h0 : m.m_numChannels = 0 <;> simp [h2, h7, h0]

theorem startCaptureWith_capturing (r : SetupReading) (hr : r.nothingToSetup = false)
    (drv : Driver) (m : ASIOManager) (deviceName : String) (channelIds : List Int)
    (hcap : (m.startCaptureWith r drv deviceName channelIds).1.m_isCapturing = true) :
    (m.startCaptureWith r drv deviceName channelIds).1.m_activeChannels = channelIds
      ∧ channelIds ≠ [] := by
  revert hcap
  unfold startCaptureWith
  have h0 : (if m.m_isCapturing = true then m.stopCapture else m).m_isCapturing = false := by
    cases h1 : m.m_isCapturing
    · simp [h1]
    · simp [stopCapture_not_capturing]
  generalize (if m.m_isCapturing = true then m.stopCapture else m) = m0 at h0
  have h1 := (openDevice_capturing drv m0 deviceName).1
  rw [h0] at h1
  have hs1 := fun m2 => (setupBuffersWith_fields r drv m2).1
  have hs2 := fun m2 => (setupBuffersWith_fields r drv m2).2.1
  have hs3 := fun m2 => (setupBuffersWith_fields r drv m2).2.2
  simp only []
  split_ifs with ha hb hc
  · intro h
    rw [h1] at h
    exact absurd h (by decide)
  · intro h
    rw [hs1] at h
    exact absurd (h1.symm.trans h) (by decide)
  · intro h
    simp only [call] at h
    rw [hs1] at h
    exact absurd (h1.symm.trans h) (by decide)
  · intro _
    simp only [call]
    rw [hs2]
    refine ⟨rfl, ?_⟩
    rintro rfl
    simp [hs3, hr] at hb

theorem reachableWith_capturing_nonempty (r : SetupReading) (hr : r.nothingToSetup = false)
    (m : ASIOManager) (hm : m.ReachableWith r) :
    m.m_isCapturing = true → m.m_activeChannels ≠ [] := by
  induction hm with
  | new => intro h; simp [ASIOManager.new] at h
  | getChannels drv dev _ ih =>
    intro h
    unfold getChannels at h ⊢
    rw [(openDevice_capturing drv _ dev).1] at h
    rw [(openDevice_capturing drv _ dev).2]
    exact ih h
  | startCapture drv dev chans _ _ =>
    intro h
    have := startCaptureWith_capturing r hr drv _ dev chans h
    rw [this.1]; exact this.2
  | stopCapture _ _ => intro h; rw [stopCapture_not_capturing] at h; exact absurd h (by simp)
  | setAudioCallback _ ih => exact ih
  | sampleRateDidChange _ _ ih => exact ih
  | processAudioData idx t _ hstep ih =>
    intro h
    have := processAudioData_fields idx t _ _ hstep
    rw [this.1] at h
    rw [this.2]
    exact ih h
  | captureThreadDrain _ ih => rw [captureThreadDrain_eq]; exact ih

end ASIOManager

/-- C7 (amended): on a session that is not capturing, `startCapture` with an empty channel
id list leaves `setupBuffers` at its guard `m_numChannels == 0`, so it allocates no
buffers and makes no `createBuffers` call, whatever Boolean the test `!setupBuffers()`
reads there (the source declares `setupBuffers` as `void`).  If the test reads the guard's
return as failure, the call returns `false`, `isCapturing` stays false, the driver is not
started, and in every reachable state `isCapturing() == true` implies a non-empty active
channel list.  If it reads it as success and the device opens, the driver is started with
no channel and the call returns what `start` reports.  (`startCapture` is the function
under the first reading.) -/
theorem startCapture_empty_list (r : SetupReading) (drv : Driver) (m : ASIOManager)
    (deviceName : String) (hidle : m.m_isCapturing = false) :
    (m.startCaptureWith r drv deviceName []).1.m_bufferInfos = m.m_bufferInfos
      ∧ (m.startCaptureWith r drv deviceName []).1.m_channelInfos = m.m_channelInfos
      ∧ (∀ n size,
          (m.startCaptureWith r drv deviceName []).1.driverCalls.count
              (DriverCall.createBuffers n size)
            = m.driverCalls.count (DriverCall.createBuffers n size))
      ∧ (r.nothingToSetup = false →
          (m.startCaptureWith r drv deviceName []).2 = false
            ∧ (m.startCaptureWith r drv deviceName []).1.isCapturing = false
            ∧ (m.startCaptureWith r drv deviceName []).1.driverCalls.count DriverCall.start
                = m.driverCalls.count DriverCall.start
            ∧ ∀ m' : ASIOManager, m'.ReachableWith r → m'.isCapturing = true →
                m'.m_activeChannels ≠ [])
      ∧ (r.nothingToSetup = true → drv.asioInitOk = true → drv.initOk = true →
          (m.startCaptureWith r drv deviceName []).2 = drv.startOk
            ∧ (m.startCaptureWith r drv deviceName []).1.isCapturing = drv.startOk
            ∧ (m.startCaptureWith r drv deviceName []).1.m_activeChannels = []
            ∧ (m.startCaptureWith r drv deviceName []).1.driverCalls.count DriverCall.start
                = m.driverCalls.count DriverCall.start + 1)
      ∧ m.startCaptureWith SetupReading.failureOnReturn drv deviceName []
          = m.startCapture drv deviceName [] := by
  refine ⟨?_, ?_, ?_, ?_, ?_, ASIOManager.startCaptureWith_failureOnReturn drv m deviceName []⟩
  · unfold ASIOManager.startCaptureWith ASIOManager.setupBuffersWith ASIOManager.openDevice
      ASIOManager.closeDevice ASIOManager.call
    cases h2 : m.m_asio <;> cases h4 : drv.asioInitOk <;> cases h5 : drv.initOk <;>
      cases h6 : drv.startOk <;> cases h7 : r.nothingToSetup <;>
      simp [hidle, h2, h4, h5, h6, h7]
  · unfold ASIOManager.startCaptureWith ASIOManager.setupBuffersWith ASIOManager.openDevice
      ASIOManager.closeDevice ASIOManager.call
    cases h2 : m.m_asio <;> cases h4 : drv.asioInitOk <;> cases h5 : drv.initOk <;>
      cases h6 : drv.startOk <;> cases h7 : r.nothingToSetup <;>
      simp [hidle, h2, h4, h5, h6, h7]
  · intro n size
    unfold ASIOManager.startCaptureWith ASIOManager.setupBuffersWith ASIOManager.openDevice
      ASIOManager.closeDevice ASIOManager.call
    cases h2 : m.m_asio <;> cases h4 : drv.asioInitOk <;> cases h5 : drv.initOk <;>
      cases h6 : drv.startOk <;> cases h7 : r.nothingToSetup <;>
      simp [hidle, h2, h4, h5, h6, h7, List.count_cons]
  · intro hr
    refine ⟨?_, ?_, ?_, fun m' hm' => ASIOManager.reachableWith_capturing_nonempty r hr m' hm'⟩ <;>
      unfold ASIOManager.startCaptureWith ASIOManager.setupBuffersWith ASIOManager.openDevice
        ASIOManager.closeDevice ASIOManager.call <;>
      cases h2 : m.m_asio <;> cases h4 : drv.asioInitOk <;> cases h5 : drv.initOk <;>
      simp [hidle, h2, h4, h5, hr, List.count_cons, ASIOManager.isCapturing]
  · intro hr h4 h5
    refine ⟨?_, ?_, ?_, ?_⟩ <;>
      unfold ASIOManager.startCaptureWith ASIOManager.setupBuffersWith ASIOManager.openDevice
        ASIOManager.closeDevice ASIOManager.call <;>
      cases h2 : m.m_asio <;> cases h6 : drv.startOk <;>
      simp [hidle, h2, h4, h5, h6, hr, List.count_cons, ASIOManager.isCapturing]

theorem startCapture_empty_list_witness :
    stoppedSession.m_isCapturing = false
      ∧ SetupReading.failureOnReturn.nothingToSetup = false
      ∧ (stoppedSession.startCaptureWith SetupReading.failureOnReturn okDriver "dev" []).2
          = false
      ∧ (stoppedSession.startCaptureWith SetupReading.failureOnReturn okDriver "dev"
            []).1.isCapturing = false
      ∧ (stoppedSession.startCaptureWith SetupReading.failureOnReturn okDriver "dev"
            []).1.m_bufferInfos = stoppedSession.m_bufferInfos
      ∧ capturingSession.ReachableWith SetupReading.failureOnReturn
      ∧ capturingSession.isCapturing = true
      ∧ capturingSession.m_activeChannels ≠ [] :=
  have hreach : capturingSession.ReachableWith SetupReading.failureOnReturn :=
    ASIOManager.ReachableWith.startCapture okDriver "dev" [0] ASIOManager.ReachableWith.new
  ⟨by decide, rfl,
    ((startCapture_empty_list SetupReading.failureOnReturn okDriver stoppedSession "dev"
      (by decide)).2.2.2.1 rfl).1,
    ((startCapture_empty_list SetupReading.failureOnReturn okDriver stoppedSession "dev"
      (by decide)).2.2.2.1 rfl).2.1,
    (startCapture_empty_list SetupReading.failureOnReturn okDriver stoppedSession "dev"
      (by decide)).1,
    hreach, by decide,
    ((startCapture_empty_list SetupReading.failureOnReturn okDriver stoppedSession "dev"
      (by decide)).2.2.2.1 rfl).2.2.2 capturingSession hreach (by decide)⟩

/-- C7 (counterexample): `startCapture` with an empty list is not free of side effects,
however the test `!setupBuffers()` is read.  On a new manager it leaves the device `"dev"`
opened; on a stopped session that last captured channel 0 it closes and reopens the
device (four driver calls) and overwrites the active channel list and the channel
count. -/
theorem startCapture_empty_has_side_effects :
    ASIOManager.new.m_asio = false
      ∧ ASIOManager.new.getCurrentDevice = ""
      ∧ stoppedSession.isCapturing = false
      ∧ stoppedSession.m_activeChannels = [0]
      ∧ stoppedSession.m_numChannels = 1
      ∧ (ASIOManager.new.startCaptureWith SetupReading.failureOnReturn okDriver "dev"
            []).1.m_asio = true
      ∧ (ASIOManager.new.startCaptureWith SetupReading.failureOnReturn okDriver "dev"
            []).1.getCurrentDevice = "dev"
      ∧ (stoppedSession.startCaptureWith SetupReading.failureOnReturn okDriver "dev"
            []).1.m_activeChannels = []
      ∧ (stoppedSession.startCaptureWith SetupReading.failureOnReturn okDriver "dev"
            []).1.m_numChannels = 0
      ∧ (stoppedSession.startCaptureWith SetupReading.failureOnReturn okDriver "dev"
            []).1.driverCalls
          = stoppedSession.driverCalls
              ++ [DriverCall.disposeBuffers, DriverCall.exit, DriverCall.asioInit,
                  DriverCall.init]
      ∧ (ASIOManager.new.startCaptureWith SetupReading.successOnGuard okDriver "dev"
            []).1.m_asio = true
      ∧ (ASIOManager.new.startCaptureWith SetupReading.successOnGuard okDriver "dev"
            []).1.getCurrentDevice = "dev"
      ∧ (stoppedSession.startCaptureWith SetupReading.successOnGuard okDriver "dev"
            []).1.m_activeChannels = []
      ∧ (stoppedSession.startCaptureWith SetupReading.successOnGuard okDriver "dev"
            []).1.m_numChannels = 0
      ∧ (stoppedSession.startCaptureWith SetupReading.successOnGuard okDriver "dev"
            []).1.driverCalls
          = stoppedSession.driverCalls
              ++ [DriverCall.disposeBuffers, DriverCall.exit, DriverCall.asioInit,
                  DriverCall.init, DriverCall.start] := by
  decide

/-- C8 (code at the failing input): the driver creates the buffers for channel 0 and
then fails `start`.  `startCapture` returns `false` with `isCapturing` false, but
`m_bufferInfos` and `m_channelInfos` are still allocated and no `disposeBuffers` call
follows `createBuffers`: nothing is rolled back. -/
theorem startCapture_start_failure_keeps_buffers :
    (ASIOManager.new.startCapture startFailingDriver "dev" [0]).2 = false
      ∧ (ASIOManager.new.startCapture startFailingDriver "dev" [0]).1.isCapturing = false
      ∧ (ASIOManager.new.startCapture startFailingDriver "dev" [0]).1.m_bufferInfos.isSome = true
      ∧ (ASIOManager.new.startCapture startFailingDriver "dev" [0]).1.m_channelInfos.isSome = true
      ∧ (ASIOManager.new.startCapture startFailingDriver "dev" [0]).1.driverCalls
          = [DriverCall.asioInit, DriverCall.init, DriverCall.createBuffers 1 4,
              DriverCall.start] := by
  decide

theorem channelChunk_ne_none (m : ASIOManager) (idx : Fin 2) (t : ℚ)
    (bufferInfos : List ASIOBufferInfo) (channelInfos : List ASIOChannelInfo)
    (hb : m.m_bufferInfos = some bufferInfos) (hc : m.m_channelInfos = some channelInfos)
    (hbl : bufferInfos.length = m.m_numChannels) (hcl : channelInfos.length = m.m_numChannels)
    (hal : m.m_activeChannels.length = m.m_numChannels) (hsize : 0 ≤ m.m_bufferSize)
    (k : Nat) (hk : k < m.m_numChannels) :
    m.channelChunk idx t k ≠ none := by
  have hnot : ¬ m.m_bufferSize < 0 := not_lt.mpr hsize
  obtain ⟨info, hinfo⟩ : ∃ info, bufferInfos[k]? = some info :=
    ⟨bufferInfos[k], List.getElem?_eq_getElem (by omega)⟩
  obtain ⟨cinfo, hcinfo⟩ : ∃ cinfo, channelInfos[k]? = some cinfo :=
    ⟨channelInfos[k], List.getElem?_eq_getElem (by omega)⟩
  obtain ⟨ch, hch⟩ : ∃ ch, m.m_activeChannels[k]? = some ch :=
    ⟨m.m_activeChannels[k], List.getElem?_eq_getElem (by omega)⟩
  unfold ASIOManager.channelChunk
  simp only [hb, hc, hinfo, hcinfo, hch, if_neg hnot]
  cases info.buffers idx <;> simp

/-- C9 (amended): in a capturing session whose arrays cover the active channels and whose
buffer size is not negative, a buffer-ready event pushes the chunks of all channels with a
non-null buffer, in channel order; for a channel whose sample type is none of Int16LSB,
Float32LSB, Int24LSB the chunk is pushed as well, with an EMPTY sample sequence (it is not
dropped). -/
theorem processAudioData_unsupported_type (m : ASIOManager) (idx : Fin 2) (t : ℚ)
    (bufferInfos : List ASIOBufferInfo) (channelInfos : List ASIOChannelInfo)
    (hcap : m.m_isCapturing = true) (hasio : m.m_asio = true)
    (hb : m.m_bufferInfos = some bufferInfos) (hc : m.m_channelInfos = some channelInfos)
    (hbl : bufferInfos.length = m.m_numChannels) (hcl : channelInfos.length = m.m_numChannels)
    (hal : m.m_activeChannels.length = m.m_numChannels)
    (hsize : 0 ≤ m.m_bufferSize)
    (i : Nat) (info : ASIOBufferInfo) (cinfo : ASIOChannelInfo) (channelId : Int)
    (buffer : RawBuffer)
    (hinfo : bufferInfos[i]? = some info) (hcinfo : channelInfos[i]? = some cinfo)
    (hid : m.m_activeChannels[i]? = some channelId)
    (hbuf : info.buffers idx = some buffer)
    (htype : cinfo.type ≠ ASIOSampleType.ASIOSTInt16LSB
      ∧ cinfo.type ≠ ASIOSampleType.ASIOSTFloat32LSB
      ∧ cinfo.type ≠ ASIOSampleType.ASIOSTInt24LSB) :
    ∃ m' : ASIOManager,
      m.processAudioData idx t = some m'
      ∧ m'.m_audioQueue
          = m.m_audioQueue
              ++ (List.range m.m_numChannels).filterMap
                  (fun k => (m.channelChunk idx t k).join)
      ∧ m.channelChunk idx t i
          = some (some { channelId := channelId, samples := [], timestamp := t,
                         sampleRate := m.m_sampleRate })
      ∧ ({ channelId := channelId, samples := [], timestamp := t,
           sampleRate := m.m_sampleRate } : AudioChunk) ∈ m'.m_audioQueue := by
  have hchunk : m.channelChunk idx t i
      = some (some { channelId := channelId, samples := [], timestamp := t,
                     sampleRate := m.m_sampleRate }) := by
    unfold ASIOManager.channelChunk
    simp only [hb, hc, hinfo, hcinfo, hid, hbuf, if_neg (not_lt.mpr hsize)]
    simp [ASIOManager.convertSamples, htype.1, htype.2.1, htype.2.2]
  have hi : i < m.m_numChannels := by
    rw [← hbl]
    exact (List.getElem?_eq_some_iff.mp hinfo).1
  have hrun : m.processAudioData idx t
      = some { m with m_audioQueue := m.m_audioQueue
          ++ (List.range m.m_numChannels).filterMap fun k => (m.channelChunk idx t k).join } := by
    have hcond : (!m.m_isCapturing || !m.m_asio) = false := by simp [hcap, hasio]
    unfold ASIOManager.processAudioData
    rw [hcond, if_neg (by decide)]
    exact ASIOManager.processChannels_eq idx t _ m (fun k hk =>
      channelChunk_ne_none m idx t bufferInfos channelInfos hb hc hbl hcl hal hsize k
        (List.mem_range.mp hk))
  refine ⟨_, hrun, rfl, hchunk, ?_⟩
  apply List.mem_append_right
  rw [List.mem_filterMap]
  exact ⟨i, List.mem_range.mpr hi, by rw [hchunk]; rfl⟩

theorem processAudioData_unsupported_type_witness :
    int32Session.m_isCapturing = true ∧ int32Session.m_asio = true
      ∧ int32Session.m_activeChannels[1]? = some 1
      ∧ 0 ≤ int32Session.m_bufferSize
      ∧ ∃ m' : ASIOManager,
          int32Session.processAudioData 0 7 = some m'
          ∧ m'.m_audioQueue
              = int32Session.m_audioQueue
                  ++ (List.range int32Session.m_numChannels).filterMap
                      (fun k => (int32Session.channelChunk 0 7 k).join)
          ∧ int32Session.channelChunk 0 7 1
              = some (some { channelId := 1, samples := [], timestamp := 7,
                             sampleRate := int32Session.m_sampleRate })
          ∧ ({ channelId := 1, samples := [], timestamp := 7,
               sampleRate := int32Session.m_sampleRate } : AudioChunk) ∈ m'.m_audioQueue :=
  ⟨rfl, rfl, rfl, by decide,
    processAudioData_unsupported_type int32Session 0 7
      [{ isInput := true, channelNum := 0, buffers := fun _ => some zeroBuffer },
       { isInput := true, channelNum := 1, buffers := fun _ => some zeroBuffer }]
      [{ channel := 0, isInput := true, type := ASIOSampleType.other 18 },
       { channel := 1, isInput := true, type := ASIOSampleType.other 18 }]
      rfl rfl rfl rfl rfl rfl rfl (by decide) 1
      { isInput := true, channelNum := 1, buffers := fun _ => some zeroBuffer }
      { channel := 1, isInput := true, type := ASIOSampleType.other 18 }
      1 zeroBuffer rfl rfl rfl rfl ⟨by decide, by decide, by decide⟩⟩

/-- C9 (counterexample): both channels of the session report a sample type outside the
three handled ones; one buffer-ready event still pushes a chunk for each of them, with
no samples. -/
theorem processAudioData_unsupported_not_dropped :
    int32Session.m_activeChannels = [0, 1]
      ∧ int32Session.m_audioQueue = []
      ∧ (int32Session.processAudioData 0 7).map (fun m => m.m_audioQueue)
          = some [{ channelId := 0, samples := [], timestamp := 7, sampleRate := 48000 },
                  { channelId := 1, samples := [], timestamp := 7, sampleRate := 48000 }] := by
  decide

/-! ### Chunk production and hand-off -/

theorem filterMap_of_isSome {A B : Type} (f : A → Option B) (l : List A)
    (h : ∀ a ∈ l, (f a).isSome = true) :
    (l.filterMap f).length = l.length ∧ ∀ i : Nat, (l.filterMap f)[i]? = l[i]?.bind f := by
  induction l with
  | nil => simp
  | cons a rest ih =>
    have ha := h a (List.mem_cons_self a rest)
    have hrest := ih fun b hb => h b (List.mem_cons_of_mem a hb)
    obtain ⟨b, hb⟩ := Option.isSome_iff_exists.mp ha
    rw [List.filterMap_cons_some hb]
    refine ⟨by simp [hrest.1], ?_⟩
    intro i
    cases i with
    | zero => simp [hb]
    | succ j => simpa using hrest.2 j

theorem convertSamples_length (type : ASIOSampleType) (buffer : RawBuffer) (bufferSize : Int)
    (hsize : 0 ≤ bufferSize)
    (htype : type = ASIOSampleType.ASIOSTInt16LSB ∨ type = ASIOSampleType.ASIOSTFloat32LSB
      ∨ type = ASIOSampleType.ASIOSTInt24LSB) :
    ((ASIOManager.convertSamples type buffer bufferSize).length : Int) = bufferSize := by
  rcases htype with h | h | h <;> subst h <;>
    simp [ASIOManager.convertSamples, samplesInt24, Int.toNat_of_nonneg hsize]

/-- C17: in a capturing session whose arrays cover the active channels `a_0..a_{n-1}`,
all with a non-null buffer for the given slot and a supported sample type, one call of
`processAudioData` appends exactly `n` chunks to the hand-off queue, in channel order; the
`i`-th has `channelId = a_i`, exactly `bufferSize` samples, the session's sample rate and
the timestamp of the call. -/
theorem processAudioData_appends_one_chunk_per_channel (m : ASIOManager) (idx : Fin 2) (t : ℚ)
    (bufferInfos : List ASIOBufferInfo) (channelInfos : List ASIOChannelInfo)
    (hcap : m.m_isCapturing = true) (hasio : m.m_asio = true)
    (hb : m.m_bufferInfos = some bufferInfos) (hc : m.m_channelInfos = some channelInfos)
    (hbl : bufferInfos.length = m.m_numChannels) (hcl : channelInfos.length = m.m_numChannels)
    (hal : m.m_activeChannels.length = m.m_numChannels)
    (hsize : 0 ≤ m.m_bufferSize)
    (hnonnull : ∀ info ∈ bufferInfos, info.buffers idx ≠ none)
    (hsupported : ∀ cinfo ∈ channelInfos,
      cinfo.type = ASIOSampleType.ASIOSTInt16LSB ∨ cinfo.type = ASIOSampleType.ASIOSTFloat32LSB
        ∨ cinfo.type = ASIOSampleType.ASIOSTInt24LSB) :
    ∃ (m' : ASIOManager) (chunks : List AudioChunk),
      m.processAudioData idx t = some m'
      ∧ m'.m_audioQueue = m.m_audioQueue ++ chunks
      ∧ chunks.length = m.m_activeChannels.length
      ∧ ∀ (i : Nat) (a : Int), m.m_activeChannels[i]? = some a →
          ∃ chunk : AudioChunk, chunks[i]? = some chunk
            ∧ chunk.channelId = a
            ∧ (chunk.samples.length : Int) = m.m_bufferSize
            ∧ chunk.sampleRate = m.m_sampleRate
            ∧ chunk.timestamp = t := by
  have hchunk : ∀ k, k < m.m_numChannels → ∀ a, m.m_activeChannels[k]? = some a →
      ∃ chunk : AudioChunk, m.channelChunk idx t k = some (some chunk)
        ∧ chunk.channelId = a ∧ (chunk.samples.length : Int) = m.m_bufferSize
        ∧ chunk.sampleRate = m.m_sampleRate ∧ chunk.timestamp = t := by
    intro k hk a ha
    have hkb : k < bufferInfos.length := by omega
    have hkc : k < channelInfos.length := by omega
    have hinfo : bufferInfos[k]? = some bufferInfos[k] := List.getElem?_eq_getElem hkb
    have hcinfo : channelInfos[k]? = some channelInfos[k] := List.getElem?_eq_getElem hkc
    obtain ⟨buffer, hbuf⟩ := Option.ne_none_iff_exists'.mp
      (hnonnull _ (List.getElem_mem hkb))
    refine ⟨{ channelId := a
              samples := ASIOManager.convertSamples channelInfos[k].type buffer m.m_bufferSize
              timestamp := t
              sampleRate := m.m_sampleRate }, ?_, rfl, ?_, rfl, rfl⟩
    · unfold ASIOManager.channelChunk
      simp only [hb, hc, hinfo, hcinfo, ha, hbuf, if_neg (not_lt.mpr hsize)]
    · exact convertSamples_length _ _ _ hsize (hsupported _ (List.getElem_mem hkc))
  have hsome : ∀ k ∈ List.range m.m_numChannels,
      ((m.channelChunk idx t k).join).isSome = true := by
    intro k hk
    have hk' := List.mem_range.mp hk
    have hka : k < m.m_activeChannels.length := by omega
    obtain ⟨chunk, hch, _⟩ := hchunk k hk' _ (List.getElem?_eq_getElem hka)
    rw [hch]
    rfl
  have hfm := filterMap_of_isSome (fun k => (m.channelChunk idx t k).join)
    (List.range m.m_numChannels) hsome
  have hcond : (!m.m_isCapturing || !m.m_asio) = false := by simp [hcap, hasio]
  have hrun : m.processAudioData idx t
      = some { m with m_audioQueue := m.m_audioQueue
          ++ (List.range m.m_numChannels).filterMap fun k => (m.channelChunk idx t k).join } := by
    unfold ASIOManager.processAudioData
    rw [hcond, if_neg (by decide)]
    exact ASIOManager.processChannels_eq idx t _ m (fun k hk =>
      channelChunk_ne_none m idx t bufferInfos channelInfos hb hc hbl hcl hal hsize k
        (List.mem_range.mp hk))
  refine ⟨_, _, hrun, rfl, ?_, ?_⟩
  · rw [hfm.1, List.length_range, hal]
  · intro i a ha
    have hi : i < m.m_numChannels := by
      rw [← hal]
      exact (List.getElem?_eq_some_iff.mp ha).1
    obtain ⟨chunk, hch, hprops⟩ := hchunk i hi a ha
    refine ⟨chunk, ?_, hprops⟩
    rw [hfm.2 i, List.getElem?_range hi]
    simp [hch]

theorem processAudioData_appends_one_chunk_per_channel_witness :
    stereoSession.m_isCapturing = true ∧ stereoSession.m_asio = true
      ∧ stereoSession.m_activeChannels = [0, 1]
      ∧ stereoSession.m_bufferSize = 4
      ∧ ∃ (m' : ASIOManager) (chunks : List AudioChunk),
          stereoSession.processAudioData 1 9 = some m'
          ∧ m'.m_audioQueue = stereoSession.m_audioQueue ++ chunks
          ∧ chunks.length = stereoSession.m_activeChannels.length
          ∧ ∀ (i : Nat) (a : Int), stereoSession.m_activeChannels[i]? = some a →
              ∃ chunk : AudioChunk, chunks[i]? = some chunk
                ∧ chunk.channelId = a
                ∧ (chunk.samples.length : Int) = stereoSession.m_bufferSize
                ∧ chunk.sampleRate = stereoSession.m_sampleRate
                ∧ chunk.timestamp = 9 :=
  ⟨rfl, rfl, rfl, rfl,
    processAudioData_appends_one_chunk_per_channel stereoSession 1 9
      [{ isInput := true, channelNum := 0, buffers := fun _ => some zeroBuffer },
       { isInput := true, channelNum := 1, buffers := fun _ => some zeroBuffer }]
      [{ channel := 0, isInput := true, type := ASIOSampleType.ASIOSTInt16LSB },
       { channel := 1, isInput := true, type := ASIOSampleType.ASIOSTInt16LSB }]
      rfl rfl rfl rfl rfl rfl rfl (by decide)
      (by
        intro info hinfo
        simp only [List.mem_cons, List.mem_singleton, List.not_mem_nil, or_false] at hinfo
        rcases hinfo with rfl | rfl <;> simp)
      (by
        intro cinfo hcinfo
        simp only [List.mem_cons, List.mem_singleton, List.not_mem_nil, or_false] at hcinfo
        rcases hcinfo with rfl | rfl <;> simp)⟩

namespace ASIOManager

theorem dispatchOne_hasAudioCallback (m : ASIOManager) :
    m.dispatchOne.hasAudioCallback = m.hasAudioCallback := by
  unfold dispatchOne
  cases hq : m.m_audioQueue with
  | nil => rfl
  | cons chunk rest => cases hcb : m.hasAudioCallback <;> simp [hcb]

theorem dispatchOne_stream (m : ASIOManager) (hcb : m.hasAudioCallback = true) :
    m.dispatchOne.forwarded ++ m.dispatchOne.m_audioQueue = m.forwarded ++ m.m_audioQueue := by
  unfold dispatchOne
  cases hq : m.m_audioQueue with
  | nil => simp [hq]
  | cons chunk rest => simp [hcb]

theorem runHandOff_stream (events : List ASIOManager.HandOffEvent) :
    ∀ m : ASIOManager, m.hasAudioCallback = true →
      (runHandOff m events).hasAudioCallback = true
        ∧ (runHandOff m events).forwarded ++ (runHandOff m events).m_audioQueue
            = m.forwarded ++ m.m_audioQueue ++ pushedChunks events := by
  induction events with
  | nil => intro m hcb; simp [runHandOff, pushedChunks, hcb]
  | cons e rest ih =>
    intro m hcb
    cases e with
    | push chunk =>
      have h := ih (m.pushChunk chunk) hcb
      simp only [runHandOff, pushedChunks]
      refine ⟨h.1, ?_⟩
      rw [h.2]
      simp [pushChunk]
    | dispatch =>
      have hcb2 : m.dispatchOne.hasAudioCallback = true := by
        rw [dispatchOne_hasAudioCallback]; exact hcb
      have h := ih m.dispatchOne hcb2
      simp only [runHandOff, pushedChunks]
      refine ⟨h.1, ?_⟩
      rw [h.2, dispatchOne_stream m hcb]

end ASIOManager

/-- C18: with an audio callback registered, the dispatch loop passes every chunk pushed
onto the hand-off queue to the callback exactly once, in push order, and leaves the queue
empty: one drain forwards the queued chunks in order, and after any interleaving of pushes
and dispatch iterations followed by a drain, the forwarded sequence is the earlier one
followed by the queued and the pushed chunks; one dispatch iteration forwards the front
chunk only. -/
theorem captureThread_forwards_in_order (m : ASIOManager) (hcb : m.hasAudioCallback = true)
    (events : List ASIOManager.HandOffEvent) :
    m.captureThreadDrain.forwarded = m.forwarded ++ m.m_audioQueue
      ∧ m.captureThreadDrain.m_audioQueue = []
      ∧ (ASIOManager.runHandOff m events).captureThreadDrain.forwarded
          = m.forwarded ++ m.m_audioQueue ++ ASIOManager.pushedChunks events
      ∧ (ASIOManager.runHandOff m events).captureThreadDrain.m_audioQueue = []
      ∧ (∀ chunk rest, m.m_audioQueue = chunk :: rest →
          m.dispatchOne.forwarded = m.forwarded ++ [chunk] ∧ m.dispatchOne.m_audioQueue = rest) := by
  have hrun := ASIOManager.runHandOff_stream events m hcb
  refine ⟨?_, ?_, ?_, ?_, ?_⟩
  · rw [ASIOManager.captureThreadDrain_eq]; simp [hcb]
  · rw [ASIOManager.captureThreadDrain_eq]
  · rw [ASIOManager.captureThreadDrain_eq]
    simp only [hrun.1, if_true]
    exact hrun.2
  · rw [ASIOManager.captureThreadDrain_eq]
  · intro chunk rest hq
    unfold ASIOManager.dispatchOne
    simp [hq, hcb]

theorem captureThread_forwards_in_order_witness :
    stereoSession.setAudioCallback.hasAudioCallback = true
      ∧ (ASIOManager.runHandOff stereoSession.setAudioCallback
            exampleHandOff).captureThreadDrain.forwarded
          = stereoSession.setAudioCallback.forwarded
              ++ stereoSession.setAudioCallback.m_audioQueue
              ++ ASIOManager.pushedChunks exampleHandOff
      ∧ (ASIOManager.runHandOff stereoSession.setAudioCallback
            exampleHandOff).captureThreadDrain.m_audioQueue = [] :=
  ⟨rfl,
    (captureThread_forwards_in_order stereoSession.setAudioCallback rfl
      exampleHandOff).2.2.1,
    (captureThread_forwards_in_order stereoSession.setAudioCallback rfl
      exampleHandOff).2.2.2.1⟩

/-! ### Forwarding to subscribers, callbacks after a stop -/

namespace ASIOManager

theorem startCapture_failed_not_capturing (drv : Driver) (m : ASIOManager) (deviceName : String)
    (channelIds : List Int) (hfail : (m.startCapture drv deviceName channelIds).2 = false) :
    (m.startCapture drv deviceName channelIds).1.m_isCapturing = false := by
  revert hfail
  unfold startCapture setupBuffers openDevice stopCapture closeDevice cleanupBuffers call
  cases h1 : m.m_isCapturing <;> cases h2 : m.m_asio <;> cases h3 : m.threadJoinable <;>
    cases h4 : drv.asioInitOk <;> cases h5 : drv.initOk <;> cases h6 : drv.startOk <;>
    cases h7 : drv.createBuffers <;> cases channelIds <;>
    simp [h1, h2, h3, h4, h5, h6, h7]

theorem stoppedSince_not_capturing (m : ASIOManager) (hs : m.StoppedSince) :
    m.m_isCapturing = false := by
  induction hs with
  | stopCapture m => exact stopCapture_not_capturing m
  | getChannels drv dev _ ih =>
    unfold getChannels
    rw [(openDevice_capturing drv _ dev).1]
    exact ih
  | failedStart drv dev chans _ hfail _ => exact startCapture_failed_not_capturing drv _ dev chans hfail
  | setAudioCallback _ ih => exact ih
  | sampleRateDidChange _ _ ih => exact ih
  | processAudioData idx t _ hstep ih =>
    rw [(processAudioData_fields idx t _ _ hstep).1]
    exact ih
  | captureThreadDrain _ ih => rw [captureThreadDrain_eq]; exact ih

end ASIOManager

/-- C20: in every state reached after `stopCapture` has returned and before the next
successful `startCapture`, a buffer-ready callback for either double-buffer index pushes
no chunk: `processAudioData` returns at once and leaves the session, in particular the
hand-off queue, unchanged. -/
theorem processAudioData_after_stop (m : ASIOManager) (hs : m.StoppedSince)
    (idx : Fin 2) (t : ℚ) :
    m.isCapturing = false
      ∧ m.processAudioData idx t = some m
      ∧ ∀ m' : ASIOManager, m.processAudioData idx t = some m' →
          m'.m_audioQueue = m.m_audioQueue := by
  have hcap := ASIOManager.stoppedSince_not_capturing m hs
  have hrun : m.processAudioData idx t = some m := by
    unfold ASIOManager.processAudioData
    simp [hcap]
  refine ⟨hcap, hrun, ?_⟩
  intro m' hm'
  rw [hrun] at hm'
  cases hm'
  rfl

theorem processAudioData_after_stop_witness :
    stoppedSession.StoppedSince
      ∧ (stoppedSession.startCapture startFailingDriver "dev" [0]).1.StoppedSince
      ∧ (stoppedSession.startCapture startFailingDriver "dev" [0]).1.m_bufferInfos.isSome = true
      ∧ (stoppedSession.startCapture startFailingDriver "dev" [0]).1.processAudioData 0 3
          = some (stoppedSession.startCapture startFailingDriver "dev" [0]).1
      ∧ stoppedSession.processAudioData 1 3 = some stoppedSession :=
  have h1 : stoppedSession.StoppedSince := ASIOManager.StoppedSince.stopCapture capturingSession
  have h2 : (stoppedSession.startCapture startFailingDriver "dev" [0]).1.StoppedSince :=
    ASIOManager.StoppedSince.failedStart startFailingDriver "dev" [0] h1 (by decide)
  ⟨h1, h2, by decide, (processAudioData_after_stop _ h2 0 3).2.1,
    (processAudioData_after_stop _ h1 1 3).2.1⟩

/-! ## Theorems: idempotence, identities, bounds -/

/-- C21: `stopCapture` on a session that is not capturing changes no field of the session
(so it makes no driver call), and for every state `stopCapture` followed by `stopCapture`
leaves the same state as a single `stopCapture`. -/
theorem stopCapture_idempotent (m : ASIOManager) :
    (m.isCapturing = false → m.stopCapture = m ∧ m.stopCapture.driverCalls = m.driverCalls)
      ∧ m.stopCapture.stopCapture = m.stopCapture := by
  have hidle : ∀ n : ASIOManager, n.m_isCapturing = false → n.stopCapture = n := by
    intro n hn
    unfold ASIOManager.stopCapture
    simp [hn]
  refine ⟨?_, hidle _ (ASIOManager.stopCapture_not_capturing m)⟩
  intro h
  have h2 := hidle m h
  exact ⟨h2, by rw [h2]⟩

theorem stopCapture_idempotent_witness :
    stoppedSession.isCapturing = false
      ∧ stoppedSession.stopCapture.driverCalls = stoppedSession.driverCalls
      ∧ capturingSession.isCapturing = true
      ∧ capturingSession.stopCapture.stopCapture.driverCalls
          = capturingSession.stopCapture.driverCalls :=
  ⟨by decide, ((stopCapture_idempotent stoppedSession).1 (by decide)).2, by decide,
    congrArg ASIOManager.driverCalls (stopCapture_idempotent capturingSession).2⟩

/-- C22: for every input sequence `x` and every rate `r`, zero included,
`resample(x, r, r)` returns `x` unchanged. -/
theorem resample_same_rate (x : List ℚ) (r : Int) :
    resample x r r = x ∧ resample x 0 0 = x := by
  constructor <;> simp [resample]

/-- C23: on the empty sequence `calculateRMS` returns 0, `calculatePeak` returns 0 and
`isValidAudioData` returns false. -/
theorem empty_sequence_levels {F : Type} [LinearOrderedField F] (sqrt : F → F)
    (isnan isinf : F → Bool) :
    calculateRMS sqrt ([] : List F) = 0
      ∧ calculatePeak ([] : List F) = 0
      ∧ isValidAudioData isnan isinf ([] : List F) = false := by
  refine ⟨?_, ?_, ?_⟩ <;> simp [calculateRMS, calculatePeak, isValidAudioData]

theorem wrapSizeT_add (i n : Nat) (h : i + n < 2 ^ 64) :
    wrapSizeT ((i : Int) + (n : Int)) = i + n := by
  unfold wrapSizeT
  omega

theorem chunk_take_eq {F : Type} (a : List F) (i n : Nat) :
    (a.drop i).take (min (i + n) a.length - i) = (a.drop i).take n := by
  by_cases h : i + n ≤ a.length
  · rw [min_eq_left h]
    congr 1
    omega
  · have hlen : (a.drop i).length ≤ n := by
      rw [List.length_drop]; omega
    have hlen2 : (a.drop i).length ≤ min (i + n) a.length - i := by
      rw [List.length_drop, min_eq_right (by omega)]
    rw [List.take_of_length_le hlen, List.take_of_length_le hlen2]

theorem ceilDiv_step (len i n : Nat) (hn : 0 < n) (hi : i < len) :
    (len - i + n - 1) / n = (len - (i + n) + n - 1) / n + 1 := by
  by_cases h : i + n ≤ len
  · have e : len - i + n - 1 = (len - (i + n) + n - 1) + n := by omega
    rw [e, Nat.add_div_right _ hn]
  · have e0 : len - (i + n) = 0 := by omega
    have e1 : (len - (i + n) + n - 1) / n = 0 := by
      rw [e0]
      exact Nat.div_eq_of_lt (by omega)
    rw [e1]
    apply Nat.div_eq_of_lt_le <;> omega

theorem chunkAudioLoop_eq {F : Type} (a : List F) (n : Nat) (hn : 0 < n)
    (hwrap : a.length + n ≤ 2 ^ 64) (fuel : Nat) :
    ∀ (i : Nat) (acc : List (List F)), a.length - i ≤ fuel →
      chunkAudioLoop a (n : Int) fuel i acc
        = some (acc ++ (List.range ((a.length - i + n - 1) / n)).map
            fun j => (a.drop (i + j * n)).take n) := by
  induction fuel with
  | zero =>
    intro i acc hfuel
    have hge : ¬ i < a.length := by omega
    have hz : (a.length - i + n - 1) / n = 0 := Nat.div_eq_of_lt (by omega)
    simp [chunkAudioLoop, hge, hz]
  | succ fuel ih =>
    intro i acc hfuel
    unfold chunkAudioLoop
    by_cases hi : i < a.length
    · rw [if_pos hi]
      simp only []
      rw [wrapSizeT_add i n (by omega), chunk_take_eq, ih (i + n) _ (by omega),
        ceilDiv_step a.length i n hn hi, List.range_succ_eq_map]
      simp only [List.map_cons, List.map_map, Nat.zero_mul, Nat.add_zero, List.append_assoc,
        List.singleton_append]
      congr 3
      apply List.map_congr_left
      intro j _
      simp only [Function.comp_apply, Nat.succ_eq_add_one]
      congr 2
      ring
    · have hz : (a.length - i + n - 1) / n = 0 := Nat.div_eq_of_lt (by omega)
      simp [hi, hz]

theorem chunks_join {F : Type} (a : List F) (n K : Nat) :
    ((List.range K).map fun j => (a.drop (j * n)).take n).flatten = a.take (K * n) := by
  induction K with
  | zero => simp
  | succ K ih =>
    rw [List.range_succ, List.map_append, List.flatten_append, ih, Nat.succ_mul, List.take_add]
    simp
theorem ceilDiv_bounds (len n : Nat) (hn : 0 < n) :
    len ≤ (len + n - 1) / n * n ∧ (len + n - 1) / n * n < len + n := by
  have h1 : (len + n - 1) / n * n ≤ len + n - 1 := Nat.div_mul_le_self _ _
  have h2 : len + n - 1 < n * ((len + n - 1) / n + 1) := Nat.lt_mul_div_succ _ hn
  have h3 : n * ((len + n - 1) / n + 1) = (len + n - 1) / n * n + n := by ring
  omega

theorem ceilDiv_pred (len n : Nat) (hn : 0 < n) (hK : 0 < (len + n - 1) / n) :
    ((len + n - 1) / n - 1) * n < len := by
  obtain ⟨_, h1⟩ := ceilDiv_bounds len n hn
  have h2 : n ≤ (len + n - 1) / n * n := Nat.le_mul_of_pos_left n hK
  have h3 : ((len + n - 1) / n - 1) * n = (len + n - 1) / n * n - n := by
    rw [Nat.sub_mul, Nat.one_mul]
  omega

/-- C26: for every sample sequence `a` and every `chunkSize > 0`, `chunkAudio` terminates
(any fuel of at least `len(a)` iterations gives the same result) and returns chunks whose
concatenation in order is `a`; there are `ceil(len(a) / chunkSize)` chunks, every chunk
but the last has exactly `chunkSize` elements, the last has between 1 and `chunkSize`,
and the empty sequence yields no chunks. -/
theorem chunkAudio_partitions {F : Type} (a : List F) (chunkSize : Int) (hpos : 0 < chunkSize)
    (hwrap : (a.length : Int) + chunkSize ≤ 2 ^ 64) :
    ∃ chunks : List (List F),
      (∀ fuel : Nat, a.length ≤ fuel → chunkAudio a chunkSize fuel = some chunks)
      ∧ chunks.flatten = a
      ∧ chunks.length = Nat.ceil ((a.length : ℚ) / (chunkSize : ℚ))
      ∧ (∀ (j : Nat) (c : List F), j + 1 < chunks.length → chunks[j]? = some c →
          (c.length : Int) = chunkSize)
      ∧ (∀ c : List F, chunks.getLast? = some c →
          1 ≤ c.length ∧ (c.length : Int) ≤ chunkSize)
      ∧ (a = [] → chunks = []) := by
  obtain ⟨n, rfl⟩ := Int.eq_ofNat_of_zero_le hpos.le
  have hn : 0 < n := by exact_mod_cast hpos
  have hw : a.length + n ≤ 2 ^ 64 := by exact_mod_cast hwrap
  obtain ⟨hK2, hK1⟩ := ceilDiv_bounds a.length n hn
  have hchunk : ∀ j : Nat, j < (a.length + n - 1) / n →
      ((List.range ((a.length + n - 1) / n)).map fun j => (a.drop (j * n)).take n)[j]?
        = some ((a.drop (j * n)).take n) := by
    intro j hj
    rw [List.getElem?_map, List.getElem?_range hj]
    rfl
  refine ⟨(List.range ((a.length + n - 1) / n)).map fun j => (a.drop (j * n)).take n,
    ?_, ?_, ?_, ?_, ?_, ?_⟩
  · intro fuel hfuel
    unfold chunkAudio
    rw [chunkAudioLoop_eq a n hn hw fuel 0 [] (by omega)]
    simp
  · rw [chunks_join, List.take_of_length_le hK2]
  · rw [List.length_map, List.length_range]
    rcases Nat.eq_zero_or_pos ((a.length + n - 1) / n) with h0 | hKpos
    · rw [h0] at hK2 ⊢
      have hlen : a.length = 0 := by omega
      simp [hlen]
    · symm
      rw [Nat.ceil_eq_iff (by omega)]
      have hnq : (0 : ℚ) < (n : ℚ) := by exact_mod_cast hn
      have hlo := ceilDiv_pred a.length n hn hKpos
      constructor
      · rw [Int.cast_natCast, lt_div_iff₀ hnq]
        exact_mod_cast hlo
      · rw [Int.cast_natCast, div_le_iff₀ hnq]
        exact_mod_cast hK2
  · intro j c hj hc
    rw [List.length_map, List.length_range] at hj
    rw [hchunk j (by omega)] at hc
    cases hc
    have hmul : (j + 1) * n ≤ ((a.length + n - 1) / n - 1) * n :=
      Nat.mul_le_mul_right n (by omega)
    have e1 : (j + 1) * n = j * n + n := by ring
    have hlo := ceilDiv_pred a.length n hn (by omega)
    rw [List.length_take, List.length_drop]
    have : min n (a.length - j * n) = n := by omega
    exact_mod_cast this
  · intro c hc
    rw [List.getLast?_eq_getElem?, List.length_map, List.length_range] at hc
    rcases Nat.eq_zero_or_pos ((a.length + n - 1) / n) with h0 | hKpos
    · rw [h0] at hc
      simp at hc
    · rw [hchunk _ (by omega)] at hc
      cases hc
      have hlo := ceilDiv_pred a.length n hn hKpos
      rw [List.length_take, List.length_drop]
      constructor
      · omega
      · have : min n (a.length - ((a.length + n - 1) / n - 1) * n) ≤ n := min_le_left _ _
        exact_mod_cast this
  · intro ha
    subst ha
    have hz : (n - 1) / n = 0 := Nat.div_eq_of_lt (by omega)
    simp [hz]

theorem chunkAudio_partitions_witness :
    (0 : Int) < 2 ∧ ((([1, 2, 3, 4, 5] : List ℚ).length : Nat) : Int) + 2 ≤ 2 ^ 64
      ∧ chunkAudio ([1, 2, 3, 4, 5] : List ℚ) 2 5 = some [[1, 2], [3, 4], [5]]
      ∧ ∃ chunks : List (List ℚ),
          (∀ fuel : Nat, ([1, 2, 3, 4, 5] : List ℚ).length ≤ fuel →
            chunkAudio ([1, 2, 3, 4, 5] : List ℚ) 2 fuel = some chunks)
          ∧ chunks.flatten = [1, 2, 3, 4, 5]
          ∧ chunks.length = Nat.ceil (((([1, 2, 3, 4, 5] : List ℚ).length : Nat) : ℚ) / ((2 : Int) : ℚ))
          ∧ (∀ (j : Nat) (c : List ℚ), j + 1 < chunks.length → chunks[j]? = some c →
              (c.length : Int) = 2)
          ∧ (∀ c : List ℚ, chunks.getLast? = some c → 1 ≤ c.length ∧ (c.length : Int) ≤ 2)
          ∧ (([1, 2, 3, 4, 5] : List ℚ) = [] → chunks = []) :=
  ⟨by decide, by simp, by decide,
    chunkAudio_partitions ([1, 2, 3, 4, 5] : List ℚ) 2 (by decide) (by simp)⟩

/-! ## Theorems: frame encoding -/


theorem and_ff (n : Nat) : n &&& 0xFF = n % 256 := by
  have := Nat.and_pow_two_sub_one_eq_mod n 8
  simpa using this

/-- C28: for every payload of length `n` (a `size_t`, so `n < 2^64`),
`createWebSocketFrame` returns the byte `0x82`, a length field and the payload unchanged.
For `n < 126` the field is the byte `n`; for `126 ≤ n < 65536` it is `126` followed by
`n` in 2 bytes, big endian; otherwise `127` followed by `n` in 8 bytes, big endian.
Decoding the bytes recovers `n`, and the frame has `n + 2`, `n + 4` or `n + 10` bytes. -/
theorem createWebSocketFrame_layout (data : List Nat) (hsize : data.length < 2 ^ 64) :
    ∃ field : List Nat,
      SimpleWebSocket.createWebSocketFrame data = 0x82 :: (field ++ data)
      ∧ (data.length < 126 →
          field = [data.length]
            ∧ (SimpleWebSocket.createWebSocketFrame data).length = data.length + 2)
      ∧ (126 ≤ data.length → data.length < 65536 →
          (∃ hi lo : Nat, field = [126, hi, lo] ∧ hi < 256 ∧ lo < 256
              ∧ hi * 256 + lo = data.length)
            ∧ (SimpleWebSocket.createWebSocketFrame data).length = data.length + 4)
      ∧ (65536 ≤ data.length →
          (∃ bytes : List Nat, field = 127 :: bytes ∧ bytes.length = 8
              ∧ (∀ b ∈ bytes, b < 256)
              ∧ bytes.foldl (fun acc b => acc * 256 + b) 0 = data.length)
            ∧ (SimpleWebSocket.createWebSocketFrame data).length = data.length + 10) := by
  unfold SimpleWebSocket.createWebSocketFrame
  by_cases h1 : data.length < 126
  · refine ⟨[data.length], ?_, ?_, ?_, ?_⟩
    · have : data.length % 256 = data.length := Nat.mod_eq_of_lt (by omega)
      simp [h1, this]
    · intro _
      have : data.length % 256 = data.length := Nat.mod_eq_of_lt (by omega)
      simp [h1, this]
    · intro h; omega
    · intro h; omega
  · by_cases h2 : data.length < 65536
    · refine ⟨[126, (data.length >>> 8) &&& 0xFF, data.length &&& 0xFF], ?_, ?_, ?_, ?_⟩
      · simp [h1, h2]
      · intro h; omega
      · intro _ _
        refine ⟨⟨_, _, rfl, ?_, ?_, ?_⟩, by simp [h1, h2]⟩
        · rw [and_ff]; omega
        · rw [and_ff]; omega
        · rw [and_ff, and_ff, Nat.shiftRight_eq_div_pow]; omega
      · intro h; omega
    · refine ⟨127 :: ([7, 6, 5, 4, 3, 2, 1, 0].map fun (i : Nat) =>
          (data.length >>> (i * 8)) &&& 0xFF), ?_, ?_, ?_, ?_⟩
      · simp [h1, h2]
      · intro h; omega
      · intro h; omega
      · intro _
        refine ⟨⟨_, rfl, by simp, ?_, ?_⟩, by simp [h1, h2]⟩
        · intro b hb
          simp only [List.map_cons, List.map_nil, List.mem_cons, List.mem_singleton,
            List.not_mem_nil, or_false] at hb
          rcases hb with rfl | rfl | rfl | rfl | rfl | rfl | rfl | rfl <;>
            (rw [and_ff]; omega)
        · simp only [List.map_cons, List.map_nil, List.foldl_cons, List.foldl_nil, and_ff,
            Nat.shiftRight_eq_div_pow]
          omega

theorem createWebSocketFrame_layout_witness :
    ([1, 2, 3] : List Nat).length < 2 ^ 64
      ∧ SimpleWebSocket.createWebSocketFrame [1, 2, 3] = [0x82, 3, 1, 2, 3]
      ∧ ∃ field : List Nat,
          SimpleWebSocket.createWebSocketFrame [1, 2, 3] = 0x82 :: (field ++ [1, 2, 3])
          ∧ (([1, 2, 3] : List Nat).length < 126 →
              field = [([1, 2, 3] : List Nat).length]
                ∧ (SimpleWebSocket.createWebSocketFrame [1, 2, 3]).length
                    = ([1, 2, 3] : List Nat).length + 2)
          ∧ (126 ≤ ([1, 2, 3] : List Nat).length → ([1, 2, 3] : List Nat).length < 65536 →
              (∃ hi lo : Nat, field = [126, hi, lo] ∧ hi < 256 ∧ lo < 256
                  ∧ hi * 256 + lo = ([1, 2, 3] : List Nat).length)
                ∧ (SimpleWebSocket.createWebSocketFrame [1, 2, 3]).length
                    = ([1, 2, 3] : List Nat).length + 4)
          ∧ (65536 ≤ ([1, 2, 3] : List Nat).length →
              (∃ bytes : List Nat, field = 127 :: bytes ∧ bytes.length = 8
                  ∧ (∀ b ∈ bytes, b < 256)
                  ∧ bytes.foldl (fun acc b => acc * 256 + b) 0 = ([1, 2, 3] : List Nat).length)
                ∧ (SimpleWebSocket.createWebSocketFrame [1, 2, 3]).length
                    = ([1, 2, 3] : List Nat).length + 10) :=
  ⟨by decide, by decide, createWebSocketFrame_layout [1, 2, 3] (by decide)⟩

/-! ## Theorems: lock discipline -/

/-- C25 (code at the failing inputs): both call chains lock a mutex they already hold.
`startCapture` on a capturing session calls `stopCapture` inside its guard on `m_mutex`,
and `stopCapture` locks `m_mutex` again; `handleSubscribe` (and `handleUnsubscribe`, when
the channel runs empty) invokes `onSubscriptionChange` inside its guard on
`m_subscriptionsMutex`, and `getSubscriptions` locks that mutex again.  Neither chain runs
to completion. -/
theorem lock_chains_block_on_held_mutex :
    (∀ asio : ASIOManager, Locking.startCapture [] asio
        = if asio.m_isCapturing then LockOutcome.blocksOn Mutex.asio_m_mutex
          else LockOutcome.completes)
      ∧ (∀ (ws : WebSocketServerManager) (asio : ASIOManager) (h : ConnectionHandle) (c : Int),
          Locking.handleSubscribe [] ws asio h (some c)
            = if ws.hasSubscriptionCallback then
                LockOutcome.blocksOn Mutex.ws_m_subscriptionsMutex
              else LockOutcome.completes)
      ∧ capturingSession.m_isCapturing = true
      ∧ Locking.startCapture [] capturingSession = LockOutcome.blocksOn Mutex.asio_m_mutex
      ∧ Locking.handleSubscribe [] WebSocketServerManager.empty.setSubscriptionCallback
          openSession 1 (some 0) = LockOutcome.blocksOn Mutex.ws_m_subscriptionsMutex
      ∧ Locking.handleUnsubscribe [] subscribedOnce openSession 1 (some 0)
          = LockOutcome.blocksOn Mutex.ws_m_subscriptionsMutex := by
  refine ⟨?_, ?_, by decide, by decide, by decide, by decide⟩
  · intro asio
    cases h : asio.m_isCapturing <;>
      simp [Locking.startCapture, Locking.stopCapture, Locking.acquire, h]
  · intro ws asio h c
    cases hcb : ws.hasSubscriptionCallback <;>
      simp [Locking.handleSubscribe, Locking.onSubscriptionChange, Locking.getSubscriptions,
        Locking.acquire, hcb]

/-! ## Theorems: consistency of the two subscription indexes -/

theorem mem_mapModify_append {K A : Type} [LinearOrder K] (m : List (K × List A)) (k : K)
    (x : A) (k' : K) (y : A) :
    (∃ v, (k', v) ∈ mapModify m k [] (fun v => v ++ [x]) ∧ y ∈ v)
      ↔ (∃ v, (k', v) ∈ m ∧ y ∈ v) ∨ (k' = k ∧ y = x) := by
  induction m with
  | nil =>
    simp only [mapModify, List.nil_append, List.mem_singleton, Prod.mk.injEq,
      List.not_mem_nil, false_and, exists_false, false_or]
    constructor
    · rintro ⟨v, ⟨rfl, rfl⟩, hy⟩
      exact ⟨rfl, by simpa using hy⟩
    · rintro ⟨rfl, rfl⟩
      exact ⟨[y], ⟨rfl, rfl⟩, by simp⟩
  | cons p rest ih =>
    obtain ⟨k0, v0⟩ := p
    unfold mapModify
    split_ifs with h1 h2
    · simp only [List.mem_cons, Prod.mk.injEq, List.nil_append]
      constructor
      · rintro ⟨v, (⟨rfl, rfl⟩ | ⟨rfl, rfl⟩ | hv), hy⟩
        · right; exact ⟨rfl, by simpa using hy⟩
        · left; exact ⟨v, Or.inl ⟨rfl, rfl⟩, hy⟩
        · left; exact ⟨v, Or.inr hv, hy⟩
      · rintro (⟨v, (⟨rfl, rfl⟩ | hv), hy⟩ | ⟨rfl, rfl⟩)
        · exact ⟨v, Or.inr (Or.inl ⟨rfl, rfl⟩), hy⟩
        · exact ⟨v, Or.inr (Or.inr hv), hy⟩
        · exact ⟨[y], Or.inl ⟨rfl, rfl⟩, by simp⟩
    · subst h2
      simp only [List.mem_cons, Prod.mk.injEq]
      constructor
      · rintro ⟨v, (⟨rfl, rfl⟩ | hv), hy⟩
        · rcases List.mem_append.mp hy with hy | hy
          · left; exact ⟨v0, Or.inl ⟨rfl, rfl⟩, hy⟩
          · right; exact ⟨rfl, by simpa using hy⟩
        · left; exact ⟨v, Or.inr hv, hy⟩
      · rintro (⟨v, (⟨rfl, rfl⟩ | hv), hy⟩ | ⟨rfl, rfl⟩)
        · exact ⟨v ++ [x], Or.inl ⟨rfl, rfl⟩, List.mem_append_left _ hy⟩
        · exact ⟨v, Or.inr hv, hy⟩
        · exact ⟨v0 ++ [y], Or.inl ⟨rfl, rfl⟩, by simp⟩
    · simp only [List.mem_cons, Prod.mk.injEq]
      constructor
      · rintro ⟨v, (⟨rfl, rfl⟩ | hv), hy⟩
        · left; exact ⟨v, Or.inl ⟨rfl, rfl⟩, hy⟩
        · rcases ih.mp ⟨v, hv, hy⟩ with ⟨w, hw, hyw⟩ | hnew
          · left; exact ⟨w, Or.inr hw, hyw⟩
          · right; exact hnew
      · rintro (⟨v, (⟨rfl, rfl⟩ | hv), hy⟩ | hnew)
        · exact ⟨v, Or.inl ⟨rfl, rfl⟩, hy⟩
        · obtain ⟨w, hw, hyw⟩ := ih.mpr (Or.inl ⟨v, hv, hy⟩)
          exact ⟨w, Or.inr hw, hyw⟩
        · obtain ⟨w, hw, hyw⟩ := ih.mpr (Or.inr hnew)
          exact ⟨w, Or.inr hw, hyw⟩

theorem keys_mapModify {K V : Type} [LinearOrder K] (m : List (K × V)) (k : K) (d : V)
    (f : V → V) (k' : K) :
    k' ∈ (mapModify m k d f).map Prod.fst ↔ k' = k ∨ k' ∈ m.map Prod.fst := by
  induction m with
  | nil => simp [mapModify]
  | cons p rest ih =>
    obtain ⟨k0, v0⟩ := p
    unfold mapModify
    split_ifs with h1 h2
    · simp
    · subst h2; simp
    · simp only [List.map_cons, List.mem_cons, ih]
      tauto

theorem sorted_mapModify {K V : Type} [LinearOrder K] (m : List (K × V)) (k : K) (d : V)
    (f : V → V) (hs : (m.map Prod.fst).Pairwise (· < ·)) :
    ((mapModify m k d f).map Prod.fst).Pairwise (· < ·) := by
  induction m with
  | nil => simp [mapModify]
  | cons p rest ih =>
    obtain ⟨k0, v0⟩ := p
    simp only [List.map_cons, List.pairwise_cons] at hs
    unfold mapModify
    split_ifs with h1 h2
    · simp only [List.map_cons, List.pairwise_cons, List.mem_cons]
      refine ⟨?_, hs.1, hs.2⟩
      rintro a (rfl | ha)
      · exact h1
      · exact lt_trans h1 (hs.1 a ha)
    · simp only [List.map_cons, List.pairwise_cons]
      exact ⟨hs.1, hs.2⟩
    · simp only [List.map_cons, List.pairwise_cons]
      refine ⟨?_, ih hs.2⟩
      intro a ha
      rcases (keys_mapModify rest k d f a).mp ha with rfl | ha
      · exact lt_of_le_of_ne (not_lt.mp h1) (fun h => h2 h.symm)
      · exact hs.1 a ha

theorem keys_mapAdjust {K V : Type} [DecidableEq K] (m : List (K × V)) (k : K) (f : V → V) :
    (mapAdjust m k f).map Prod.fst = m.map Prod.fst := by
  unfold mapAdjust
  rw [List.map_map]
  apply List.map_congr_left
  intro pair _
  by_cases h : pair.1 = k <;> simp [h]

theorem mem_mapAdjust_eraseRemove {K A : Type} [DecidableEq K] [DecidableEq A]
    (m : List (K × List A)) (k : K) (x : A) (k' : K) (y : A) :
    (∃ v, (k', v) ∈ mapAdjust m k (fun v => eraseRemove v x) ∧ y ∈ v)
      ↔ (∃ v, (k', v) ∈ m ∧ y ∈ v) ∧ ¬ (k' = k ∧ y = x) := by
  unfold mapAdjust
  constructor
  · rintro ⟨v, hv, hy⟩
    obtain ⟨⟨k0, v0⟩, hp, heq⟩ := List.mem_map.mp hv
    by_cases h : k0 = k
    · simp only [h, if_true, Prod.mk.injEq] at heq
      obtain ⟨rfl, rfl⟩ := heq
      have hy' := (mem_eraseRemove v0 x y).mp hy
      exact ⟨⟨v0, h ▸ hp, hy'.1⟩, fun hcon => hy'.2 hcon.2⟩
    · simp only [h, if_false, Prod.mk.injEq] at heq
      obtain ⟨rfl, rfl⟩ := heq
      exact ⟨⟨v0, hp, hy⟩, fun hcon => h hcon.1⟩
  · rintro ⟨⟨v, hv, hy⟩, hne⟩
    by_cases h : k' = k
    · subst h
      refine ⟨eraseRemove v x, ?_, (mem_eraseRemove v x y).mpr ⟨hy, fun hyx => hne ⟨rfl, hyx⟩⟩⟩
      exact List.mem_map.mpr ⟨(k', v), hv, by simp⟩
    · exact ⟨v, List.mem_map.mpr ⟨(k', v), hv, by simp [h]⟩, hy⟩

theorem mapFind_eq_none_iff {K V : Type} [DecidableEq K] (m : List (K × V)) (k : K) :
    mapFind m k = none ↔ ∀ v, (k, v) ∉ m := by
  induction m with
  | nil => simp [mapFind]
  | cons p rest ih =>
    obtain ⟨k0, v0⟩ := p
    unfold mapFind
    split_ifs with h
    · subst h
      simp only [false_iff, not_forall, not_not, reduceCtorEq]
      exact ⟨v0, List.mem_cons_self _ _⟩
    · rw [ih]
      constructor
      · intro hn v hv
        rcases List.mem_cons.mp hv with heq | hv
        · simp only [Prod.mk.injEq] at heq
          exact h heq.1.symm
        · exact hn v hv
      · intro hn v hv
        exact hn v (List.mem_cons_of_mem _ hv)
theorem mem_map_eraseRemove {K A : Type} [DecidableEq A] (m : List (K × List A)) (x : A)
    (k' : K) (y : A) :
    (∃ v, (k', v) ∈ (m.map fun pair => (pair.1, eraseRemove pair.2 x)) ∧ y ∈ v)
      ↔ (∃ v, (k', v) ∈ m ∧ y ∈ v) ∧ y ≠ x := by
  constructor
  · rintro ⟨v, hv, hy⟩
    obtain ⟨⟨k0, v0⟩, hp, heq⟩ := List.mem_map.mp hv
    simp only [Prod.mk.injEq] at heq
    obtain ⟨rfl, rfl⟩ := heq
    have hy' := (mem_eraseRemove v0 x y).mp hy
    exact ⟨⟨v0, hp, hy'.1⟩, hy'.2⟩
  · rintro ⟨⟨v, hv, hy⟩, hne⟩
    exact ⟨eraseRemove v x, List.mem_map.mpr ⟨(k', v), hv, rfl⟩,
      (mem_eraseRemove v x y).mpr ⟨hy, hne⟩⟩

theorem mem_mapErase {K V : Type} [DecidableEq K] (m : List (K × V)) (k k' : K) (v : V) :
    (k', v) ∈ mapErase m k ↔ (k', v) ∈ m ∧ k' ≠ k := by
  simp [mapErase, List.mem_filter]

namespace WebSocketServerManager

theorem handleSubscribe_callbackThrows (s : WebSocketServerManager)
    (hdl : ConnectionHandle) (message : Option Int) :
    (s.handleSubscribe hdl message).callbackThrows = s.callbackThrows := by
  cases message with
  | none => rfl
  | some channelId =>
    unfold handleSubscribe sendToClient notify callbackThrown
    cases h : s.hasSubscriptionCallback <;> cases ht : s.callbackThrows channelId true <;>
      simp [h, ht]

theorem handleUnsubscribe_callbackThrows (s : WebSocketServerManager)
    (hdl : ConnectionHandle) (message : Option Int) :
    (s.handleUnsubscribe hdl message).callbackThrows = s.callbackThrows := by
  cases message with
  | none => rfl
  | some channelId =>
    unfold handleUnsubscribe unsubscribeConnection sendToClient notify callbackThrown
    cases hf : mapFind s.m_channelSubscriptions channelId with
    | none => simp [hf]
    | some subs =>
      cases hcb : s.hasSubscriptionCallback <;> cases ht : s.callbackThrows channelId false <;>
        cases he : (eraseRemove subs hdl).isEmpty <;> simp [hf, hcb, he, ht]

theorem handleUnsubscribe_channelSubscriptions (s : WebSocketServerManager)
    (hdl : ConnectionHandle) (channelId : Int) :
    (s.handleUnsubscribe hdl (some channelId)).m_channelSubscriptions
      = mapAdjust s.m_channelSubscriptions channelId (fun subs => eraseRemove subs hdl) := by
  unfold handleUnsubscribe unsubscribeConnection sendToClient notify callbackThrown
  cases hf : mapFind s.m_channelSubscriptions channelId with
  | none =>
    have hno := (mapFind_eq_none_iff _ _).mp hf
    rw [mapAdjust_eq_self _ _ _ (fun v hv => absurd hv (hno v))]
    simp [hf]
  | some subs =>
    cases hcb : s.hasSubscriptionCallback <;> cases ht : s.callbackThrows channelId false <;>
      cases he : (eraseRemove subs hdl).isEmpty <;> simp [hf, hcb, he, ht]

theorem handleUnsubscribe_connections (s : WebSocketServerManager)
    (hdl : ConnectionHandle) (channelId : Int)
    (hret : s.callbackThrows channelId false = false) :
    (s.handleUnsubscribe hdl (some channelId)).m_connections
      = mapAdjust s.m_connections hdl (fun chans => eraseRemove chans channelId) := by
  unfold handleUnsubscribe unsubscribeConnection sendToClient notify callbackThrown
  cases hf : mapFind s.m_channelSubscriptions channelId with
  | none => simp [hf]
  | some subs =>
    cases hcb : s.hasSubscriptionCallback <;>
      cases he : (eraseRemove subs hdl).isEmpty <;> simp [hf, hcb, he, hret]

theorem sendAudioData_maps (s : WebSocketServerManager) (channelId : Int) (samples : List ℚ)
    (timestamp : ℚ) :
    (s.sendAudioData channelId samples timestamp).m_channelSubscriptions
        = s.m_channelSubscriptions
      ∧ (s.sendAudioData channelId samples timestamp).m_connections = s.m_connections := by
  unfold sendAudioData
  cases mapFind s.m_channelSubscriptions channelId <;> exact ⟨rfl, rfl⟩

theorem reachable_invariant (s : WebSocketServerManager) (hr : s.Reachable) :
    (s.m_channelSubscriptions.map Prod.fst).Pairwise (· < ·)
      ∧ (s.m_connections.map Prod.fst).Pairwise (· < ·)
      ∧ (∀ (channelId : Int) (flag : Bool), s.callbackThrows channelId flag = false)
      ∧ ∀ (h : ConnectionHandle) (c : Int),
          (∃ subs, (c, subs) ∈ s.m_channelSubscriptions ∧ h ∈ subs)
            ↔ (∃ chans, (h, chans) ∈ s.m_connections ∧ c ∈ chans) := by
  induction hr with
  | start s h1 h2 h3 =>
    rw [h1, h2]
    exact ⟨List.Pairwise.nil, List.Pairwise.nil, h3, by simp⟩
  | @handleSubscribe hdl message s0 _ ih =>
    have hthrows : ∀ (channelId : Int) (flag : Bool),
        (s0.handleSubscribe hdl message).callbackThrows channelId flag = false := by
      rw [handleSubscribe_callbackThrows]
      exact ih.2.2.1
    cases message with
    | none => exact ih
    | some channelId =>
      refine ⟨?_, ?_, hthrows, ?_⟩
      · rw [handleSubscribe_channelSubscriptions]
        exact sorted_mapModify _ _ _ _ ih.1
      · rw [handleSubscribe_connections]
        exact sorted_mapModify _ _ _ _ ih.2.1
      · intro h c
        rw [handleSubscribe_channelSubscriptions, handleSubscribe_connections,
          mem_mapModify_append, mem_mapModify_append, ih.2.2.2 h c]
        exact or_congr Iff.rfl and_comm
  | @handleUnsubscribe hdl message s0 _ ih =>
    have hthrows : ∀ (channelId : Int) (flag : Bool),
        (s0.handleUnsubscribe hdl message).callbackThrows channelId flag = false := by
      rw [handleUnsubscribe_callbackThrows]
      exact ih.2.2.1
    cases message with
    | none => exact ih
    | some channelId =>
      have hret := ih.2.2.1 channelId false
      refine ⟨?_, ?_, hthrows, ?_⟩
      · rw [handleUnsubscribe_channelSubscriptions, keys_mapAdjust]
        exact ih.1
      · rw [handleUnsubscribe_connections _ _ _ hret, keys_mapAdjust]
        exact ih.2.1
      · intro h c
        rw [handleUnsubscribe_channelSubscriptions, handleUnsubscribe_connections _ _ _ hret,
          mem_mapAdjust_eraseRemove, mem_mapAdjust_eraseRemove, ih.2.2.2 h c]
        exact and_congr Iff.rfl (not_congr and_comm)
  | @onClose hdl s0 _ ih =>
    refine ⟨?_, ?_, ih.2.2.1, ?_⟩
    · have hk : ((s0.onClose hdl).m_channelSubscriptions).map Prod.fst
          = s0.m_channelSubscriptions.map Prod.fst := by
        unfold onClose
        simp [List.map_map, Function.comp_def]
      rw [hk]
      exact ih.1
    · exact List.Pairwise.sublist (List.Sublist.map _ (List.filter_sublist _)) ih.2.1
    · intro h c
      unfold onClose
      simp only
      rw [mem_map_eraseRemove]
      constructor
      · rintro ⟨hex, hne⟩
        obtain ⟨chans, hch, hc⟩ := (ih.2.2.2 h c).mp hex
        exact ⟨chans, (mem_mapErase _ _ _ _).mpr ⟨hch, hne⟩, hc⟩
      · rintro ⟨chans, hch, hc⟩
        have hm := (mem_mapErase _ _ _ _).mp hch
        exact ⟨(ih.2.2.2 h c).mpr ⟨chans, hm.1, hc⟩, hm.2⟩
  | setSubscriptionCallback _ ih => exact ⟨ih.1, ih.2.1, fun _ _ => rfl, ih.2.2.2⟩
  | sendChannelList channels _ ih => exact ih
  | @sendAudioData channelId samples timestamp s0 _ ih =>
    have hthrows : (s0.sendAudioData channelId samples timestamp).callbackThrows
        = s0.callbackThrows := by
      unfold sendAudioData
      cases mapFind s0.m_channelSubscriptions channelId <;> rfl
    rw [(sendAudioData_maps _ channelId samples timestamp).1,
      (sendAudioData_maps _ channelId samples timestamp).2, hthrows]
    exact ih

end WebSocketServerManager

/-- When no invocation of the subscription callback throws, the two subscription indexes
stay mutually consistent: starting from empty maps, after any sequence of
`handleSubscribe`, `handleUnsubscribe` and `onClose` operations, connection `h` occurs in
`m_channelSubscriptions[c]` if and only if channel `c` occurs in `m_connections[h]`. -/
theorem indexes_consistent_without_exception (s : WebSocketServerManager) (hr : s.Reachable)
    (h : ConnectionHandle) (c : Int) :
    (∃ subs, mapFind s.m_channelSubscriptions c = some subs ∧ h ∈ subs)
      ↔ (∃ chans, mapFind s.m_connections h = some chans ∧ c ∈ chans) := by
  obtain ⟨hs1, hs2, _, hcons⟩ := WebSocketServerManager.reachable_invariant s hr
  have hn1 : (s.m_channelSubscriptions.map Prod.fst).Nodup :=
    List.Pairwise.imp (fun hlt => ne_of_lt hlt) hs1
  have hn2 : (s.m_connections.map Prod.fst).Nodup :=
    List.Pairwise.imp (fun hlt => ne_of_lt hlt) hs2
  constructor
  · rintro ⟨subs, hf, hm⟩
    obtain ⟨chans, hch, hc⟩ :=
      (hcons h c).mp ⟨subs, (mapFind_eq_some_iff _ _ _ hn1).mp hf, hm⟩
    exact ⟨chans, (mapFind_eq_some_iff _ _ _ hn2).mpr hch, hc⟩
  · rintro ⟨chans, hf, hm⟩
    obtain ⟨subs, hsb, hh⟩ :=
      (hcons h c).mpr ⟨chans, (mapFind_eq_some_iff _ _ _ hn2).mp hf, hm⟩
    exact ⟨subs, (mapFind_eq_some_iff _ _ _ hn1).mpr hsb, hh⟩

theorem indexes_consistent_without_exception_witness :
    sharedChannel.Reachable
      ∧ mapFind sharedChannel.m_channelSubscriptions 0 = some [1, 2]
      ∧ mapFind sharedChannel.m_connections 2 = some [0]
      ∧ ((∃ subs, mapFind sharedChannel.m_channelSubscriptions 0 = some subs ∧ 2 ∈ subs)
          ↔ (∃ chans, mapFind sharedChannel.m_connections 2 = some chans ∧ 0 ∈ chans))
      ∧ ((∃ subs, mapFind (sharedChannel.onClose 2).m_channelSubscriptions 0 = some subs
              ∧ 2 ∈ subs)
          ↔ (∃ chans, mapFind (sharedChannel.onClose 2).m_connections 2 = some chans
              ∧ 0 ∈ chans)) :=
  have hr : sharedChannel.Reachable :=
    WebSocketServerManager.Reachable.handleSubscribe 1 (some 1)
      (WebSocketServerManager.Reachable.handleSubscribe 2 (some 0)
        (WebSocketServerManager.Reachable.handleSubscribe 1 (some 0)
          (WebSocketServerManager.Reachable.setSubscriptionCallback
            (WebSocketServerManager.Reachable.start WebSocketServerManager.empty rfl rfl
              (fun _ _ => rfl)))))
  ⟨hr, by decide, by decide, indexes_consistent_without_exception sharedChannel hr 2 0,
    indexes_consistent_without_exception (sharedChannel.onClose 2)
      (WebSocketServerManager.Reachable.onClose 2 hr) 2 0⟩

/-- C24 (failing input): the registered subscription callback throws.  Connection 1
subscribes to channel 0: both maps are updated before the callback runs, so they agree.
Connection 1 then unsubscribes from channel 0: the subscriber list is emptied, the callback
is invoked and throws, and the handler is left before `m_connections` is updated.
Afterwards connection 1 is not among the subscribers of channel 0 while channel 0 is still
in the channel list of connection 1. -/
theorem handleUnsubscribe_throwing_callback_breaks_consistency :
    mapFind throwingSubscribed.m_channelSubscriptions 0 = some [1]
      ∧ mapFind throwingSubscribed.m_connections 1 = some [0]
      ∧ mapFind (throwingSubscribed.handleUnsubscribe 1 (some 0)).m_channelSubscriptions 0
          = some []
      ∧ mapFind (throwingSubscribed.handleUnsubscribe 1 (some 0)).m_connections 1 = some [0]
      ∧ (throwingSubscribed.handleUnsubscribe 1 (some 0)).callbackLog = [(0, true), (0, false)]
      ∧ ¬ ((∃ subs,
              mapFind (throwingSubscribed.handleUnsubscribe 1 (some 0)).m_channelSubscriptions 0
                = some subs ∧ 1 ∈ subs)
            ↔ (∃ chans,
                mapFind (throwingSubscribed.handleUnsubscribe 1 (some 0)).m_connections 1
                  = some chans ∧ 0 ∈ chans)) := by
  have h1 : mapFind (throwingSubscribed.handleUnsubscribe 1 (some 0)).m_channelSubscriptions 0
      = some [] := by decide
  have h2 : mapFind (throwingSubscribed.handleUnsubscribe 1 (some 0)).m_connections 1
      = some [0] := by decide
  refine ⟨by decide, by decide, h1, h2, by decide, ?_⟩
  intro hiff
  obtain ⟨subs, hs, hm⟩ := hiff.mpr ⟨[0], h2, List.mem_singleton.mpr rfl⟩
  rw [h1] at hs
  cases hs
  cases hm

end AsioBridge
